import Mathlib

/-!
# Pose-evaluation core of the `EvaluationPlatform` world plugin

Shallow embedding of `src/evaluation_platform/evaluation_platform.cpp`.

Numbers: a finite `double` or `float` is the rational number it stands for.  The symmetry
tests of the classifier, the matcher (the estimate position and the distances to it) and the
rethrow grid are computed in floating-point arithmetic: an operation is the exact operation
followed by the rounding to the nearest double or float, ties to even (`toDouble`, `toFloat`),
and a value that may fail to be finite has the type `Option ℚ`, in which `none` stands for an
infinity or a NaN (`dbl`, `acosC`, `Vector3.DistanceDouble`).  Exact numbers are kept where a
value is only read and compared: the speeds of the settling detector (`Vector3.Distance`), the
simulated times, and the bound `quaternion_degree_threshold * M_PI / 180` of lines 410 and
418.  The two constants `M_PI` and `std::numeric_limits<double>::max()` are the rational
values of those doubles.  The library functions `acos` and `sqrt` are not rational-valued, so
they are carried as the two fields of `CMath`; every theorem below holds for whatever these
two functions are, unless it states a hypothesis on them.  `abs` on a `double` is the
floating-point overload of `std::abs` (the file is compiled with `using namespace std`), the
absolute value.

Undefined behaviour: an out-of-range `operator[]` on a `std::vector` and an integer division
by zero are the value `none` of the classifier and the outcome `undefined` of a handler.

State machine: the fields of the plugin and the `static` locals of the handlers form `State`;
what a handler reads from the simulator, the message and the operating system is its input
record; a handler call yields an `Outcome`: it returns, the process exits, the busy wait for a
connection never ends, or the behaviour is undefined.  The effects recorded, in order, are the
messages handed to the publishers, the records appended to the log files (without their text)
and the calls of `_throwObjects`.  The loops over `m_models_name.size()` that read
`m_estimated_models[ i ]` run over the flag vector, which has the same size (lines 844, 1144,
1241).  The `int` and `uint` counters are unbounded integers: `steady_count` stays at most the
threshold, `unchange_count` at most 5, `unestimate_count` at most the number of objects, and
the log counters are only printed.

Rethrow and loading: the poses computed by `_throwObjects` and the criteria read by
`_initParameters` are embedded on their own (`throwPosition`, `throwAngle`, `loadCriteria`).
The operators `%` and `/` of `int` are `Int.tmod` and `Int.tdiv`.  The classes of
`gazebo::math` used there (`Angle`, `Vector3::operator==`, `Vector3::Normalize`) are library
code and follow the gazebo API.
-/

namespace EvaluationPlatform

/-! ## Geometry primitives -/

/-- Vector of `gazebo::math::Vector3`: three coordinates. -/
structure Vector3 where
  x : ℚ
  y : ℚ
  z : ℚ
deriving DecidableEq

/-- Functions of the C math library used by the plugin: `acos` on `[-1, 1]` and `sqrt` on the
non-negative numbers; the values are doubles. -/
structure CMath where
  acos : ℚ → ℚ
  sqrt : ℚ → ℚ

/-- Value of the macro `M_PI`: the double nearest to pi, `884279719003555 / 2^48`. -/
def M_PI : ℚ := 884279719003555 / 281474976710656

/-- Value of `std::numeric_limits< double >::max()`: `(2^53 - 1) * 2^971`. -/
def DBL_MAX : ℚ := (2 ^ 53 - 1) * 2 ^ 971

/-! ## Floating-point arithmetic -/

/-- Rounding of a rational number to the nearest integer, a tie going to the even one. -/
def roundEven (y : ℚ) : Int :=
  if y - ⌊y⌋ < 1 / 2 then ⌊y⌋
  else if 1 / 2 < y - ⌊y⌋ then ⌊y⌋ + 1
  else if ⌊y⌋ % 2 = 0 then ⌊y⌋
  else ⌊y⌋ + 1

/-- Rounding to the nearest binary floating-point number with `prec` significant bits and
least exponent `emin` (round to nearest, ties to even), whatever the magnitude. -/
def roundNearest (prec : Nat) (emin : Int) (x : ℚ) : ℚ :=
  let e : Int := max (Int.log 2 |x|) emin
  (roundEven (x / (2 : ℚ) ^ (e - prec + 1)) : ℚ) * (2 : ℚ) ^ (e - prec + 1)

/-- Rounding to a `float` (binary32), for a result below the largest `float`. -/
def toFloat (x : ℚ) : ℚ := roundNearest 24 (-126) x

/-- Rounding to a `double` (binary64), for a result below the largest `double`. -/
def toDouble (x : ℚ) : ℚ := roundNearest 53 (-1022) x

/-- Result of an operation on doubles whose exact value is `x`: the rounded value, or `none`
when it is beyond the largest double (the operation overflows to an infinity).  In a value of
type `Option ℚ`, `none` stands for a double that is not finite: an infinity or a NaN. -/
def dbl (x : ℚ) : Option ℚ :=
  if |toDouble x| ≤ DBL_MAX then some (toDouble x) else none

/-- Sum of two doubles; not finite as soon as an operand is not. -/
def dblAdd (a b : Option ℚ) : Option ℚ :=
  match a, b with
  | some x, some y => dbl (x + y)
  | _, _ => none

/-- Difference of two doubles; not finite as soon as an operand is not. -/
def dblSub (a b : Option ℚ) : Option ℚ :=
  match a, b with
  | some x, some y => dbl (x - y)
  | _, _ => none

/-- Product of two doubles; not finite as soon as an operand is not (the product of an
infinity and 0 is a NaN). -/
def dblMul (a b : Option ℚ) : Option ℚ :=
  match a, b with
  | some x, some y => dbl (x * y)
  | _, _ => none

/-- Scalar product `Vector3::Dot` of two vectors of moderate size, `x * x' + y * y' + z * z'`
in double arithmetic: each product and each sum is rounded. -/
def Vector3.Dot (a b : Vector3) : ℚ :=
  toDouble (toDouble (toDouble (a.x * b.x) + toDouble (a.y * b.y)) + toDouble (a.z * b.z))

/-- Unary minus of `Vector3`. -/
def Vector3.neg (a : Vector3) : Vector3 :=
  ⟨-a.x, -a.y, -a.z⟩

/-- Euclidean distance `Vector3::Distance` as an exact number: the square root of the sum of
the squared coordinate differences.  It is used for the speeds of the models, which are read
from the simulator and compared with the two bounds of the settling detector. -/
def Vector3.Distance (m : CMath) (a b : Vector3) : ℚ :=
  m.sqrt ((a.x - b.x) * (a.x - b.x) + (a.y - b.y) * (a.y - b.y) + (a.z - b.z) * (a.z - b.z))

/-- Value of `Vector3::Distance` in double arithmetic,
`sqrt( ( x - x' ) * ( x - x' ) + ( y - y' ) * ( y - y' ) + ( z - z' ) * ( z - z' ) )`: every
difference, product and sum is rounded, and the value is not finite (`none`) as soon as one of
them overflows. -/
def Vector3.DistanceDouble (m : CMath) (a b : Vector3) : Option ℚ :=
  let dx := dblSub (some a.x) (some b.x)
  let dy := dblSub (some a.y) (some b.y)
  let dz := dblSub (some a.z) (some b.z)
  (dblAdd (dblAdd (dblMul dx dx) (dblMul dy dy)) (dblMul dz dz)).map m.sqrt

/-- Test `s.compare( 0, n, t ) == 0` of `std::string`: the substring of `s` that starts at 0
and has at most `n` characters is equal to `t`. -/
def compareEq0 (s : List Char) (n : Nat) (t : List Char) : Bool :=
  decide (s.take n = t)

/-! ## Symmetry criteria model -/

/-- Modelled from the spec: the record `EvaluationCriteria` is declared in
`evaluation_criteria.h`, which is missing; the fields are the ones that
`evaluation_platform.cpp` reads and writes (translation threshold, rotation threshold in
degrees, and the flags and parameters of the cylinder-like, circular and rotational symmetry
modes).  The four `rot_sym_*` fields are the four parallel per-axis vectors. -/
structure EvaluationCriteria where
  translation_threshold : ℚ
  quaternion_degree_threshold : ℚ
  has_rotational_symmetry : Bool
  rot_sym_axes : List Vector3
  rot_sym_order : List Int
  rot_sym_tolerance_degree : List ℚ
  rot_sym_axis_deviation_degree : List ℚ
  has_circular_symmetry : Bool
  cir_sym_axis : Vector3
  cir_sym_axis_deviation_degree : ℚ
  is_cylinder_like : Bool
  cylinder_axis : Vector3
  cylinder_axis_deviation_threshold : ℚ

/-! ## Pose correctness classifier (`_receiveResult`, lines 399-505) -/

/-- Value of the C function `acos`: a NaN (`none`) outside `[-1, 1]`. -/
def acosC (m : CMath) (v : ℚ) : Option ℚ :=
  if v < -1 ∨ 1 < v then none else some (m.acos v)

/-- Value of `float axis_bias_degree = acos( dot ) * 180 / M_PI` (lines 444 and 461): the
product and the quotient are rounded to doubles, the result to a float; a NaN stays a NaN. -/
def axisBiasDegree (m : CMath) (dot : ℚ) : Option ℚ :=
  (acosC m dot).map fun a => toFloat (toDouble (toDouble (a * 180) / M_PI))

/-- Test `axis_bias_degree < threshold || 180 - axis_bias_degree < threshold` of lines 426,
445 and 465 on the float `axis_bias_degree`: the difference is a float, and both comparisons
are false on a NaN. -/
def deviationTest (axis_bias_degree : Option ℚ) (threshold : ℚ) : Bool :=
  match axis_bias_degree with
  | none => false
  | some d => decide (d < threshold ∨ toFloat (180 - d) < threshold)

/-- Loop `for( int j = 0; j < order; j++ )` of lines 468-475: some `j` below the order has
`abs( error_quaternion_angle - radian_interval * j )` below the tolerance in radians.  The
product of the float `radian_interval` and `j` is a float, the difference and the tolerance in
radians are doubles. -/
def rotSymAngleMatch (order : Int) (radian_interval tolerance_degree error_quaternion_angle : ℚ) :
    Bool :=
  (List.range order.toNat).any fun j =>
    decide (|toDouble (error_quaternion_angle - toFloat (radian_interval * toFloat (j : ℚ)))| <
      toDouble (toDouble (tolerance_degree * M_PI) / 180))

/-- Body of the loop over the rotational-symmetry axes, lines 461-486, for axis number `i` and
the current value of `estimate_correct`.  `360 / order` is the division of two `int`s, stored
in the float `degree_interval`; `radian_interval` is a float computed in doubles. -/
def rotSymAxisStep (m : CMath) (criteria : EvaluationCriteria) (error_quaternion_angle : ℚ)
    (error_quaternion_axis : Vector3) (estimate_correct : Bool) (i : Nat) : Option Bool :=
  match criteria.rot_sym_axes[i]?, criteria.rot_sym_order[i]?,
      criteria.rot_sym_axis_deviation_degree[i]? with
  | some axis, some order, some deviation_degree =>
    if order = 0 then none
    else
      let axis_bias_degree := axisBiasDegree m (axis.Dot error_quaternion_axis)
      let degree_interval : ℚ := toFloat ((Int.tdiv 360 order : Int) : ℚ)
      let radian_interval : ℚ := toFloat (toDouble (toDouble (degree_interval * M_PI) / 180))
      if deviationTest axis_bias_degree deviation_degree then
        if 0 < order then
          match criteria.rot_sym_tolerance_degree[i]? with
          | some tolerance_degree =>
            some (estimate_correct ||
              rotSymAngleMatch order radian_interval tolerance_degree error_quaternion_angle)
          | none => none
        else some estimate_correct
      else some estimate_correct
  | _, _, _ => none

/-- Loop `for( uint i = 0; i < criteria.rot_sym_axes.size(); i++ )` of lines 459-487, entered
with `estimate_correct == false`. -/
def rotSymLoop (m : CMath) (criteria : EvaluationCriteria) (error_quaternion_angle : ℚ)
    (error_quaternion_axis : Vector3) : Option Bool :=
  (List.range criteria.rot_sym_axes.length).foldlM
    (rotSymAxisStep m criteria error_quaternion_angle error_quaternion_axis) false

/-- Circular-symmetry test of lines 442-455: the value of `estimate_correct` after it. -/
def cirSymCheck (m : CMath) (criteria : EvaluationCriteria) (error_quaternion_axis : Vector3) :
    Bool :=
  if criteria.has_circular_symmetry then
    deviationTest (axisBiasDegree m (criteria.cir_sym_axis.Dot error_quaternion_axis))
      criteria.cir_sym_axis_deviation_degree
  else false

/-- Cylinder-like test of lines 418-437: the value of `estimate_correct` after it.  The float
`axis_bias_degree` is the value of `acos`, in radians. -/
def cylinderCheck (m : CMath) (criteria : EvaluationCriteria) (error_quaternion_angle : ℚ)
    (error_quaternion_axis : Vector3) : Bool :=
  if |M_PI - error_quaternion_angle| < criteria.quaternion_degree_threshold * M_PI / 180 then
    true
  else
    deviationTest ((acosC m (criteria.cylinder_axis.Dot error_quaternion_axis)).map toFloat)
      criteria.cylinder_axis_deviation_threshold

/-- Value of `estimate_correct` computed by lines 399-505 of `_receiveResult`, from the name of
the nearest object, the name and the criteria of the recognized target class, the translation
error and the axis and angle (radians) of the rotation error. -/
def estimateCorrect (m : CMath) (nearest_name target_name : List Char)
    (criteria : EvaluationCriteria) (translate_error error_quaternion_angle : ℚ)
    (error_quaternion_axis : Vector3) : Option Bool :=
  if compareEq0 nearest_name target_name.length target_name then
    if translate_error < criteria.translation_threshold then
      if error_quaternion_angle < criteria.quaternion_degree_threshold * M_PI / 180 then
        some true
      else if criteria.is_cylinder_like then
        some (cylinderCheck m criteria error_quaternion_angle error_quaternion_axis)
      else
        let estimate_correct := cirSymCheck m criteria error_quaternion_axis
        if !estimate_correct && criteria.has_rotational_symmetry then
          rotSymLoop m criteria error_quaternion_angle error_quaternion_axis
        else some estimate_correct
    else some false
  else some false

/-! ## Nearest-ground-truth matcher (`_receiveResult`, lines 324-345) -/

/-- Value of `cur_dist` at line 339 for a model at `q`: the distance in double arithmetic from
the estimate position, which is itself not finite (`none`) when one of its coordinates is
not. -/
def curDist (m : CMath) (estimate_pos : Option Vector3) (q : Vector3) : Option ℚ :=
  estimate_pos.bind fun e => e.DistanceDouble m q

/-- Loop of lines 328-345 from object number `i` on.  `flags` are the entries
`m_estimated_models[ i ]`, `m_estimated_models[ i + 1 ]`, ... still to visit, `pos k` is the
world position of the model named `m_models_name[ k ]`, and the pair is
`cur_nearest_idx` (`none` for the initial `-1`, when `cur_nearest_object` is null) and
`translate_error`.  The comparison `cur_dist < translate_error` is false when `cur_dist` is
not finite. -/
def nearestLoop (m : CMath) (estimate_pos : Option Vector3) (pos : Nat → Vector3) :
    List Bool → Nat → Option Nat × ℚ → Option Nat × ℚ
  | [], _, acc => acc
  | estimated :: flags, i, acc =>
    if estimated then nearestLoop m estimate_pos pos flags (i + 1) acc
    else
      match curDist m estimate_pos (pos i) with
      | some cur_dist =>
        if cur_dist < acc.2 then nearestLoop m estimate_pos pos flags (i + 1) (some i, cur_dist)
        else nearestLoop m estimate_pos pos flags (i + 1) acc
      | none => nearestLoop m estimate_pos pos flags (i + 1) acc

/-- Lines 324-345: the search starts at index 0 with no candidate and `translate_error` equal
to the largest double.  The number of objects `m_models_name.size()` is the length of
`m_estimated_models` (both vectors are filled together, lines 1139-1144). -/
def findNearest (m : CMath) (estimate_pos : Option Vector3) (pos : Nat → Vector3)
    (m_estimated_models : List Bool) : Option Nat × ℚ :=
  nearestLoop m estimate_pos pos m_estimated_models 0 (none, DBL_MAX)

/-! ## Trial state machine -/

/-- Matrix of `gazebo::math::Matrix4`: entry `a i j` is `a[i][j]`. -/
abbrev Matrix4 := Fin 4 → Fin 4 → ℚ

/-- Value of the literal `0.001` of lines 309-311: the double nearest to one thousandth. -/
def milli : ℚ := 1152921504606847 / 1152921504606846976

/-- Entry `result[ j ][ i ]` after lines 298-311: `pose_matrix4( i + j * 4 )`, the translation
being converted from millimetres to metres.  An entry of the message is a double that may fail
to be finite. -/
def resultEntry (pose_matrix4 : List (Option ℚ)) (j i : Nat) : Option ℚ :=
  if i = 3 ∧ j < 3 then dblMul (pose_matrix4.getD (i + j * 4) none) (some milli)
  else pose_matrix4.getD (i + j * 4) none

/-- Entry `[ i ][ 3 ]` of the product `m_sensor_pose * result_world` of line 315 (`operator*`
of `Matrix4`): the sum, from left to right, of the four products of row `i` and column 3. -/
def worldCoord (m_sensor_pose : Matrix4) (pose_matrix4 : List (Option ℚ)) (i : Fin 4) :
    Option ℚ :=
  dblAdd
    (dblAdd
      (dblAdd (dblMul (some (m_sensor_pose i 0)) (resultEntry pose_matrix4 0 3))
        (dblMul (some (m_sensor_pose i 1)) (resultEntry pose_matrix4 1 3)))
      (dblMul (some (m_sensor_pose i 2)) (resultEntry pose_matrix4 2 3)))
    (dblMul (some (m_sensor_pose i 3)) (resultEntry pose_matrix4 3 3))

/-- Value of `result_world.GetTranslation()` at line 339: the fourth column of the product;
`none` when one of the three coordinates is not finite. -/
def worldTranslation (m_sensor_pose : Matrix4) (pose_matrix4 : List (Option ℚ)) :
    Option Vector3 :=
  match worldCoord m_sensor_pose pose_matrix4 0, worldCoord m_sensor_pose pose_matrix4 1,
      worldCoord m_sensor_pose pose_matrix4 2 with
  | some x, some y, some z => some ⟨x, y, z⟩
  | _, _, _ => none

/-- Parameters read by `_initParameters` and the two name lists filled by
`_environmentConstruction`; none of them changes after `Load`. -/
structure Params where
  m_resimulate_after_fail : Bool
  m_criteria : List EvaluationCriteria
  m_target_model_names : List (List Char)
  m_models_name : List (List Char)
  m_check_steady_interval : ℚ
  m_consecutive_steady_threshold : Int
  m_linear_vel_threshold : ℚ
  m_stacking_width : Int
  m_stacking_height : Int
  m_stacking_layers : Int
  m_snapshot_mode : Int
  m_total_snapshot : Int
  m_error_logging : Bool
  m_success_logging : Bool
  m_stacking_distance : ℚ
  m_stacking_center : Vector3

/-- Mutable fields of the plugin and the `static` locals of its three handlers (`cur_time`,
`steady_count`, `start_stacking_time`, `get_time_stamp` of `_onUpdate`; the three log counters
of `_receiveResult`; `prev_unestimate_count`, `unchange_count`, `inestimable_count` of
`_receiveEnded`).  `update_connected` tells whether `_onUpdate` is connected to the world update
event (`m_update_connection`).  The counters are unbounded integers: `unchange_count` stays
below 6 and `unestimate_count` is bounded by the number of objects. -/
structure State where
  m_estimated_models : List Bool
  m_sensor_pose : Matrix4
  m_current_snapshot : Int
  m_rethrowed : Bool
  m_inestimable_state : Bool
  m_skip_receive_result : Bool
  update_connected : Bool
  cur_time : ℚ
  steady_count : Int
  start_stacking_time : ℚ
  get_time_stamp : Bool
  error_log_count : Int
  success_log_count : Int
  success_before_fail_count : Int
  prev_unestimate_count : Nat
  unchange_count : Nat
  inestimable_count : Nat

/-- Log files of the plugin, one per category. -/
inductive LogFile where
  | time_to_steady
  | error_log
  | success_log
  | success_between_fail_count
  | inestimable_log
deriving DecidableEq

/-- Effects of a handler, in the order in which the code performs them: a message handed to
one of the four publishers, a record appended to a log file (its text is left out), or a call
of `_throwObjects`.  The other calls into the simulator (freezing and releasing the models,
`SetWorldPose`, `_resultVisualize`) are not recorded. -/
inductive Event where
  | publishTakePicture
  | publishOnlySnapshot
  | publishResimulate
  | publishEvaluationResult (id : Nat)
  | log (file : LogFile)
  | throwObjects
deriving DecidableEq

/-- How a handler call ends: it returns (`ok`), the process terminates by `exit( -1 )` or an
uncaught exception (`exited`), the busy wait for a connection never ends (`hung`), or the
behaviour is undefined (out-of-range index, division by zero).  The first three carry the state
and the effects up to that point. -/
inductive Outcome where
  | ok (s : State) (out : List Event)
  | exited (s : State) (out : List Event)
  | hung (s : State) (out : List Event)
  | undefined

/-- Effects of a handler call. -/
def Outcome.out : Outcome → List Event
  | .ok _ out => out
  | .exited _ out => out
  | .hung _ out => out
  | .undefined => []

/-- State at the end of a handler call, when there is one. -/
def Outcome.state? : Outcome → Option State
  | .ok s _ => some s
  | .exited s _ => some s
  | .hung s _ => some s
  | .undefined => none

/-- Sequencing of two parts of a handler: the second part runs when the first one returns. -/
def Outcome.andThen (o : Outcome) (f : State → List Event → Outcome) : Outcome :=
  match o with
  | .ok s out => f s out
  | other => other

/-- Value of `m_stacking_width * m_stacking_height * m_stacking_layers` converted to `uint`. -/
def fullCount (p : Params) : Nat :=
  ((p.m_stacking_width * p.m_stacking_height * p.m_stacking_layers) % 4294967296).toNat

/-- State after `Load` (lines 41-44) with the initial values of the `static` locals.  -/
def initialState (p : Params) : State where
  m_estimated_models := List.replicate p.m_models_name.length false
  m_sensor_pose := fun _ _ => 0
  m_current_snapshot := 0
  m_rethrowed := true
  m_inestimable_state := false
  m_skip_receive_result := false
  update_connected := true
  cur_time := 0
  steady_count := 0
  start_stacking_time := 0
  get_time_stamp := true
  error_log_count := 0
  success_log_count := 0
  success_before_fail_count := 0
  prev_unestimate_count := fullCount p
  unchange_count := 0
  inestimable_count := 0

/-! ### Settling detector and steady capture (`_onUpdate`) -/

/-- What one call of `_onUpdate` reads from the simulator and the operating system: the
simulated time, the real time at line 101, the world velocities of the model
named `m_models_name[ i ]`, the matrix computed at lines 256-265, whether the `time_to_steady`
file can be opened, and whether the depth sensor ever connects to the picture publisher. -/
structure UpdateInput where
  sim_time : ℚ
  real_time : ℚ
  linear_vel : Nat → Vector3
  angular_vel : Nat → Vector3
  sensor_pose : Matrix4
  file_opens : Bool
  sensor_connects : Bool

/-- Loop of lines 115-146 from object number `i` on: `true` when it runs to its end, `false`
when it leaves `_onUpdate` at line 136 or 144. -/
def steadyLoop (m : CMath) (p : Params) (linear_vel angular_vel : Nat → Vector3) :
    List Bool → Nat → Bool
  | [], _ => true
  | estimated :: flags, i =>
    if estimated then steadyLoop m p linear_vel angular_vel flags (i + 1)
    else if (linear_vel i).Distance m ⟨0, 0, 0⟩ < p.m_linear_vel_threshold then
      if (angular_vel i).Distance m ⟨0, 0, 0⟩ < 5 then
        steadyLoop m p linear_vel angular_vel flags (i + 1)
      else false
    else false

/-- Lines 156-278 of `_onUpdate`, entered when `steady_count` has reached the threshold. -/
def steadyCapture (p : Params) (inp : UpdateInput) (s : State) : Outcome :=
  if s.m_rethrowed = true ∧ inp.file_opens = false then .exited s []
  else
    let out1 : List Event := if s.m_rethrowed then [.log .time_to_steady] else []
    let s1 : State := { s with m_rethrowed := false, get_time_stamp := true }
    if inp.sensor_connects then
      .ok { s1 with
          m_sensor_pose := inp.sensor_pose
          m_skip_receive_result := false
          update_connected := false
          steady_count := 0 }
        (out1 ++ [.publishTakePicture] ++
          if p.m_snapshot_mode = 1 then [.publishOnlySnapshot] else [])
    else .hung s1 out1

/-- Lines 99-103 of `_onUpdate`: the real time is stored when `get_time_stamp` is set. -/
def stampTime (inp : UpdateInput) (s : State) : State :=
  if s.get_time_stamp then
    { s with start_stacking_time := inp.real_time, get_time_stamp := false }
  else s

/-- Handler `_onUpdate` (lines 90-281). -/
def _onUpdate (m : CMath) (p : Params) (inp : UpdateInput) (s : State) : Outcome :=
  let s1 : State := stampTime inp s
  if inp.sim_time - s1.cur_time > p.m_check_steady_interval then
    let s2 : State := { s1 with cur_time := inp.sim_time }
    if steadyLoop m p inp.linear_vel inp.angular_vel s2.m_estimated_models 0 then
      let s3 : State := { s2 with steady_count := s2.steady_count + 1 }
      if s3.steady_count ≥ p.m_consecutive_steady_threshold then steadyCapture p inp s3
      else .ok s3 []
    else .ok { s2 with steady_count := 0 } []
  else .ok s1 []

/-! ### Estimate handler (`_receiveResult`) -/

/-- What one call of `_receiveResult` reads: the two fields of the message, the world position
of the model named `m_models_name[ i ]`, the axis and the angle that `GetAsAxis` returns at
line 365 when that model is the nearest one, which log files can be opened, and whether a
subscriber ever connects to the resimulate publisher. -/
structure ResultInput where
  object_name : List Char
  pose_matrix4 : List (Option ℚ)
  model_pos : Nat → Vector3
  error_quaternion_axis : Nat → Vector3
  error_quaternion_angle : Nat → ℚ
  file_opens : LogFile → Bool
  resimulate_connects : Bool

/-- Loop of lines 375-387 from target number `i` on: `recognized_idx` is the last target whose
name the object label starts with (`none` for `-1`). -/
def recognizedIdx (object_name : List Char) : List (List Char) → Nat → Option Nat → Option Nat
  | [], _, recognized_idx => recognized_idx
  | target :: targets, i, recognized_idx =>
    if compareEq0 object_name target.length target then
      recognizedIdx object_name targets (i + 1) (some i)
    else recognizedIdx object_name targets (i + 1) recognized_idx

/-- Where lines 285-505 of `_receiveResult` lead: one of the three early returns, the fatal
exit of line 393, undefined behaviour, or a scored estimate with the index of the nearest object
and the value of `estimate_correct`. -/
inductive Scoring where
  | suppressed
  | malformed
  | noCandidate
  | unknownLabel
  | undefined
  | scored (cur_nearest_idx : Nat) (estimate_correct : Bool)
deriving DecidableEq

/-- Lines 353-505 of `_receiveResult`, for the nearest object `cur_nearest_idx` at distance
`translate_error`: search of the recognized class and classification.  The name of the nearest
object is `m_models_name[ cur_nearest_idx ]`, the name under which the model was looked up. -/
def scoreCandidate (m : CMath) (p : Params) (inp : ResultInput) (cur_nearest_idx : Nat)
    (translate_error : ℚ) : Scoring :=
  match recognizedIdx inp.object_name p.m_target_model_names 0 none with
  | none => .unknownLabel
  | some recognized_idx =>
    match p.m_models_name[cur_nearest_idx]?, p.m_target_model_names[recognized_idx]?,
        p.m_criteria[recognized_idx]? with
    | some nearest_name, some target_name, some criteria =>
      match estimateCorrect m nearest_name target_name criteria translate_error
          (inp.error_quaternion_angle cur_nearest_idx)
          (inp.error_quaternion_axis cur_nearest_idx) with
      | some estimate_correct => .scored cur_nearest_idx estimate_correct
      | none => .undefined
    | _, _, _ => .undefined

/-- Lines 285-505 of `_receiveResult`. -/
def scoring (m : CMath) (p : Params) (inp : ResultInput) (s : State) : Scoring :=
  if s.m_skip_receive_result then .suppressed
  else if inp.pose_matrix4.length ≠ 16 then .malformed
  else
    let estimate_pos := worldTranslation s.m_sensor_pose inp.pose_matrix4
    match findNearest m estimate_pos inp.model_pos s.m_estimated_models with
    | (none, _) => .noCandidate
    | (some cur_nearest_idx, translate_error) =>
      scoreCandidate m p inp cur_nearest_idx translate_error

/-- Estimation logging, lines 510-587. -/
def logEstimation (p : Params) (inp : ResultInput) (estimate_correct : Bool) (s : State)
    (out : List Event) : Outcome :=
  if (estimate_correct && p.m_success_logging) || (!estimate_correct && p.m_error_logging) then
    if estimate_correct then
      if inp.file_opens .success_log then
        .ok { s with success_log_count := s.success_log_count + 1 } (out ++ [.log .success_log])
      else .exited s out
    else
      if inp.file_opens .error_log then
        .ok { s with error_log_count := s.error_log_count + 1 } (out ++ [.log .error_log])
      else .exited s out
  else .ok s out

/-- Handling of `m_inestimable_state`, lines 594-615. -/
def logAfterInestimable (inp : ResultInput) (s : State) (out : List Event) : Outcome :=
  if s.m_inestimable_state then
    if inp.file_opens .success_between_fail_count then
      .ok { s with m_inestimable_state := false, success_before_fail_count := 0 }
        (out ++ [.log .success_between_fail_count])
    else .exited { s with m_inestimable_state := false } out
  else .ok s out

/-- Count of successes between failures, lines 617-639. -/
def logSuccessBetweenFail (inp : ResultInput) (estimate_correct : Bool) (s : State)
    (out : List Event) : Outcome :=
  if estimate_correct then
    .ok { s with success_before_fail_count := s.success_before_fail_count + 1 } out
  else if inp.file_opens .success_between_fail_count then
    .ok { s with success_before_fail_count := 0 } (out ++ [.log .success_between_fail_count])
  else .exited s out

/-- Lines 644-699: the evaluation result is published, then the matched object is marked on
success, and on failure the resimulate policy is applied. -/
def resultPublish (p : Params) (inp : ResultInput) (cur_nearest_idx : Nat)
    (estimate_correct : Bool) (s : State) (out : List Event) : Outcome :=
  let out1 := out ++ [.publishEvaluationResult (if estimate_correct then 1 else 0)]
  if estimate_correct then
    .ok { s with m_estimated_models := s.m_estimated_models.set cur_nearest_idx true } out1
  else if p.m_resimulate_after_fail then
    if inp.resimulate_connects then
      .ok { s with
          m_estimated_models := List.replicate s.m_estimated_models.length true
          m_skip_receive_result := true }
        (out1 ++ [.publishResimulate])
    else .hung s out1
  else .ok s out1

/-- Lines 507-699 of `_receiveResult`, for a scored estimate. -/
def resultHandle (p : Params) (inp : ResultInput) (cur_nearest_idx : Nat)
    (estimate_correct : Bool) (s : State) : Outcome :=
  (((logEstimation p inp estimate_correct s []).andThen
    (logAfterInestimable inp)).andThen
    (logSuccessBetweenFail inp estimate_correct)).andThen
    (resultPublish p inp cur_nearest_idx estimate_correct)

/-- Handler `_receiveResult` (lines 283-700). -/
def _receiveResult (m : CMath) (p : Params) (inp : ResultInput) (s : State) : Outcome :=
  match scoring m p inp s with
  | .suppressed => .ok s []
  | .malformed => .ok s []
  | .noCandidate => .ok s []
  | .unknownLabel => .exited s []
  | .undefined => .undefined
  | .scored cur_nearest_idx estimate_correct =>
    resultHandle p inp cur_nearest_idx estimate_correct s

/-! ### Round evaluation (`_receiveEnded`) -/

/-- What one call of `_receiveEnded` reads from outside: whether the `inestimable_log` file can
be opened. -/
structure EndedInput where
  file_opens : Bool

/-- Value of `unestimate_count` after the loop of lines 723-730. -/
def unestimateCount (s : State) : Nat :=
  s.m_estimated_models.count false

/-- Value of `unchange_count` after line 732. -/
def updatedStreak (s : State) : Nat :=
  if unestimateCount s ≠ 0 ∧ unestimateCount s = s.prev_unestimate_count then
    s.unchange_count + 1
  else 0

/-- Lines 826-891 of `_receiveEnded`: reset of the trial, or release of the unestimated
objects; `_onUpdate` is connected again in both cases. -/
def roundReset (p : Params) (unestimate_count : Nat) (s : State) (out : List Event) : Outcome :=
  if unestimate_count = 0 ∨ 3 ≤ s.unchange_count then
    .ok { s with
        m_estimated_models := List.replicate p.m_models_name.length false
        m_rethrowed := true
        unchange_count := if 5 ≤ s.unchange_count then 0 else s.unchange_count
        update_connected := true }
      (out ++ [.throwObjects])
  else .ok { s with update_connected := true } out

/-- Handler `_receiveEnded` (lines 711-892).  The text of the `inestimable_log` record is left
out. -/
def _receiveEnded (p : Params) (inp : EndedInput) (s : State) : Outcome :=
  let unestimate_count := unestimateCount s
  let s1 : State :=
    { s with unchange_count := updatedStreak s, prev_unestimate_count := unestimate_count }
  if 3 ≤ s1.unchange_count then
    let s2 : State := { s1 with m_inestimable_state := true, prev_unestimate_count := fullCount p }
    if inp.file_opens then
      roundReset p unestimate_count { s2 with inestimable_count := s2.inestimable_count + 1 }
        [.log .inestimable_log, .publishEvaluationResult 2]
    else .exited s2 []
  else roundReset p unestimate_count s1 []

/-! ### Rethrow in snapshot mode (`_rethrowForOnlySnapshot`) -/

/-- Handler `_rethrowForOnlySnapshot` (lines 1217-1253); `data` is the value of
`stoi( _msgs->data() )`, `none` when `stoi` throws. -/
def _rethrowForOnlySnapshot (p : Params) (data : Option Int) (s : State) : Outcome :=
  match data with
  | none => .exited s []
  | some n =>
    if n = p.m_total_snapshot then .ok { s with m_current_snapshot := n } []
    else
      .ok { s with
          m_estimated_models := List.replicate p.m_models_name.length false
          m_rethrowed := true
          update_connected := true }
        [.throwObjects]

/-! ### Interleavings of the handlers -/

/-- One callback of the plugin with what it reads. -/
inductive Input where
  | update (inp : UpdateInput)
  | result (inp : ResultInput)
  | ended (inp : EndedInput)
  | rethrowEvent (data : Option Int)

/-- Call of the handler that an input is for. -/
def handle (m : CMath) (p : Params) (i : Input) (s : State) : Outcome :=
  match i with
  | .update inp => _onUpdate m p inp s
  | .result inp => _receiveResult m p inp s
  | .ended inp => _receiveEnded p inp s
  | .rethrowEvent data => _rethrowForOnlySnapshot p data s

/-- Effects of a sequence of callbacks, in order; the sequence stops at the first call that
does not return. -/
def run (m : CMath) (p : Params) : List Input → State → List Event
  | [], _ => []
  | i :: rest, s =>
    match handle m p i s with
    | .ok s1 out => out ++ run m p rest s1
    | o => o.out

/-- Outcomes of a sequence of callbacks, call by call; the sequence stops at the first call
that does not return. -/
def runOutcomes (m : CMath) (p : Params) : List Input → State → List Outcome
  | [], _ => []
  | i :: rest, s =>
    match handle m p i s with
    | .ok s1 out => .ok s1 out :: runOutcomes m p rest s1
    | o => [o]

/-- An effect is an `EvaluationResult` message, whatever its id. -/
def isEvaluationResult : Event → Bool
  | .publishEvaluationResult _ => true
  | _ => false

/-- State in which call number `n` (from 0) of a sequence of callbacks is received: `none` when
an earlier call did not return or the sequence is shorter. -/
def stateBefore (m : CMath) (p : Params) : List Input → State → Nat → Option State
  | _, s, 0 => some s
  | [], _, _ + 1 => none
  | i :: rest, s, n + 1 =>
    match handle m p i s with
    | .ok s1 _ => stateBefore m p rest s1 n
    | _ => none

/-- Reading of one effect against the rethrown latch: a call of `_throwObjects` sets it, a
`time_to_steady` record needs it set and clears it (`none` when the latch is clear), any other
effect leaves it. -/
def latchStep (b : Option Bool) (e : Event) : Option Bool :=
  match b, e with
  | none, _ => none
  | some _, .throwObjects => some true
  | some b, .log .time_to_steady => if b then some false else none
  | some b, _ => some b

/-- Reading of a sequence of effects against the rethrown latch, from the value `b`. -/
def latchScan (b : Bool) (tr : List Event) : Option Bool :=
  tr.foldl latchStep (some b)

/-- Every input of a list passes the test of line 106, from the time `t` of the last sample on:
its simulated time exceeds the time of the sample before it by more than the interval. -/
def sampled (p : Params) : ℚ → List UpdateInput → Prop
  | _, [] => True
  | t, inp :: rest => inp.sim_time - t > p.m_check_steady_interval ∧ sampled p inp.sim_time rest

/-- In the sample `inp` every object that is not estimated has a linear speed below
`m_linear_vel_threshold` and an angular speed below the bound 5 of line 127. -/
def quiet (m : CMath) (p : Params) (flags : List Bool) (inp : UpdateInput) : Prop :=
  ∀ i, flags[i]? = some false →
    (inp.linear_vel i).Distance m ⟨0, 0, 0⟩ < p.m_linear_vel_threshold ∧
    (inp.angular_vel i).Distance m ⟨0, 0, 0⟩ < 5

/-- Two samples give every object the same linear speed and an angular speed on the same side
of the bound 5; what else `_onUpdate` reads (the times, the sensor pose, the file and the
connection) is the same in both. -/
def sameUpToAngular (m : CMath) (a b : UpdateInput) : Prop :=
  a.sim_time = b.sim_time ∧ a.real_time = b.real_time ∧
  a.sensor_pose = b.sensor_pose ∧ a.file_opens = b.file_opens ∧
  a.sensor_connects = b.sensor_connects ∧
  ∀ i, (a.linear_vel i).Distance m ⟨0, 0, 0⟩ = (b.linear_vel i).Distance m ⟨0, 0, 0⟩ ∧
    ((a.angular_vel i).Distance m ⟨0, 0, 0⟩ < 5 ↔ (b.angular_vel i).Distance m ⟨0, 0, 0⟩ < 5)

/-- Round-end signal received in a state `s` in which the two statics of the stagnation tracker
have the values left by the previous round-end `last`; the other fields of `s` are what the
other handlers made of them in between. -/
def nextRound (p : Params) (inp : EndedInput) (s : State) (last : Outcome) : Outcome :=
  match last with
  | .ok t _ =>
    _receiveEnded p inp
      { s with
        prev_unestimate_count := t.prev_unestimate_count
        unchange_count := t.unchange_count }
  | other => other

/-- Outcomes of a sequence of round-end signals.  Each signal comes with the state in which it
is received, whose two tracker statics are replaced by those left by the previous round-end
(`nextRound`); `last` is the outcome before the first signal. -/
def roundsRun (p : Params) : List (EndedInput × State) → Outcome → List Outcome
  | [], _ => []
  | r :: rest, last => nextRound p r.1 r.2 last :: roundsRun p rest (nextRound p r.1 r.2 last)

/-! ## Rethrow of the objects (`_throwObjects`, lines 1255-1309) -/

/-- Angle of `gazebo::math::Angle`: the value is kept in radians. -/
structure Angle where
  value : ℚ

/-- Setter `Angle::SetFromDegree`: the value becomes `_degree * M_PI / 180`. -/
def Angle.SetFromDegree (_degree : ℚ) : Angle :=
  ⟨_degree * M_PI / 180⟩

/-- Getter `Angle::Degree`: the value in degrees, `value * 180 / M_PI`. -/
def Angle.Degree (a : Angle) : ℚ :=
  a.value * 180 / M_PI

/-- Getter `Angle::Radian`: the value. -/
def Angle.Radian (a : Angle) : ℚ :=
  a.value

/-- Lines 1288-1296: `rotate_axis` for the draw `axisIndex`. -/
def throwAxis (axisIndex : Int) : Vector3 :=
  if axisIndex = 1 then ⟨0, 1, 0⟩ else ⟨1, 0, 0⟩

/-- Lines 1298-1301: the second argument of `math::Quaternion( rotate_axis, angle.Degree() )`
for the draw `angleIndex`, after `angle.SetFromDegree( 45 * angleIndex )`. -/
def throwAngle (angleIndex : Int) : ℚ :=
  (Angle.SetFromDegree ((45 * angleIndex : Int) : ℚ)).Degree

/-- Content of one `axis_<idx>` element of `rotational_symmetry`: each value is `none` when
`get` falls back on its default. -/
structure RotAxisXml where
  order : Option Int
  tolerance_degree : Option ℚ
  axis_deviation_threshold : Option ℚ
  axis : Option Vector3

/-- Content of one `target_model_<i>` element.  `rotational_symmetry_axes` are the elements
`axis_0`, `axis_1`, ... up to the first number that is missing. -/
structure TargetModelXml where
  proportion : Option Int
  translation_threshold : Option ℚ
  quaternion_degree_threshold : Option ℚ
  rotational_symmetry_enable : Option Bool
  rotational_symmetry_axes : List RotAxisXml
  circular_symmetry_enable : Option Bool
  circular_symmetry_axis : Option Vector3
  circular_symmetry_axis_deviation_threshold : Option ℚ
  cylinder_like_enable : Option Bool
  cylinder_axis : Option Vector3
  cylinder_like_axis_deviation_threshold : Option ℚ

/-- Comparison `operator==` of `gazebo::math::Vector3`: the coordinates are equal up to
`0.001`. -/
def Vector3.equal (a b : Vector3) : Bool :=
  decide (|a.x - b.x| ≤ 1 / 1000) && decide (|a.y - b.y| ≤ 1 / 1000) &&
    decide (|a.z - b.z| ≤ 1 / 1000)

/-- Normalisation `Vector3::Normalize`: division by the length, when it is not 0. -/
def Vector3.Normalize (m : CMath) (a : Vector3) : Vector3 :=
  let d := m.sqrt (a.x * a.x + a.y * a.y + a.z * a.z)
  if |d| ≤ 1 / 1000000 then a else ⟨a.x / d, a.y / d, a.z / d⟩

/-- Body of the loop of lines 1393-1440 for one `axis_<idx>` element: the element is skipped
(`continue`) or appended to the four per-axis vectors. -/
def loadRotAxis (m : CMath) (criteria : EvaluationCriteria) (x : RotAxisXml) :
    EvaluationCriteria :=
  let order : Int := x.order.getD (-987654)
  let tolerance_degree : ℚ := x.tolerance_degree.getD (-987654)
  let axis_deviation_degree : ℚ := x.axis_deviation_threshold.getD (-987654)
  if order = -987654 ∨ tolerance_degree = -987654 ∨ axis_deviation_degree = -987654 then
    criteria
  else if order < 2 then criteria
  else if tolerance_degree < 0 ∨ axis_deviation_degree < 0 then criteria
  else
    let cur_axis : Vector3 := x.axis.getD ⟨0, 0, 0⟩
    if cur_axis.equal ⟨0, 0, 0⟩ then criteria
    else
      { criteria with
        rot_sym_axes := criteria.rot_sym_axes ++ [cur_axis.Normalize m]
        rot_sym_order := criteria.rot_sym_order ++ [order]
        rot_sym_tolerance_degree := criteria.rot_sym_tolerance_degree ++ [tolerance_degree]
        rot_sym_axis_deviation_degree :=
          criteria.rot_sym_axis_deviation_degree ++ [axis_deviation_degree] }

/-- Lines 1386-1447: the rotational-symmetry part of the criteria of one class. -/
def loadRotationalSymmetry (m : CMath) (x : TargetModelXml) (criteria : EvaluationCriteria) :
    EvaluationCriteria :=
  let criteria := { criteria with
    has_rotational_symmetry := x.rotational_symmetry_enable.getD false }
  if criteria.has_rotational_symmetry then
    let criteria := x.rotational_symmetry_axes.foldl (loadRotAxis m) criteria
    if criteria.rot_sym_axes.length = 0 then { criteria with has_rotational_symmetry := false }
    else criteria
  else criteria

/-- Lines 1449-1464: the circular-symmetry part of the criteria of one class. -/
def loadCircularSymmetry (m : CMath) (x : TargetModelXml) (criteria : EvaluationCriteria) :
    EvaluationCriteria :=
  let criteria := { criteria with
    has_circular_symmetry := x.circular_symmetry_enable.getD false }
  if criteria.has_circular_symmetry then
    let criteria := { criteria with
      cir_sym_axis := x.circular_symmetry_axis.getD ⟨0, 0, 0⟩
      cir_sym_axis_deviation_degree :=
        x.circular_symmetry_axis_deviation_threshold.getD (-987654) }
    let criteria :=
      if criteria.cir_sym_axis.equal ⟨0, 0, 0⟩ ∨ criteria.cir_sym_axis_deviation_degree < 0 then
        { criteria with has_circular_symmetry := false }
      else criteria
    { criteria with cir_sym_axis := criteria.cir_sym_axis.Normalize m }
  else criteria

/-- Lines 1466-1480: the cylinder-like part of the criteria of one class. -/
def loadCylinderLike (m : CMath) (x : TargetModelXml) (criteria : EvaluationCriteria) :
    EvaluationCriteria :=
  let criteria := { criteria with is_cylinder_like := x.cylinder_like_enable.getD false }
  if criteria.is_cylinder_like then
    let criteria := { criteria with
      cylinder_axis := x.cylinder_axis.getD ⟨0, 0, 0⟩
      cylinder_axis_deviation_threshold :=
        x.cylinder_like_axis_deviation_threshold.getD (-987654) }
    let criteria :=
      if criteria.cylinder_axis.equal ⟨0, 0, 0⟩ ∨
          criteria.cylinder_axis_deviation_threshold < 0 then
        { criteria with is_cylinder_like := false }
      else criteria
    { criteria with cylinder_axis := criteria.cylinder_axis.Normalize m }
  else criteria

/-- Lines 1380-1480: the criteria of one class.  `fresh` stands for the default-constructed
`EvaluationCriteria criteria;`, of which only the four per-axis vectors are known: they are
empty. -/
def loadCriteria (m : CMath) (fresh : EvaluationCriteria) (x : TargetModelXml) :
    EvaluationCriteria :=
  let criteria : EvaluationCriteria := { fresh with
    rot_sym_axes := []
    rot_sym_order := []
    rot_sym_tolerance_degree := []
    rot_sym_axis_deviation_degree := []
    translation_threshold := x.translation_threshold.getD (25 / 10000)
    quaternion_degree_threshold := x.quaternion_degree_threshold.getD 10 }
  loadCylinderLike m x (loadCircularSymmetry m x (loadRotationalSymmetry m x criteria))

/-- Loop of lines 1360-1485 over the `target_model_<i>` elements: `m_criteria` after
`_initParameters`; a class is loaded when its proportion is positive. -/
def loadTargetModels (m : CMath) (fresh : EvaluationCriteria) (models : List TargetModelXml) :
    List EvaluationCriteria :=
  (models.filter fun x => decide (0 < x.proportion.getD 0)).map (loadCriteria m fresh)

/-! ## Concrete inputs used by the witnesses -/

/-- Stand-in for the C library: `acos` is the chord through the three exact values
`acos( 1 ) = 0`, `acos( 0 ) = M_PI / 2`, `acos( -1 ) = M_PI`, and `sqrt` is exact on squares
of rationals. -/
def libm : CMath where
  acos := fun v => M_PI / 2 * (1 - v)
  sqrt := Rat.sqrt

/-- Criteria of the end-to-end scenario of the spec: thresholds 0.0025 and 10 degrees, no
symmetry mode. -/
def plainCriteria : EvaluationCriteria where
  translation_threshold := 25 / 10000
  quaternion_degree_threshold := 10
  has_rotational_symmetry := false
  rot_sym_axes := []
  rot_sym_order := []
  rot_sym_tolerance_degree := []
  rot_sym_axis_deviation_degree := []
  has_circular_symmetry := false
  cir_sym_axis := ⟨0, 0, 0⟩
  cir_sym_axis_deviation_degree := 0
  is_cylinder_like := false
  cylinder_axis := ⟨0, 0, 0⟩
  cylinder_axis_deviation_threshold := 0

/-- Criteria with the cylinder-like mode: main axis z, axis deviation threshold 2. -/
def cylCriteria : EvaluationCriteria where
  translation_threshold := 25 / 10000
  quaternion_degree_threshold := 10
  has_rotational_symmetry := false
  rot_sym_axes := []
  rot_sym_order := []
  rot_sym_tolerance_degree := []
  rot_sym_axis_deviation_degree := []
  has_circular_symmetry := false
  cir_sym_axis := ⟨0, 0, 0⟩
  cir_sym_axis_deviation_degree := 0
  is_cylinder_like := true
  cylinder_axis := ⟨0, 0, 1⟩
  cylinder_axis_deviation_threshold := 2

/-- Criteria with circular symmetry about z, axis deviation tolerance 5 degrees. -/
def ringCriteria : EvaluationCriteria where
  translation_threshold := 25 / 10000
  quaternion_degree_threshold := 10
  has_rotational_symmetry := false
  rot_sym_axes := []
  rot_sym_order := []
  rot_sym_tolerance_degree := []
  rot_sym_axis_deviation_degree := []
  has_circular_symmetry := true
  cir_sym_axis := ⟨0, 0, 1⟩
  cir_sym_axis_deviation_degree := 5
  is_cylinder_like := false
  cylinder_axis := ⟨0, 0, 0⟩
  cylinder_axis_deviation_threshold := 0

/-- Criteria with one rotational-symmetry axis z of order 7, angular tolerance 0.2 degrees and
axis deviation tolerance 5 degrees. -/
def gearCriteria : EvaluationCriteria where
  translation_threshold := 25 / 10000
  quaternion_degree_threshold := 10
  has_rotational_symmetry := true
  rot_sym_axes := [⟨0, 0, 1⟩]
  rot_sym_order := [7]
  rot_sym_tolerance_degree := [2 / 10]
  rot_sym_axis_deviation_degree := [5]
  has_circular_symmetry := false
  cir_sym_axis := ⟨0, 0, 0⟩
  cir_sym_axis_deviation_degree := 0
  is_cylinder_like := false
  cylinder_axis := ⟨0, 0, 0⟩
  cylinder_axis_deviation_threshold := 0

/-- Unit vector along the diagonal as `Vector3::Normalize` computes it in doubles from
`( 1, 1, 1 )`: each coordinate is the double `0.5773502691896258`, the quotient of 1 and the
double nearest to the square root of 3. -/
def diagAxis : Vector3 :=
  ⟨5200308914369309 / 9007199254740992, 5200308914369309 / 9007199254740992,
    5200308914369309 / 9007199254740992⟩

/-- Criteria with circular symmetry about the diagonal, axis deviation tolerance 5 degrees. -/
def diagRingCriteria : EvaluationCriteria where
  translation_threshold := 25 / 10000
  quaternion_degree_threshold := 10
  has_rotational_symmetry := false
  rot_sym_axes := []
  rot_sym_order := []
  rot_sym_tolerance_degree := []
  rot_sym_axis_deviation_degree := []
  has_circular_symmetry := true
  cir_sym_axis := diagAxis
  cir_sym_axis_deviation_degree := 5
  is_cylinder_like := false
  cylinder_axis := ⟨0, 0, 0⟩
  cylinder_axis_deviation_threshold := 0

/-- Criteria with one rotational-symmetry axis z of order 4, angular tolerance `2^-20` degrees
(about a millionth of a degree) and axis deviation tolerance 5 degrees. -/
def quadCriteria : EvaluationCriteria where
  translation_threshold := 25 / 10000
  quaternion_degree_threshold := 10
  has_rotational_symmetry := true
  rot_sym_axes := [⟨0, 0, 1⟩]
  rot_sym_order := [4]
  rot_sym_tolerance_degree := [1 / 1048576]
  rot_sym_axis_deviation_degree := [5]
  has_circular_symmetry := false
  cir_sym_axis := ⟨0, 0, 0⟩
  cir_sym_axis_deviation_degree := 0
  is_cylinder_like := false
  cylinder_axis := ⟨0, 0, 0⟩
  cylinder_axis_deviation_threshold := 0

/-- World positions of objects far away: every object at `2^600` metres on the x axis. -/
def farPos (_k : Nat) : Vector3 :=
  ⟨2 ^ 600, 0, 0⟩

/-- World positions of three objects: object 0 at the origin, objects 1 and 2 both at
distance 5 from the origin. -/
def scenePos (k : Nat) : Vector3 :=
  if k = 1 then ⟨3, 4, 0⟩ else if k = 2 then ⟨0, 5, 0⟩ else ⟨0, 0, 0⟩

/-- Parameters of the end-to-end scenario of the spec: nine objects of the one class `bolt` on a
3 x 3 x 1 grid, resimulate-after-fail enabled, steady after 2 quiet samples. -/
def scenarioParams : Params where
  m_resimulate_after_fail := true
  m_criteria := [plainCriteria]
  m_target_model_names := ["bolt".toList]
  m_models_name := ["bolt_0".toList, "bolt_1".toList, "bolt_2".toList, "bolt_3".toList,
    "bolt_4".toList, "bolt_5".toList, "bolt_6".toList, "bolt_7".toList, "bolt_8".toList]
  m_check_steady_interval := 1 / 10
  m_consecutive_steady_threshold := 2
  m_linear_vel_threshold := 3 / 100
  m_stacking_width := 3
  m_stacking_height := 3
  m_stacking_layers := 1
  m_snapshot_mode := 0
  m_total_snapshot := 0
  m_error_logging := true
  m_success_logging := false
  m_stacking_distance := 1 / 16
  m_stacking_center := ⟨0, 0, 1 / 4⟩

/-- Sample of the scenario at simulated time `t` in which every object is at rest. -/
def quietInput (t : ℚ) : UpdateInput where
  sim_time := t
  real_time := t
  linear_vel := fun _ => ⟨0, 0, 0⟩
  angular_vel := fun _ => ⟨0, 0, 0⟩
  sensor_pose := fun _ _ => 0
  file_opens := true
  sensor_connects := true

/-- Sample of the scenario at simulated time `t` in which every object has linear velocity 0
and spins at 6 rad/s about x. -/
def spinningInput (t : ℚ) : UpdateInput where
  sim_time := t
  real_time := t
  linear_vel := fun _ => ⟨0, 0, 0⟩
  angular_vel := fun _ => ⟨6, 0, 0⟩
  sensor_pose := fun _ _ => 0
  file_opens := true
  sensor_connects := true

/-- State of the scenario after one quiet sample: no object estimated, `steady_count` 1. -/
def almostSteadyState : State :=
  { initialState scenarioParams with steady_count := 1 }

/-- State of the scenario after two round-ends without progress: no object estimated, streak
2. -/
def stalledState : State :=
  { initialState scenarioParams with unchange_count := 2 }

/-- State of the scenario with a fresh tracker in which object 0 has been estimated. -/
def progressState : State :=
  { initialState scenarioParams with
    m_estimated_models := [true, false, false, false, false, false, false, false, false] }

/-- Identity matrix. -/
def identity4 : Matrix4 := fun i j => if i = j then 1 else 0

/-- State of the scenario after a steady capture with the sensor frame equal to the world
frame: no object estimated. -/
def capturedState : State :=
  { initialState scenarioParams with
    m_sensor_pose := identity4
    m_rethrowed := false
    update_connected := false }

/-- State of the scenario after a steady capture in which every object is flagged estimated. -/
def allEstimatedState : State :=
  { capturedState with m_estimated_models := List.replicate 9 true }

/-- World positions of the nine objects of the scenario: object `k` at `k` metres from the
origin on the x axis. -/
def boltPos (k : Nat) : Vector3 :=
  ⟨(k : ℚ), 0, 0⟩

/-- Estimate of the scenario: label `bolt`, identity pose, rotation error of `degree` degrees
about z against every object; every log file can be opened and a subscriber is connected. -/
def estimateInput (degree : ℚ) : ResultInput where
  object_name := "bolt".toList
  pose_matrix4 := [some 1, some 0, some 0, some 0, some 0, some 1, some 0, some 0,
    some 0, some 0, some 1, some 0, some 0, some 0, some 0, some 1]
  model_pos := boltPos
  error_quaternion_axis := fun _ => ⟨0, 0, 1⟩
  error_quaternion_angle := fun _ => degree * M_PI / 180
  file_opens := fun _ => true
  resimulate_connects := true

/-- Estimate of the scenario in which the x translation of the pose payload is a NaN. -/
def nanInput : ResultInput :=
  { estimateInput 8 with
    pose_matrix4 := [some 1, some 0, some 0, none, some 0, some 1, some 0, some 0,
      some 0, some 0, some 1, some 0, some 0, some 0, some 0, some 1] }

/-- Element `target_model_0` of a parameter file: proportion 1, default thresholds, rotational
symmetry enabled with three axis elements, of which the second has the order 1 and the third
has no tolerance. -/
def gearXml : TargetModelXml where
  proportion := some 1
  translation_threshold := none
  quaternion_degree_threshold := none
  rotational_symmetry_enable := some true
  rotational_symmetry_axes :=
    [⟨some 7, some (2 / 10), some 5, some ⟨0, 0, 2⟩⟩,
      ⟨some 1, some (2 / 10), some 5, some ⟨0, 0, 1⟩⟩,
      ⟨some 4, none, some 5, some ⟨1, 0, 0⟩⟩]
  circular_symmetry_enable := none
  circular_symmetry_axis := none
  circular_symmetry_axis_deviation_threshold := none
  cylinder_like_enable := none
  cylinder_axis := none
  cylinder_like_axis_deviation_threshold := none

/-! ## Auxiliary lemmas -/

theorem M_PI_pos : 0 < M_PI := by
  norm_num [M_PI]

theorem compareEq0_iff (s t : List Char) : compareEq0 s t.length t = true ↔ t <+: s := by
  simp only [compareEq0, decide_eq_true_eq]
  rw [List.prefix_iff_eq_take]
  exact eq_comm

theorem deg_lt_iff (a q : ℚ) : a < q * M_PI / 180 ↔ a * 180 / M_PI < q := by
  have hpi := M_PI_pos
  rw [div_lt_iff₀ hpi, lt_div_iff₀ (by norm_num : (0 : ℚ) < 180)]

/-! ### Rounding -/

theorem roundEven_of_abs_sub_lt (y : ℚ) (n : Int) (h : |y - n| < 1 / 2) : roundEven y = n := by
  rw [abs_lt] at h
  obtain ⟨h1, h2⟩ := h
  unfold roundEven
  by_cases hn : (n : ℚ) ≤ y
  · have hf : ⌊y⌋ = n := Int.floor_eq_iff.2 ⟨hn, by linarith⟩
    rw [hf, if_pos (by linarith)]
  · have hf : ⌊y⌋ = n - 1 := Int.floor_eq_iff.2 ⟨by push_cast; linarith, by push_cast; linarith⟩
    rw [hf]
    push_cast
    rw [if_neg (by linarith), if_pos (by linarith)]
    ring

theorem roundEven_intCast (n : Int) : roundEven (n : ℚ) = n :=
  roundEven_of_abs_sub_lt _ n (by simp)

theorem abs_roundEven_sub_le (y : ℚ) : |(roundEven y : ℚ) - y| ≤ 1 / 2 := by
  have h1 := Int.floor_le y
  have h2 := Int.lt_floor_add_one y
  unfold roundEven
  split_ifs <;> push_cast <;> rw [abs_le] <;> constructor <;> linarith

theorem roundNearest_zero (prec : Nat) (emin : Int) : roundNearest prec emin 0 = 0 := by
  simp [roundNearest, roundEven]

theorem log_two_eq (x : ℚ) (e : Int) (hlo : (2 : ℚ) ^ e ≤ |x|) (hhi : |x| < (2 : ℚ) ^ (e + 1)) :
    Int.log 2 |x| = e := by
  have hpos : 0 < |x| := lt_of_lt_of_le (by positivity) hlo
  have h1 : e ≤ Int.log 2 |x| := (Int.zpow_le_iff_le_log (by norm_num) hpos).1 (by exact_mod_cast hlo)
  have h2 : Int.log 2 |x| < e + 1 :=
    (Int.lt_zpow_iff_log_lt (by norm_num) hpos).1 (by exact_mod_cast hhi)
  omega

/-- Evaluation of a rounding from the binade of the argument and the rounded significand. -/
theorem roundNearest_eq_of (prec : Nat) (emin : Int) (x : ℚ) (e n : Int)
    (hlo : (2 : ℚ) ^ e ≤ |x|) (hhi : |x| < (2 : ℚ) ^ (e + 1)) (hemin : emin ≤ e)
    (hn : |x / (2 : ℚ) ^ (e - prec + 1) - n| < 1 / 2) :
    roundNearest prec emin x = (n : ℚ) * (2 : ℚ) ^ (e - prec + 1) := by
  unfold roundNearest
  simp only [log_two_eq x e hlo hhi, max_eq_left hemin]
  rw [roundEven_of_abs_sub_lt _ n hn]

theorem roundEven_neg (y : ℚ) : roundEven (-y) = -roundEven y := by
  by_cases hint : (⌊y⌋ : ℚ) = y
  · rw [← hint, ← Int.cast_neg, roundEven_intCast, roundEven_intCast]
  · have h1 := Int.floor_le y
    have h2 := Int.lt_floor_add_one y
    have hlt : (⌊y⌋ : ℚ) < y := lt_of_le_of_ne h1 hint
    have hf : ⌊-y⌋ = -⌊y⌋ - 1 :=
      Int.floor_eq_iff.2 ⟨by push_cast; linarith, by push_cast; linarith⟩
    unfold roundEven
    rw [hf]
    push_cast
    by_cases c1 : y - ⌊y⌋ < 1 / 2
    · rw [if_pos c1, if_neg (by linarith), if_pos (by linarith)]
      ring
    · by_cases c2 : 1 / 2 < y - ⌊y⌋
      · rw [if_neg c1, if_pos c2, if_pos (by linarith)]
        ring
      · rw [if_neg c1, if_neg c2, if_neg (by linarith), if_neg (by linarith)]
        by_cases c3 : ⌊y⌋ % 2 = 0
        · rw [if_pos c3, if_neg (by omega)]
          ring
        · rw [if_neg c3, if_pos (by omega)]
          ring

theorem roundNearest_neg (prec : Nat) (emin : Int) (x : ℚ) :
    roundNearest prec emin (-x) = -roundNearest prec emin x := by
  unfold roundNearest
  simp only [abs_neg, neg_div, roundEven_neg]
  push_cast
  ring

/-- A number with at most `prec` significant bits above the least exponent is its own
rounding. -/
theorem roundNearest_dyadic (prec : Nat) (emin : Int) (n k : Int)
    (hn : |n| < 2 ^ prec) (hk : emin - prec + 1 ≤ k) :
    roundNearest prec emin ((n : ℚ) * (2 : ℚ) ^ k) = (n : ℚ) * (2 : ℚ) ^ k := by
  by_cases h0 : n = 0
  · rw [h0]
    simp [roundNearest_zero]
  · have hpow : (0 : ℚ) < (2 : ℚ) ^ k := by positivity
    have hxpos : 0 < |(n : ℚ) * (2 : ℚ) ^ k| := by
      rw [abs_pos]
      exact mul_ne_zero (by exact_mod_cast h0) (ne_of_gt hpow)
    have hnq : |(n : ℚ)| < (2 : ℚ) ^ (prec : Int) := by
      have : ((|n| : Int) : ℚ) < ((2 ^ prec : Int) : ℚ) := by exact_mod_cast hn
      simpa using this
    have hlt : |(n : ℚ) * (2 : ℚ) ^ k| < (2 : ℚ) ^ ((prec : Int) + k) := by
      rw [abs_mul, abs_of_pos hpow, zpow_add₀ (by norm_num)]
      exact mul_lt_mul_of_pos_right hnq hpow
    have hlog : Int.log 2 |(n : ℚ) * (2 : ℚ) ^ k| < (prec : Int) + k :=
      (Int.lt_zpow_iff_log_lt (by norm_num) hxpos).1 (by exact_mod_cast hlt)
    unfold roundNearest
    simp only []
    set e : Int := max (Int.log 2 |(n : ℚ) * (2 : ℚ) ^ k|) emin with he
    have hes : e - prec + 1 ≤ k := by
      rcases max_cases (Int.log 2 |(n : ℚ) * (2 : ℚ) ^ k|) emin with ⟨h, _⟩ | ⟨h, _⟩ <;>
        rw [he, h] <;> omega
    obtain ⟨d, hd⟩ : ∃ d : Nat, k = (e - prec + 1) + d := ⟨(k - (e - prec + 1)).toNat, by omega⟩
    have hs : (0 : ℚ) < (2 : ℚ) ^ (e - prec + 1) := by positivity
    have hkpow : (2 : ℚ) ^ k = (2 : ℚ) ^ (e - prec + 1) * (2 : ℚ) ^ d := by
      rw [hd, zpow_add₀ (by norm_num), zpow_natCast]
    have hq : (n : ℚ) * (2 : ℚ) ^ k / (2 : ℚ) ^ (e - prec + 1) = ((n * 2 ^ d : Int) : ℚ) := by
      rw [hkpow]
      push_cast
      field_simp
      ring
    rw [hq, roundEven_intCast, hkpow]
    push_cast
    ring

theorem toDouble_dyadic (n k : Int) (hn : |n| < 2 ^ 53) (hk : -1074 ≤ k) :
    toDouble ((n : ℚ) * (2 : ℚ) ^ k) = (n : ℚ) * (2 : ℚ) ^ k :=
  roundNearest_dyadic 53 (-1022) n k hn (by norm_num; omega)

theorem toFloat_dyadic (n k : Int) (hn : |n| < 2 ^ 24) (hk : -149 ≤ k) :
    toFloat ((n : ℚ) * (2 : ℚ) ^ k) = (n : ℚ) * (2 : ℚ) ^ k :=
  roundNearest_dyadic 24 (-126) n k hn (by norm_num; omega)

theorem toDouble_intCast (n : Int) (hn : |n| < 2 ^ 53) : toDouble (n : ℚ) = (n : ℚ) := by
  simpa using toDouble_dyadic n 0 hn (by norm_num)

theorem toFloat_intCast (n : Int) (hn : |n| < 2 ^ 24) : toFloat (n : ℚ) = (n : ℚ) := by
  simpa using toFloat_dyadic n 0 hn (by norm_num)

/-- Evaluation of the rounding of a positive number from its binade and the rounded
significand `n`. -/
theorem roundNearest_eval (prec : Nat) (emin : Int) (x y : ℚ) (e n : Int)
    (hlo : (2 : ℚ) ^ e ≤ x) (hhi : x < (2 : ℚ) ^ (e + 1)) (hemin : emin ≤ e)
    (h1 : ((2 * n - 1 : Int) : ℚ) * (2 : ℚ) ^ (e - prec) < x)
    (h2 : x < ((2 * n + 1 : Int) : ℚ) * (2 : ℚ) ^ (e - prec))
    (hy : y = (n : ℚ) * (2 : ℚ) ^ (e - prec + 1)) :
    roundNearest prec emin x = y := by
  have hx : 0 < x := lt_of_lt_of_le (by positivity) hlo
  have hp : (0 : ℚ) < (2 : ℚ) ^ (e - prec + 1) := by positivity
  have hsplit : (2 : ℚ) ^ (e - prec + 1) = (2 : ℚ) ^ (e - prec) * 2 := by
    rw [zpow_add₀ (by norm_num), zpow_one]
  have hq : (0 : ℚ) < (2 : ℚ) ^ (e - prec) := by positivity
  rw [hy]
  refine roundNearest_eq_of prec emin x e n (by rwa [abs_of_pos hx]) (by rwa [abs_of_pos hx])
    hemin ?_
  rw [abs_lt]
  push_cast at h1 h2
  constructor
  · rw [lt_sub_iff_add_lt, lt_div_iff₀ hp, hsplit]
    nlinarith
  · rw [sub_lt_iff_lt_add, div_lt_iff₀ hp, hsplit]
    nlinarith

theorem toDouble_eval (x y : ℚ) (e n : Int)
    (hlo : (2 : ℚ) ^ e ≤ x) (hhi : x < (2 : ℚ) ^ (e + 1)) (hemin : -1022 ≤ e)
    (h1 : ((2 * n - 1 : Int) : ℚ) * (2 : ℚ) ^ (e - 53) < x)
    (h2 : x < ((2 * n + 1 : Int) : ℚ) * (2 : ℚ) ^ (e - 53))
    (hy : y = (n : ℚ) * (2 : ℚ) ^ (e - 53 + 1)) :
    toDouble x = y :=
  roundNearest_eval 53 (-1022) x y e n hlo hhi hemin h1 h2 hy

theorem toFloat_eval (x y : ℚ) (e n : Int)
    (hlo : (2 : ℚ) ^ e ≤ x) (hhi : x < (2 : ℚ) ^ (e + 1)) (hemin : -126 ≤ e)
    (h1 : ((2 * n - 1 : Int) : ℚ) * (2 : ℚ) ^ (e - 24) < x)
    (h2 : x < ((2 * n + 1 : Int) : ℚ) * (2 : ℚ) ^ (e - 24))
    (hy : y = (n : ℚ) * (2 : ℚ) ^ (e - 24 + 1)) :
    toFloat x = y :=
  roundNearest_eval 24 (-126) x y e n hlo hhi hemin h1 h2 hy

theorem toFloat_neg (x : ℚ) : toFloat (-x) = -toFloat x :=
  roundNearest_neg 24 (-126) x

theorem toDouble_zero : toDouble 0 = 0 :=
  roundNearest_zero 53 (-1022)

theorem toFloat_zero : toFloat 0 = 0 :=
  roundNearest_zero 24 (-126)

theorem toDouble_one : toDouble 1 = 1 := by
  simpa using toDouble_intCast 1 (by norm_num)

theorem toFloat_one : toFloat 1 = 1 := by
  simpa using toFloat_intCast 1 (by norm_num)

theorem toDouble_neg (x : ℚ) : toDouble (-x) = -toDouble x :=
  roundNearest_neg 53 (-1022) x

theorem DBL_MAX_pos : 0 < DBL_MAX := by
  norm_num [DBL_MAX]

/-- An operation on doubles whose exact value is an integer below `2^53` is exact. -/
theorem dbl_intCast (n : Int) (hn : |n| < 2 ^ 53) : dbl (n : ℚ) = some (n : ℚ) := by
  have hq : |(n : ℚ)| < 2 ^ 53 := by
    have : ((|n| : Int) : ℚ) < ((2 ^ 53 : Int) : ℚ) := by exact_mod_cast hn
    simpa using this
  have hmax : |(n : ℚ)| ≤ DBL_MAX := le_trans (le_of_lt hq) (by norm_num [DBL_MAX])
  simp only [dbl, toDouble_intCast n hn, hmax, if_true]

theorem dbl_natCast (n : Nat) (hn : n < 2 ^ 53) : dbl (n : ℚ) = some (n : ℚ) := by
  have := dbl_intCast (n : Int) (by rw [abs_of_nonneg (by positivity)]; exact_mod_cast hn)
  simpa using this

theorem dbl_zero : dbl 0 = some 0 := by
  simpa using dbl_intCast 0 (by norm_num)

theorem dbl_one : dbl 1 = some 1 := by
  simpa using dbl_intCast 1 (by norm_num)

theorem rotSymAngleMatch_iff (order : Int) (radian_interval tolerance_degree angle : ℚ) :
    rotSymAngleMatch order radian_interval tolerance_degree angle = true ↔
      ∃ j : ℕ, j < order.toNat ∧
        |toDouble (angle - toFloat (radian_interval * toFloat (j : ℚ)))| <
          toDouble (toDouble (tolerance_degree * M_PI) / 180) := by
  simp [rotSymAngleMatch, List.any_eq_true, List.mem_range]

/-- Invariant of the matcher loop: the final `translate_error` is a lower bound of the finite
distances of the unestimated objects visited and of the initial value, and the loop either
leaves the accumulator as it was or ends on an unestimated object `i + k` whose distance is
finite, strictly below the initial value and strictly below every finite distance of an
unestimated object visited before it. -/
theorem nearestLoop_spec (m : CMath) (estimate_pos : Option Vector3) (pos : Nat → Vector3) :
    ∀ (flags : List Bool) (i : Nat) (acc : Option Nat × ℚ),
      (∀ k v, flags[k]? = some false → curDist m estimate_pos (pos (i + k)) = some v →
        (nearestLoop m estimate_pos pos flags i acc).2 ≤ v) ∧
      (nearestLoop m estimate_pos pos flags i acc).2 ≤ acc.2 ∧
      (nearestLoop m estimate_pos pos flags i acc = acc ∨
        ∃ k v, flags[k]? = some false ∧ curDist m estimate_pos (pos (i + k)) = some v ∧
          nearestLoop m estimate_pos pos flags i acc = (some (i + k), v) ∧
          v < acc.2 ∧
          ∀ l w, l < k → flags[l]? = some false →
            curDist m estimate_pos (pos (i + l)) = some w → v < w) := by
  intro flags
  induction flags with
  | nil =>
    intro i acc
    refine ⟨fun k v hk => ?_, le_refl _, Or.inl rfl⟩
    simp at hk
  | cons e rest ih =>
    intro i acc
    have shift : ∀ (acc2 : Option Nat × ℚ) (res : Option Nat × ℚ),
        nearestLoop m estimate_pos pos rest (i + 1) acc2 = res →
        (∀ k v, rest[k]? = some false → curDist m estimate_pos (pos (i + 1 + k)) = some v →
          res.2 ≤ v) →
        ∀ k v, (e :: rest)[k + 1]? = some false →
          curDist m estimate_pos (pos (i + (k + 1))) = some v → res.2 ≤ v := by
      intro acc2 res _ hb k v hk hv
      exact hb k v (by simpa using hk) (by rwa [show i + 1 + k = i + (k + 1) by omega])
    have lift : ∀ (acc2 : Option Nat × ℚ),
        (∃ k v, rest[k]? = some false ∧ curDist m estimate_pos (pos (i + 1 + k)) = some v ∧
          nearestLoop m estimate_pos pos rest (i + 1) acc2 = (some (i + 1 + k), v) ∧
          v < acc2.2 ∧
          ∀ l w, l < k → rest[l]? = some false →
            curDist m estimate_pos (pos (i + 1 + l)) = some w → v < w) →
        ∃ k v, rest[k]? = some false ∧ curDist m estimate_pos (pos (i + (k + 1))) = some v ∧
          nearestLoop m estimate_pos pos rest (i + 1) acc2 = (some (i + (k + 1)), v) ∧
          v < acc2.2 ∧
          ∀ l w, l < k → rest[l]? = some false →
            curDist m estimate_pos (pos (i + (l + 1))) = some w → v < w := by
      rintro acc2 ⟨k, v, hk, hv, hr, hlt, hprev⟩
      refine ⟨k, v, hk, ?_, ?_, hlt, ?_⟩
      · rwa [show i + (k + 1) = i + 1 + k by omega]
      · rw [hr, show i + (k + 1) = i + 1 + k by omega]
      · intro l w hl hfl hw
        exact hprev l w hl hfl (by rwa [show i + 1 + l = i + (l + 1) by omega])
    cases e with
    | true =>
      obtain ⟨hb, ha, hc⟩ := ih (i + 1) acc
      have hdef : nearestLoop m estimate_pos pos (true :: rest) i acc =
          nearestLoop m estimate_pos pos rest (i + 1) acc := by
        simp [nearestLoop]
      rw [hdef]
      refine ⟨fun k v hk hv => ?_, ha, ?_⟩
      · cases k with
        | zero => simp at hk
        | succ k => exact shift acc _ rfl hb k v hk hv
      · rcases hc with hc | hc
        · exact Or.inl hc
        · obtain ⟨k, v, hk, hv, hr, hlt, hprev⟩ := lift acc hc
          refine Or.inr ⟨k + 1, v, by simpa using hk, hv, hr, hlt, ?_⟩
          intro l w hl hfl hw
          cases l with
          | zero => simp at hfl
          | succ l => exact hprev l w (by omega) (by simpa using hfl) hw
    | false =>
      cases hd : curDist m estimate_pos (pos i) with
      | none =>
        obtain ⟨hb, ha, hc⟩ := ih (i + 1) acc
        have hdef : nearestLoop m estimate_pos pos (false :: rest) i acc =
            nearestLoop m estimate_pos pos rest (i + 1) acc := by
          simp [nearestLoop, hd]
        rw [hdef]
        refine ⟨fun k v hk hv => ?_, ha, ?_⟩
        · cases k with
          | zero =>
            rw [Nat.add_zero, hd] at hv
            simp at hv
          | succ k => exact shift acc _ rfl hb k v hk hv
        · rcases hc with hc | hc
          · exact Or.inl hc
          · obtain ⟨k, v, hk, hv, hr, hlt, hprev⟩ := lift acc hc
            refine Or.inr ⟨k + 1, v, by simpa using hk, hv, hr, hlt, ?_⟩
            intro l w hl hfl hw
            cases l with
            | zero =>
              rw [Nat.add_zero, hd] at hw
              simp at hw
            | succ l => exact hprev l w (by omega) (by simpa using hfl) hw
      | some d =>
        by_cases hlt0 : d < acc.2
        · obtain ⟨hb, ha, hc⟩ := ih (i + 1) (some i, d)
          have hdef : nearestLoop m estimate_pos pos (false :: rest) i acc =
              nearestLoop m estimate_pos pos rest (i + 1) (some i, d) := by
            simp [nearestLoop, hd, hlt0]
          rw [hdef]
          refine ⟨fun k v hk hv => ?_, le_of_lt (lt_of_le_of_lt ha hlt0), Or.inr ?_⟩
          · cases k with
            | zero =>
              rw [Nat.add_zero, hd] at hv
              have hdv : d = v := by simpa using hv
              rw [← hdv]
              exact ha
            | succ k => exact shift (some i, d) _ rfl hb k v hk hv
          · rcases hc with hc | hc
            · exact ⟨0, d, by simp, by simpa using hd, by simpa using hc, hlt0,
                fun l w hl => by omega⟩
            · obtain ⟨k, v, hk, hv, hr, hlt, hprev⟩ := lift (some i, d) hc
              refine ⟨k + 1, v, by simpa using hk, hv, hr, lt_trans hlt hlt0, ?_⟩
              intro l w hl hfl hw
              cases l with
              | zero =>
                rw [Nat.add_zero, hd] at hw
                have hdw : d = w := by simpa using hw
                rw [← hdw]
                exact hlt
              | succ l => exact hprev l w (by omega) (by simpa using hfl) hw
        · obtain ⟨hb, ha, hc⟩ := ih (i + 1) acc
          have hge : acc.2 ≤ d := not_lt.1 hlt0
          have hdef : nearestLoop m estimate_pos pos (false :: rest) i acc =
              nearestLoop m estimate_pos pos rest (i + 1) acc := by
            simp [nearestLoop, hd, hlt0]
          rw [hdef]
          refine ⟨fun k v hk hv => ?_, ha, ?_⟩
          · cases k with
            | zero =>
              rw [Nat.add_zero, hd] at hv
              have hdv : d = v := by simpa using hv
              rw [← hdv]
              exact le_trans ha hge
            | succ k => exact shift acc _ rfl hb k v hk hv
          · rcases hc with hc | hc
            · exact Or.inl hc
            · obtain ⟨k, v, hk, hv, hr, hlt, hprev⟩ := lift acc hc
              refine Or.inr ⟨k + 1, v, by simpa using hk, hv, hr, hlt, ?_⟩
              intro l w hl hfl hw
              cases l with
              | zero =>
                rw [Nat.add_zero, hd] at hw
                have hdw : d = w := by simpa using hw
                rw [← hdw]
                exact lt_of_lt_of_le hlt hge
              | succ l => exact hprev l w (by omega) (by simpa using hfl) hw

/-! ## Claims on the classifier -/

/-- C3: a translation error greater than or equal to `translation_threshold` is rejected, for
every criteria record, error axis and rotation error angle. -/
theorem reject_translation (m : CMath) (nearest_name target_name : List Char)
    (criteria : EvaluationCriteria) (translate_error error_quaternion_angle : ℚ)
    (error_quaternion_axis : Vector3)
    (htrans : criteria.translation_threshold ≤ translate_error) :
    estimateCorrect m nearest_name target_name criteria translate_error error_quaternion_angle
      error_quaternion_axis = some false := by
  have ht : ¬ translate_error < criteria.translation_threshold := not_lt.2 htrans
  by_cases hn : compareEq0 nearest_name target_name.length target_name = true
  · simp [estimateCorrect, hn, ht]
  · simp [estimateCorrect, hn]

theorem reject_translation_witness :
    estimateCorrect libm "ring_0".toList "ring".toList ringCriteria (25 / 10000) 0 ⟨0, 0, 1⟩ =
      some false :=
  reject_translation libm "ring_0".toList "ring".toList ringCriteria (25 / 10000) 0 ⟨0, 0, 1⟩
    (by norm_num [ringCriteria])

/-- C4: when the name of the recognized class is not a prefix of the nearest object's name the
estimate is rejected, for every translation error, rotation error and criteria record. -/
theorem reject_wrong_model (m : CMath) (nearest_name target_name : List Char)
    (criteria : EvaluationCriteria) (translate_error error_quaternion_angle : ℚ)
    (error_quaternion_axis : Vector3)
    (hname : ¬ target_name <+: nearest_name) :
    estimateCorrect m nearest_name target_name criteria translate_error error_quaternion_angle
      error_quaternion_axis = some false := by
  have hn : ¬ compareEq0 nearest_name target_name.length target_name = true :=
    fun h => hname ((compareEq0_iff nearest_name target_name).1 h)
  simp [estimateCorrect, hn]

theorem reject_wrong_model_witness :
    estimateCorrect libm "bolt_4".toList "ring".toList ringCriteria 0 0 ⟨1, 0, 0⟩ = some false :=
  reject_wrong_model libm "bolt_4".toList "ring".toList ringCriteria 0 0 ⟨1, 0, 0⟩ (by decide)

theorem dot_zero_left (a : Vector3) : Vector3.Dot ⟨0, 0, 0⟩ a = 0 := by
  simp [Vector3.Dot, toDouble_zero]

theorem dot_z_x : Vector3.Dot ⟨0, 0, 1⟩ ⟨1, 0, 0⟩ = 0 := by
  simp [Vector3.Dot, toDouble_zero]

theorem dot_z_z : Vector3.Dot ⟨0, 0, 1⟩ ⟨0, 0, 1⟩ = 1 := by
  simp [Vector3.Dot, toDouble_zero, toDouble_one]

theorem dot_z_neg_z : Vector3.Dot ⟨0, 0, 1⟩ (Vector3.neg ⟨0, 0, 1⟩) = -1 := by
  simp [Vector3.Dot, Vector3.neg, toDouble_zero, toDouble_one, toDouble_neg]

/-- Scalar product of the diagonal unit vector with itself in double arithmetic: one unit in
the last place above 1. -/
theorem diagAxis_dot : diagAxis.Dot diagAxis = 4503599627370497 / 4503599627370496 := by
  have hp : toDouble (5200308914369309 / 9007199254740992 * (5200308914369309 / 9007199254740992)) = 6004799503160663 / 18014398509481984 :=
    toDouble_eval _ _ (-2) 6004799503160663 (by norm_num) (by norm_num) (by norm_num)
      (by norm_num) (by norm_num) (by norm_num)
  have hs1 : toDouble (6004799503160663 / 18014398509481984 + 6004799503160663 / 18014398509481984) = 6004799503160663 / 9007199254740992 :=
    toDouble_eval _ _ (-1) 6004799503160663 (by norm_num) (by norm_num) (by norm_num)
      (by norm_num) (by norm_num) (by norm_num)
  have hs2 : toDouble (6004799503160663 / 9007199254740992 + 6004799503160663 / 18014398509481984) = 4503599627370497 / 4503599627370496 :=
    toDouble_eval _ _ 0 4503599627370497 (by norm_num) (by norm_num) (by norm_num)
      (by norm_num) (by norm_num) (by norm_num)
  simp only [Vector3.Dot, diagAxis]
  rw [hp, hs1, hs2]

/-- Value of `axis_bias_degree` for a scalar product whose `acos` is 0. -/
theorem axisBiasDegree_of_acos_zero (m : CMath) (v : ℚ) (hv : -1 ≤ v ∧ v ≤ 1)
    (hacos : m.acos v = 0) : axisBiasDegree m v = some 0 := by
  have hnot : ¬ (v < -1 ∨ 1 < v) := by
    rintro (h | h) <;> linarith [hv.1, hv.2]
  simp [axisBiasDegree, acosC, hnot, hacos, toDouble_zero, toFloat_zero]

/-- Value of `radian_interval` for `degree_interval` 51. -/
theorem gear_radian_interval :
    toFloat (toDouble (toDouble (51 * M_PI) / 180)) = 14933701 / 16777216 := by
  have h1 : toDouble (51 * M_PI) = 5637283208647663 / 35184372088832 :=
    toDouble_eval _ _ 7 5637283208647663 (by norm_num [M_PI]) (by norm_num [M_PI]) (by norm_num)
      (by norm_num [M_PI]) (by norm_num [M_PI]) (by norm_num)
  have h2 : toDouble (5637283208647663 / 35184372088832 / 180) = 4008734726149449 / 4503599627370496 :=
    toDouble_eval _ _ (-1) 8017469452298898 (by norm_num) (by norm_num) (by norm_num)
      (by norm_num) (by norm_num) (by norm_num)
  have h3 : toFloat (4008734726149449 / 4503599627370496) = 14933701 / 16777216 :=
    toFloat_eval _ _ (-1) 14933701 (by norm_num) (by norm_num) (by norm_num)
      (by norm_num) (by norm_num) (by norm_num)
  rw [h1, h2, h3]

/-- The angle 51.4 degrees is in no band of the order 7 with the tolerance 0.2 degrees. -/
theorem gear_no_match :
    rotSymAngleMatch 7 (14933701 / 16777216) (2 / 10) (257 / 5 * M_PI / 180) = false := by
  have ht1 : toDouble (2 / 10 * M_PI) = 176855943800711 / 281474976710656 :=
    toDouble_eval _ _ (-1) 5659390201622752 (by norm_num [M_PI]) (by norm_num [M_PI]) (by norm_num)
      (by norm_num [M_PI]) (by norm_num [M_PI]) (by norm_num)
  have ht2 : toDouble (176855943800711 / 281474976710656 / 180) = 8048910508974581 / 2305843009213693952 :=
    toDouble_eval _ _ (-9) 8048910508974581 (by norm_num) (by norm_num) (by norm_num)
      (by norm_num) (by norm_num) (by norm_num)
  have hd0 : toDouble (257 / 5 * M_PI / 180 - 0) = 8080351565650263 / 9007199254740992 :=
    toDouble_eval _ _ (-1) 8080351565650263 (by norm_num [M_PI]) (by norm_num [M_PI]) (by norm_num)
      (by norm_num [M_PI]) (by norm_num [M_PI]) (by norm_num)
  have hc1 : toFloat (14933701 / 16777216 * 1) = 14933701 / 16777216 :=
    toFloat_eval _ _ (-1) 14933701 (by norm_num) (by norm_num) (by norm_num)
      (by norm_num) (by norm_num) (by norm_num)
  have hd1 : toDouble (257 / 5 * M_PI / 180 - 14933701 / 16777216) = 4024440975676837 / 576460752303423488 :=
    toDouble_eval _ _ (-8) 8048881951353674 (by norm_num [M_PI]) (by norm_num [M_PI]) (by norm_num)
      (by norm_num [M_PI]) (by norm_num [M_PI]) (by norm_num)
  have hf2 : toFloat 2 = 2 := by
    simpa using toFloat_intCast 2 (by norm_num)
  have hc2 : toFloat (14933701 / 16777216 * 2) = 14933701 / 8388608 :=
    toFloat_eval _ _ 0 14933701 (by norm_num) (by norm_num) (by norm_num)
      (by norm_num) (by norm_num) (by norm_num)
  have hd2 : toDouble (14933701 / 8388608 - 257 / 5 * M_PI / 180) = 7954587785160361 / 9007199254740992 :=
    toDouble_eval _ _ (-1) 7954587785160361 (by norm_num [M_PI]) (by norm_num [M_PI]) (by norm_num)
      (by norm_num [M_PI]) (by norm_num [M_PI]) (by norm_num)
  have hf3 : toFloat 3 = 3 := by
    simpa using toFloat_intCast 3 (by norm_num)
  have hc3 : toFloat (14933701 / 16777216 * 3) = 2800069 / 1048576 :=
    toFloat_eval _ _ 1 11200276 (by norm_num) (by norm_num) (by norm_num)
      (by norm_num) (by norm_num) (by norm_num)
  have hd3 : toDouble (2800069 / 1048576 - 257 / 5 * M_PI / 180) = 7986028998718293 / 4503599627370496 :=
    toDouble_eval _ _ 0 7986028998718293 (by norm_num [M_PI]) (by norm_num [M_PI]) (by norm_num)
      (by norm_num [M_PI]) (by norm_num [M_PI]) (by norm_num)
  have hf4 : toFloat 4 = 4 := by
    simpa using toFloat_intCast 4 (by norm_num)
  have hc4 : toFloat (14933701 / 16777216 * 4) = 14933701 / 4194304 :=
    toFloat_eval _ _ 1 14933701 (by norm_num) (by norm_num) (by norm_num)
      (by norm_num) (by norm_num) (by norm_num)
  have hd4 : toDouble (14933701 / 4194304 - 257 / 5 * M_PI / 180) = 2998690891996373 / 1125899906842624 :=
    toDouble_eval _ _ 1 5997381783992746 (by norm_num [M_PI]) (by norm_num [M_PI]) (by norm_num)
      (by norm_num [M_PI]) (by norm_num [M_PI]) (by norm_num)
  have hf5 : toFloat 5 = 5 := by
    simpa using toFloat_intCast 5 (by norm_num)
  have hc5 : toFloat (14933701 / 16777216 * 5) = 9333563 / 2097152 :=
    toFloat_eval _ _ 2 9333563 (by norm_num) (by norm_num) (by norm_num)
      (by norm_num) (by norm_num) (by norm_num)
  have hd5 : toDouble (9333563 / 2097152 - 257 / 5 * M_PI / 180) = 4000874534313173 / 1125899906842624 :=
    toDouble_eval _ _ 1 8001749068626346 (by norm_num [M_PI]) (by norm_num [M_PI]) (by norm_num)
      (by norm_num [M_PI]) (by norm_num [M_PI]) (by norm_num)
  have hf6 : toFloat 6 = 6 := by
    simpa using toFloat_intCast 6 (by norm_num)
  have hc6 : toFloat (14933701 / 16777216 * 6) = 2800069 / 524288 :=
    toFloat_eval _ _ 2 11200276 (by norm_num) (by norm_num) (by norm_num)
      (by norm_num) (by norm_num) (by norm_num)
  have hd6 : toDouble (2800069 / 524288 - 257 / 5 * M_PI / 180) = 5003058445065429 / 1125899906842624 :=
    toDouble_eval _ _ 2 5003058445065429 (by norm_num [M_PI]) (by norm_num [M_PI]) (by norm_num)
      (by norm_num [M_PI]) (by norm_num [M_PI]) (by norm_num)
  have hsub : ∀ a b : ℚ, toDouble (a - b) = -toDouble (b - a) := fun a b => by
    rw [← toDouble_neg, neg_sub]
  rw [Bool.eq_false_iff]
  intro h
  obtain ⟨j, hj, habs⟩ := (rotSymAngleMatch_iff _ _ _ _).1 h
  rw [ht1, ht2] at habs
  have hj7 : j < 7 := by simpa using hj
  interval_cases j
  · simp only [Nat.cast_zero, toFloat_zero, mul_zero] at habs
    rw [hd0] at habs
    norm_num [abs_lt] at habs
  · simp only [Nat.cast_one, toFloat_one] at habs
    rw [hc1, hd1] at habs
    norm_num [abs_lt] at habs
  · simp only [Nat.cast_ofNat, hf2] at habs
    rw [hc2, hsub, hd2, abs_neg] at habs
    norm_num [abs_lt] at habs
  · simp only [Nat.cast_ofNat, hf3] at habs
    rw [hc3, hsub, hd3, abs_neg] at habs
    norm_num [abs_lt] at habs
  · simp only [Nat.cast_ofNat, hf4] at habs
    rw [hc4, hsub, hd4, abs_neg] at habs
    norm_num [abs_lt] at habs
  · simp only [Nat.cast_ofNat, hf5] at habs
    rw [hc5, hsub, hd5, abs_neg] at habs
    norm_num [abs_lt] at habs
  · simp only [Nat.cast_ofNat, hf6] at habs
    rw [hc6, hsub, hd6, abs_neg] at habs
    norm_num [abs_lt] at habs

/-- C6, evaluated at a failing input: cylinder axis z with `cylinder_axis_deviation_threshold`
2, error axis x, hence an axis deviation of `M_PI / 2` radians, which is 90 degrees; rotation
error angle 1 radian, neither below the 10 degree threshold nor within it of `M_PI`.  The code
compares the deviation in radians with the threshold and accepts, although neither the deviation
in degrees nor its complement to 180 is below the threshold. -/
theorem cylinder_axis_deviation_in_radians (m : CMath) (hacos : m.acos 0 = M_PI / 2) :
    ¬ ((1 : ℚ) < cylCriteria.quaternion_degree_threshold * M_PI / 180) ∧
    ¬ (|M_PI - 1| < cylCriteria.quaternion_degree_threshold * M_PI / 180) ∧
    estimateCorrect m "can_1".toList "can".toList cylCriteria (1 / 1000) 1 ⟨1, 0, 0⟩ =
      some true ∧
    m.acos (cylCriteria.cylinder_axis.Dot ⟨1, 0, 0⟩) * 180 / M_PI = 90 ∧
    ¬ (m.acos (cylCriteria.cylinder_axis.Dot ⟨1, 0, 0⟩) * 180 / M_PI <
        cylCriteria.cylinder_axis_deviation_threshold ∨
      180 - m.acos (cylCriteria.cylinder_axis.Dot ⟨1, 0, 0⟩) * 180 / M_PI <
        cylCriteria.cylinder_axis_deviation_threshold) := by
  have hn : compareEq0 "can_1".toList "can".toList.length "can".toList = true := by decide
  have habs : |M_PI - 1| = M_PI - 1 := abs_of_pos (by norm_num [M_PI])
  have hdot : cylCriteria.cylinder_axis.Dot ⟨1, 0, 0⟩ = 0 := dot_z_x
  have hfl : toFloat (M_PI / 2) = 13176795 / 8388608 :=
    toFloat_eval _ _ 0 13176795 (by norm_num [M_PI]) (by norm_num [M_PI]) (by norm_num)
      (by norm_num [M_PI]) (by norm_num [M_PI]) (by norm_num)
  have hacosC : acosC m 0 = some (M_PI / 2) := by
    simp [acosC, hacos]
  refine ⟨?_, ?_, ?_, ?_, ?_⟩
  · norm_num [cylCriteria, M_PI]
  · rw [habs]
    norm_num [cylCriteria, M_PI]
  · simp only [estimateCorrect, hn, cylinderCheck, habs, hdot, hacosC, Option.map, deviationTest,
      hfl]
    norm_num [cylCriteria, M_PI]
  · rw [hdot, hacos]
    norm_num [M_PI]
  · rw [hdot, hacos]
    norm_num [cylCriteria, M_PI]

theorem cylinder_axis_deviation_in_radians_witness :
    libm.acos 0 = M_PI / 2 ∧
    estimateCorrect libm "can_1".toList "can".toList cylCriteria (1 / 1000) 1 ⟨1, 0, 0⟩ =
      some true :=
  ⟨by norm_num [libm],
    (cylinder_axis_deviation_in_radians libm (by norm_num [libm])).2.2.1⟩

/-- C7, evaluated at a failing input: circular symmetry about the diagonal unit vector, as
`Normalize` computes it from `( 1, 1, 1 )`, with a tolerance of 5 degrees, and an error axis
equal to this very vector, so that the angle between the two is 0, below the tolerance; the
rotation error angle is 2 radians.  The scalar product of the vector with itself is one unit in
the last place above 1 in double arithmetic, `acos` of it is a NaN, both comparisons of line
445 are false and the estimate is rejected, whatever the library: the scalar product is not
clamped to `[-1, 1]`. -/
theorem circular_aligned_axis_rejected (m : CMath) :
    diagRingCriteria.is_cylinder_like = false ∧
    diagRingCriteria.has_circular_symmetry = true ∧
    (1 : ℚ) / 1000 < diagRingCriteria.translation_threshold ∧
    diagRingCriteria.cir_sym_axis = diagAxis ∧
    (0 : ℚ) < diagRingCriteria.cir_sym_axis_deviation_degree ∧
    diagRingCriteria.cir_sym_axis.Dot diagAxis = 1 + 1 / 2 ^ 52 ∧
    acosC m (diagRingCriteria.cir_sym_axis.Dot diagAxis) = none ∧
    estimateCorrect m "ring_0".toList "ring".toList diagRingCriteria (1 / 1000) 2 diagAxis =
      some false := by
  have hn : compareEq0 "ring_0".toList "ring".toList.length "ring".toList = true := by decide
  have hdot : diagRingCriteria.cir_sym_axis.Dot diagAxis =
      4503599627370497 / 4503599627370496 := diagAxis_dot
  have hnan : acosC m (4503599627370497 / 4503599627370496) = none := by
    norm_num [acosC]
  refine ⟨rfl, rfl, by norm_num [diagRingCriteria], rfl, by norm_num [diagRingCriteria], ?_,
    ?_, ?_⟩
  · rw [hdot]
    norm_num
  · rw [hdot, hnan]
  · have hq : ¬ ((2 : ℚ) < diagRingCriteria.quaternion_degree_threshold * M_PI / 180) := by
      norm_num [diagRingCriteria, M_PI]
    have ht : (1 : ℚ) / 1000 < diagRingCriteria.translation_threshold := by
      norm_num [diagRingCriteria]
    have hflags : diagRingCriteria.is_cylinder_like = false ∧
        diagRingCriteria.has_circular_symmetry = true ∧
        diagRingCriteria.has_rotational_symmetry = false := ⟨rfl, rfl, rfl⟩
    simp only [estimateCorrect, hn, cirSymCheck, hq, ht, hflags, hdot, axisBiasDegree, hnan,
      Option.map, deviationTest]
    simp

/-- Behaviour of the code in the circular branch when the test of line 445 passes: the estimate
is accepted for every rotation error angle. -/
theorem circular_accept (m : CMath) (nearest_name target_name : List Char)
    (criteria : EvaluationCriteria) (translate_error error_quaternion_angle : ℚ)
    (error_quaternion_axis : Vector3)
    (hcyl : criteria.is_cylinder_like = false)
    (hcir : criteria.has_circular_symmetry = true)
    (hname : target_name <+: nearest_name)
    (htrans : translate_error < criteria.translation_threshold)
    (hdev : deviationTest (axisBiasDegree m (criteria.cir_sym_axis.Dot error_quaternion_axis))
      criteria.cir_sym_axis_deviation_degree = true) :
    estimateCorrect m nearest_name target_name criteria translate_error error_quaternion_angle
      error_quaternion_axis = some true := by
  have hn := (compareEq0_iff nearest_name target_name).2 hname
  by_cases ha : error_quaternion_angle < criteria.quaternion_degree_threshold * M_PI / 180
  · simp [estimateCorrect, hn, htrans, ha]
  · simp [estimateCorrect, cirSymCheck, hn, htrans, ha, hcyl, hcir, hdev]

/-- C8, evaluated at a failing input: one rotational-symmetry axis z of order 7 with angular
tolerance 0.2 degrees, error axis z (deviation 0), rotation error angle 51.4 degrees.  The code
rejects, because it compares with the multiples of `360 / 7 = 51` (integer division), although
the angle is within the tolerance of `1 * 360 / 7` degrees, the exact quotient. -/
theorem rot_sym_order_seven_rejected (m : CMath) (hacos : m.acos 1 = 0) :
    m.acos (Vector3.Dot ⟨0, 0, 1⟩ ⟨0, 0, 1⟩) * 180 / M_PI < 5 ∧
    ¬ (257 / 5 * M_PI / 180 < gearCriteria.quaternion_degree_threshold * M_PI / 180) ∧
    estimateCorrect m "gear_2".toList "gear".toList gearCriteria (1 / 1000)
      (257 / 5 * M_PI / 180) ⟨0, 0, 1⟩ = some false ∧
    ∃ k : ℕ, k < 7 ∧
      |(257 / 5 * M_PI / 180) * 180 / M_PI - (k : ℚ) * (360 / 7)| < 2 / 10 := by
  have hn : compareEq0 "gear_2".toList "gear".toList.length "gear".toList = true := by decide
  have hne : M_PI ≠ 0 := ne_of_gt M_PI_pos
  have hdeg : (257 / 5 * M_PI / 180) * 180 / M_PI = 257 / 5 := by
    field_simp
    ring
  refine ⟨by rw [dot_z_z, hacos]; norm_num, by norm_num [gearCriteria, M_PI], ?_, ?_⟩
  · have hr1 : List.range 1 = [0] := rfl
    have hdiv : Int.tdiv 360 7 = 51 := rfl
    have hf51 : toFloat 51 = 51 := by
      simpa using toFloat_intCast 51 (by norm_num)
    have hbias : axisBiasDegree m (Vector3.Dot ⟨0, 0, 1⟩ ⟨0, 0, 1⟩) = some 0 := by
      rw [dot_z_z]
      exact axisBiasDegree_of_acos_zero m 1 (by norm_num) hacos
    have hstep : rotSymAxisStep m gearCriteria (257 / 5 * M_PI / 180) ⟨0, 0, 1⟩ false 0 =
        some false := by
      simp only [rotSymAxisStep, gearCriteria, List.getElem?_cons_zero, hdiv, hbias,
        deviationTest, Int.cast_ofNat, hf51, gear_radian_interval, gear_no_match]
      norm_num
    have hq : ¬ (257 / 5 * M_PI / 180 <
        gearCriteria.quaternion_degree_threshold * M_PI / 180) := by
      norm_num [gearCriteria, M_PI]
    have hlen : gearCriteria.rot_sym_axes.length = 1 := rfl
    have ht : (1 : ℚ) / 1000 < gearCriteria.translation_threshold := by
      norm_num [gearCriteria]
    have hflags : gearCriteria.is_cylinder_like = false ∧
        gearCriteria.has_circular_symmetry = false ∧
        gearCriteria.has_rotational_symmetry = true := ⟨rfl, rfl, rfl⟩
    simp only [estimateCorrect, hn, cirSymCheck, rotSymLoop, hq, ht, hflags, hlen, hr1,
      List.foldlM, hstep]
    simp
  · refine ⟨1, by norm_num, ?_⟩
    rw [hdeg, abs_lt]
    norm_num

theorem rot_sym_order_seven_rejected_witness :
    libm.acos 1 = 0 ∧
    estimateCorrect libm "gear_2".toList "gear".toList gearCriteria (1 / 1000)
      (257 / 5 * M_PI / 180) ⟨0, 0, 1⟩ = some false :=
  ⟨by norm_num [libm], (rot_sym_order_seven_rejected libm (by norm_num [libm])).2.2.1⟩

/-- C9, evaluated at a failing input: cylinder axis z with threshold 2, rotation error angle
1 radian.  With the error axis z (deviation 0) the code accepts; with the negated axis
(deviation `M_PI` radians, 180 degrees) it rejects, because the deviation is compared in
radians with `180 - deviation`. -/
theorem cylinder_antiparallel_differs (m : CMath) (hacos1 : m.acos 1 = 0)
    (hacosm1 : m.acos (-1) = M_PI) :
    estimateCorrect m "can_1".toList "can".toList cylCriteria (1 / 1000) 1 ⟨0, 0, 1⟩ =
      some true ∧
    estimateCorrect m "can_1".toList "can".toList cylCriteria (1 / 1000) 1
      (Vector3.neg ⟨0, 0, 1⟩) = some false := by
  have hn : compareEq0 "can_1".toList "can".toList.length "can".toList = true := by decide
  have habs : |M_PI - 1| = M_PI - 1 := abs_of_pos (by norm_num [M_PI])
  have hd1 : cylCriteria.cylinder_axis.Dot ⟨0, 0, 1⟩ = 1 := dot_z_z
  have hd2 : cylCriteria.cylinder_axis.Dot (Vector3.neg ⟨0, 0, 1⟩) = -1 := dot_z_neg_z
  have hc1 : acosC m 1 = some 0 := by
    simp [acosC, hacos1]
  have hc2 : acosC m (-1) = some M_PI := by
    simp [acosC, hacosm1]
  have hflpi : toFloat (M_PI) = 13176795 / 4194304 :=
    toFloat_eval _ _ 1 13176795 (by norm_num [M_PI]) (by norm_num [M_PI]) (by norm_num)
      (by norm_num [M_PI]) (by norm_num [M_PI]) (by norm_num)
  have hcompl : toFloat (180 - 13176795 / 4194304) = 11590593 / 65536 :=
    toFloat_eval _ _ 7 11590593 (by norm_num) (by norm_num) (by norm_num)
      (by norm_num) (by norm_num) (by norm_num)
  constructor
  · simp only [estimateCorrect, hn, cylinderCheck, habs, hd1, hc1, Option.map, deviationTest,
      toFloat_zero]
    norm_num [cylCriteria, M_PI]
  · simp only [estimateCorrect, hn, cylinderCheck, habs, hd2, hc2, Option.map, deviationTest,
      hflpi, hcompl]
    norm_num [cylCriteria, M_PI]

theorem cylinder_antiparallel_differs_witness :
    (libm.acos 1 = 0 ∧ libm.acos (-1) = M_PI) ∧
    estimateCorrect libm "can_1".toList "can".toList cylCriteria (1 / 1000) 1 ⟨0, 0, 1⟩ =
      some true ∧
    estimateCorrect libm "can_1".toList "can".toList cylCriteria (1 / 1000) 1
      (Vector3.neg ⟨0, 0, 1⟩) = some false :=
  ⟨⟨by norm_num [libm], by norm_num [libm]⟩,
    cylinder_antiparallel_differs libm (by norm_num [libm]) (by norm_num [libm])⟩

/-- Behaviour of the code in the cylinder-like branch, beyond both angle tests: the estimate is
accepted exactly when the float value of `acos` (radians) or its difference to 180 is below
`cylinder_axis_deviation_threshold`; it is rejected when `acos` is a NaN. -/
theorem cylinder_branch_iff (m : CMath) (nearest_name target_name : List Char)
    (criteria : EvaluationCriteria) (translate_error error_quaternion_angle : ℚ)
    (error_quaternion_axis : Vector3)
    (hcyl : criteria.is_cylinder_like = true)
    (hname : target_name <+: nearest_name)
    (htrans : translate_error < criteria.translation_threshold)
    (hrot : ¬ error_quaternion_angle < criteria.quaternion_degree_threshold * M_PI / 180)
    (hflip : ¬ |M_PI - error_quaternion_angle| <
      criteria.quaternion_degree_threshold * M_PI / 180) :
    estimateCorrect m nearest_name target_name criteria translate_error error_quaternion_angle
      error_quaternion_axis =
    some (deviationTest
      ((acosC m (criteria.cylinder_axis.Dot error_quaternion_axis)).map toFloat)
      criteria.cylinder_axis_deviation_threshold) := by
  have hn := (compareEq0_iff nearest_name target_name).2 hname
  simp [estimateCorrect, cylinderCheck, hn, htrans, hrot, hflip, hcyl]

/-! ## Lemmas on operations in doubles -/

theorem dblSub_some (x y : ℚ) : dblSub (some x) (some y) = dbl (x - y) := rfl

theorem dblAdd_some (x y : ℚ) : dblAdd (some x) (some y) = dbl (x + y) := rfl

theorem dblMul_some (x y : ℚ) : dblMul (some x) (some y) = dbl (x * y) := rfl

theorem dblAdd_none_left (b : Option ℚ) : dblAdd none b = none := rfl

theorem dblAdd_none_right (a : Option ℚ) : dblAdd a none = none := by
  cases a <;> rfl

theorem dblMul_none_left (b : Option ℚ) : dblMul none b = none := rfl

theorem dblMul_none_right (a : Option ℚ) : dblMul a none = none := by
  cases a <;> rfl

/-- Distance in doubles between two points, from the finite results of the operations. -/
theorem distanceDouble_eq (m : CMath) (a b : Vector3) (dx dy dz sx sy sz s1 s2 : ℚ)
    (hx : dbl (a.x - b.x) = some dx) (hy : dbl (a.y - b.y) = some dy)
    (hz : dbl (a.z - b.z) = some dz)
    (hsx : dbl (dx * dx) = some sx) (hsy : dbl (dy * dy) = some sy)
    (hsz : dbl (dz * dz) = some sz)
    (h1 : dbl (sx + sy) = some s1) (h2 : dbl (s1 + sz) = some s2) :
    a.DistanceDouble m b = some (m.sqrt s2) := by
  show (dblAdd (dblAdd (dblMul (dblSub (some a.x) (some b.x)) (dblSub (some a.x) (some b.x)))
    (dblMul (dblSub (some a.y) (some b.y)) (dblSub (some a.y) (some b.y))))
    (dblMul (dblSub (some a.z) (some b.z)) (dblSub (some a.z) (some b.z)))).map m.sqrt = _
  rw [dblSub_some, dblSub_some, dblSub_some, hx, hy, hz, dblMul_some, dblMul_some, dblMul_some,
    hsx, hsy, hsz, dblAdd_some, h1, dblAdd_some, h2]
  rfl

/-- The distance in doubles is not finite when the square of the x difference overflows. -/
theorem distanceDouble_overflow (m : CMath) (a b : Vector3) (dx : ℚ)
    (hx : dbl (a.x - b.x) = some dx) (hsx : dbl (dx * dx) = none) :
    a.DistanceDouble m b = none := by
  show (dblAdd (dblAdd (dblMul (dblSub (some a.x) (some b.x)) (dblSub (some a.x) (some b.x)))
    (dblMul (dblSub (some a.y) (some b.y)) (dblSub (some a.y) (some b.y))))
    (dblMul (dblSub (some a.z) (some b.z)) (dblSub (some a.z) (some b.z)))).map m.sqrt = _
  rw [dblSub_some, hx, dblMul_some, hsx, dblAdd_none_left, dblAdd_none_left]
  rfl

/-- The distance in doubles from the origin to a point of the x axis is not finite when the
square of the abscissa overflows. -/
theorem distanceDouble_overflow_x (m : CMath) (P dx : ℚ)
    (hx : dbl (0 - P) = some dx) (hsx : dbl (dx * dx) = none) :
    Vector3.DistanceDouble m ⟨0, 0, 0⟩ ⟨P, 0, 0⟩ = none :=
  distanceDouble_overflow m ⟨0, 0, 0⟩ ⟨P, 0, 0⟩ dx hx hsx

/-- One step of the matcher at an unestimated object with a finite distance. -/
theorem nearestLoop_step (m : CMath) (estimate_pos : Option Vector3) (pos : Nat → Vector3)
    (flags : List Bool) (i : Nat) (acc : Option Nat × ℚ) (v : ℚ)
    (h : curDist m estimate_pos (pos i) = some v) :
    nearestLoop m estimate_pos pos (false :: flags) i acc =
      if v < acc.2 then nearestLoop m estimate_pos pos flags (i + 1) (some i, v)
      else nearestLoop m estimate_pos pos flags (i + 1) acc := by
  show (match curDist m estimate_pos (pos i) with
    | some cur_dist =>
      if cur_dist < acc.2 then nearestLoop m estimate_pos pos flags (i + 1) (some i, cur_dist)
      else nearestLoop m estimate_pos pos flags (i + 1) acc
    | none => nearestLoop m estimate_pos pos flags (i + 1) acc) = _
  rw [h]

/-- One step of the matcher at an unestimated object whose distance is not finite. -/
theorem nearestLoop_skip (m : CMath) (estimate_pos : Option Vector3) (pos : Nat → Vector3)
    (flags : List Bool) (i : Nat) (acc : Option Nat × ℚ)
    (h : curDist m estimate_pos (pos i) = none) :
    nearestLoop m estimate_pos pos (false :: flags) i acc =
      nearestLoop m estimate_pos pos flags (i + 1) acc := by
  show (match curDist m estimate_pos (pos i) with
    | some cur_dist =>
      if cur_dist < acc.2 then nearestLoop m estimate_pos pos flags (i + 1) (some i, cur_dist)
      else nearestLoop m estimate_pos pos flags (i + 1) acc
    | none => nearestLoop m estimate_pos pos flags (i + 1) acc) = _
  rw [h]

/-- One step of the matcher at an object flagged estimated. -/
theorem nearestLoop_estimated (m : CMath) (estimate_pos : Option Vector3) (pos : Nat → Vector3)
    (flags : List Bool) (i : Nat) (acc : Option Nat × ℚ) :
    nearestLoop m estimate_pos pos (true :: flags) i acc =
      nearestLoop m estimate_pos pos flags (i + 1) acc := rfl

theorem nearestLoop_nil (m : CMath) (estimate_pos : Option Vector3) (pos : Nat → Vector3)
    (i : Nat) (acc : Option Nat × ℚ) : nearestLoop m estimate_pos pos [] i acc = acc := rfl

theorem curDist_some (m : CMath) (a q : Vector3) :
    curDist m (some a) q = a.DistanceDouble m q := rfl

theorem toDouble_two_pow (k : Nat) : toDouble ((2 : ℚ) ^ k) = (2 : ℚ) ^ k := by
  have := toDouble_dyadic 1 (k : Int) (by norm_num) (by omega)
  rw [Int.cast_one, one_mul, zpow_natCast] at this
  exact this

/-- The matcher finds no candidate exactly when no unestimated object has a finite distance
below the initial `translate_error`. -/
theorem findNearest_none_iff (m : CMath) (estimate_pos : Option Vector3) (pos : Nat → Vector3)
    (flags : List Bool) :
    (findNearest m estimate_pos pos flags).1 = none ↔
      ¬ ∃ (j : Nat) (v : ℚ), flags[j]? = some false ∧
        curDist m estimate_pos (pos j) = some v ∧ v < DBL_MAX := by
  obtain ⟨hb, _, hc⟩ := nearestLoop_spec m estimate_pos pos flags 0 (none, DBL_MAX)
  simp only [Nat.zero_add] at hb hc
  constructor
  · rintro hnone ⟨j, v, hj, hv, hlt⟩
    rcases hc with hc | ⟨k, w, _, _, hr, _, _⟩
    · have h1 := hb j v hj hv
      rw [hc] at h1
      exact absurd hlt (not_lt.2 h1)
    · rw [findNearest, hr] at hnone
      simp at hnone
  · intro hno
    rcases hc with hc | ⟨k, w, hk, hw, _, hlt, _⟩
    · rw [findNearest, hc]
    · exact absurd ⟨k, w, hk, hw, hlt⟩ hno

/-- With every object flagged estimated the matcher finds no candidate. -/
theorem findNearest_all_estimated (m : CMath) (estimate_pos : Option Vector3)
    (pos : Nat → Vector3) (flags : List Bool) (hall : ∀ b ∈ flags, b = true) :
    findNearest m estimate_pos pos flags = (none, DBL_MAX) := by
  obtain ⟨_, _, hc⟩ := nearestLoop_spec m estimate_pos pos flags 0 (none, DBL_MAX)
  rcases hc with hc | ⟨k, _, hk, _, _, _, _⟩
  · exact hc
  · exact absurd (hall false (List.getElem?_mem hk)) (by simp)

/-- The object that the matcher returns is not flagged estimated. -/
theorem findNearest_some_unestimated (m : CMath) (estimate_pos : Option Vector3)
    (pos : Nat → Vector3) (flags : List Bool) (i : Nat)
    (h : (findNearest m estimate_pos pos flags).1 = some i) : flags[i]? = some false := by
  obtain ⟨_, _, hc⟩ := nearestLoop_spec m estimate_pos pos flags 0 (none, DBL_MAX)
  simp only [Nat.zero_add] at hc
  rcases hc with hc | ⟨k, _, hk, _, hr, _, _⟩
  · rw [findNearest, hc] at h
    simp at h
  · rw [findNearest, hr] at h
    have hki : k = i := by simpa using h
    rw [← hki]
    exact hk

/-- Without a finite estimate position the matcher finds no candidate. -/
theorem findNearest_not_finite (m : CMath) (pos : Nat → Vector3) (flags : List Bool) :
    findNearest m none pos flags = (none, DBL_MAX) := by
  obtain ⟨_, _, hc⟩ := nearestLoop_spec m none pos flags 0 (none, DBL_MAX)
  rcases hc with hc | ⟨k, v, _, hv, _, _, _⟩
  · exact hc
  · simp [curDist] at hv

/-- An object at `2^600` metres on the x axis is at an infinite distance, computed in doubles,
from the origin: the square of the difference of the abscissas overflows. -/
theorem farPos_distance (k : Nat) : curDist libm (some ⟨0, 0, 0⟩) (farPos k) = none := by
  have hle : (2 : ℚ) ^ 600 ≤ DBL_MAX :=
    le_trans (pow_le_pow_right₀ (by norm_num) (by norm_num) : (2 : ℚ) ^ 600 ≤ 2 ^ 971)
      (le_mul_of_one_le_left (by positivity) (by norm_num))
  have hgt : DBL_MAX < (2 : ℚ) ^ 1200 := by
    have h1 : (2 ^ 53 - 1) * (2 : ℚ) ^ 971 < 2 ^ 53 * 2 ^ 971 :=
      mul_lt_mul_of_pos_right (by norm_num) (by positivity)
    have h2 : (2 : ℚ) ^ 53 * 2 ^ 971 = 2 ^ 1024 := by
      rw [← pow_add]
    rw [h2] at h1
    exact lt_of_lt_of_le h1 (pow_le_pow_right₀ (by norm_num) (by norm_num))
  have h1 : dbl (0 - (2 : ℚ) ^ 600) = some (-(2 : ℚ) ^ 600) := by
    have hd1 : toDouble (-(2 : ℚ) ^ 600) = -(2 : ℚ) ^ 600 := by
      rw [toDouble_neg, toDouble_two_pow]
    rw [zero_sub]
    simp only [dbl, hd1]
    rw [if_pos (by rw [abs_neg, abs_of_pos (by positivity)]; exact hle)]
  have h2 : dbl (-(2 : ℚ) ^ 600 * -(2 : ℚ) ^ 600) = none := by
    have e : -(2 : ℚ) ^ 600 * -(2 : ℚ) ^ 600 = 2 ^ 1200 := by
      rw [neg_mul_neg, ← pow_add]
    rw [e]
    simp only [dbl, toDouble_two_pow]
    rw [if_neg (by rw [abs_of_pos (by positivity)]; exact not_le.2 hgt)]
  have hfar : farPos k = ⟨2 ^ 600, 0, 0⟩ := rfl
  rw [curDist_some, hfar]
  exact distanceDouble_overflow_x libm (2 ^ 600) _ h1 h2

/-- When no distance is finite the matcher finds no candidate. -/
theorem findNearest_no_finite (m : CMath) (estimate_pos : Option Vector3)
    (pos : Nat → Vector3) (flags : List Bool)
    (h : ∀ j, curDist m estimate_pos (pos j) = none) :
    findNearest m estimate_pos pos flags = (none, DBL_MAX) := by
  obtain ⟨_, _, hc⟩ := nearestLoop_spec m estimate_pos pos flags 0 (none, DBL_MAX)
  rcases hc with hc | ⟨k, v, _, hv, _, _, _⟩
  · exact hc
  · rw [h] at hv
    simp at hv

/-- The same distance, as `Vector3::Distance` returns it. -/
theorem farPos_distanceDouble : Vector3.DistanceDouble libm ⟨0, 0, 0⟩ (farPos 0) = none := by
  rw [← curDist_some]
  exact farPos_distance 0

/-! ## Claims on the matcher -/

/-- C10 fails as stated: an object is not yet estimated, and still no index is matched.  In the
first case the object is `2^600` metres away from the estimate: the square of the difference
overflows, the distance is infinite and not below the initial `translate_error`, the largest
double.  In the second case the estimate position is not finite (a NaN in the pose payload),
and so is every distance. -/
theorem matcher_without_candidate :
    ([false] : List Bool)[0]? = some false ∧
    Vector3.DistanceDouble libm ⟨0, 0, 0⟩ (farPos 0) = none ∧
    findNearest libm (some ⟨0, 0, 0⟩) farPos [false] = (none, DBL_MAX) ∧
    ([true, false, false] : List Bool)[1]? = some false ∧
    findNearest libm none scenePos [true, false, false] = (none, DBL_MAX) := by
  refine ⟨?_, ?_, ?_, ?_, ?_⟩
  · rfl
  · exact farPos_distanceDouble
  · exact findNearest_no_finite libm _ farPos _ farPos_distance
  · rfl
  · exact findNearest_not_finite libm scenePos _

/-- C10, as amended: an object is matched only if it is not flagged estimated and its distance
to the estimate position, as the code computes it in doubles, is finite and below the largest
double; no index is matched exactly when there is no such object; and when there is one, the
matched index `i` is such an object, `translate_error` is its distance, this distance is less
than or equal to the finite distance of every unestimated object and strictly less than that
of every unestimated object of smaller index. -/
theorem findNearest_spec (m : CMath) (estimate_pos : Option Vector3) (pos : Nat → Vector3)
    (m_estimated_models : List Bool) :
    (∀ i, (findNearest m estimate_pos pos m_estimated_models).1 = some i →
      m_estimated_models[i]? = some false ∧
      ∃ v, curDist m estimate_pos (pos i) = some v ∧ v < DBL_MAX) ∧
    ((findNearest m estimate_pos pos m_estimated_models).1 = none ↔
      ¬ ∃ (j : Nat) (v : ℚ), m_estimated_models[j]? = some false ∧
        curDist m estimate_pos (pos j) = some v ∧ v < DBL_MAX) ∧
    ((∃ (j : Nat) (v : ℚ), m_estimated_models[j]? = some false ∧
        curDist m estimate_pos (pos j) = some v ∧ v < DBL_MAX) →
      ∃ (i : Nat) (d : ℚ), findNearest m estimate_pos pos m_estimated_models = (some i, d) ∧
        m_estimated_models[i]? = some false ∧
        curDist m estimate_pos (pos i) = some d ∧ d < DBL_MAX ∧
        (∀ j w, m_estimated_models[j]? = some false →
          curDist m estimate_pos (pos j) = some w → d ≤ w) ∧
        (∀ j w, j < i → m_estimated_models[j]? = some false →
          curDist m estimate_pos (pos j) = some w → d < w)) := by
  obtain ⟨hb, _, hc⟩ := nearestLoop_spec m estimate_pos pos m_estimated_models 0 (none, DBL_MAX)
  simp only [Nat.zero_add] at hb hc
  have hnone : (findNearest m estimate_pos pos m_estimated_models).1 = none ↔
      ¬ ∃ (j : Nat) (v : ℚ), m_estimated_models[j]? = some false ∧
        curDist m estimate_pos (pos j) = some v ∧ v < DBL_MAX := by
    constructor
    · rintro hnone ⟨j, v, hj, hv, hlt⟩
      rcases hc with hc | ⟨k, w, _, _, hr, _, _⟩
      · have h1 := hb j v hj hv
        rw [hc] at h1
        exact absurd hlt (not_lt.2 h1)
      · rw [findNearest, hr] at hnone
        simp at hnone
    · intro hno
      rcases hc with hc | ⟨k, w, hk, hw, _, hlt, _⟩
      · rw [findNearest, hc]
      · exact absurd ⟨k, w, hk, hw, hlt⟩ hno
  refine ⟨?_, hnone, ?_⟩
  · intro i hi
    rcases hc with hc | ⟨k, w, hk, hw, hr, hlt, _⟩
    · rw [findNearest, hc] at hi
      simp at hi
    · rw [findNearest, hr] at hi
      have hki : k = i := by simpa using hi
      rw [← hki]
      exact ⟨hk, w, hw, hlt⟩
  · intro hex
    rcases hc with hc | ⟨k, w, hk, hw, hr, hlt, hprev⟩
    · have : (findNearest m estimate_pos pos m_estimated_models).1 = none := by
        rw [findNearest, hc]
      exact absurd hex (hnone.1 this)
    · refine ⟨k, w, hr, hk, hw, hlt, ?_, hprev⟩
      intro j2 w2 hj2 hw2
      have h1 := hb j2 w2 hj2 hw2
      rw [hr] at h1
      exact h1

/-- Witness of C10: estimate at the origin, object 0 estimated, objects 1 and 2 both at
distance 5: object 1 is matched. -/
theorem findNearest_spec_witness :
    findNearest libm (some ⟨0, 0, 0⟩) scenePos [true, false, false] = (some 1, 5) ∧
    ∃ (i : Nat) (d : ℚ),
      findNearest libm (some ⟨0, 0, 0⟩) scenePos [true, false, false] = (some i, d) ∧
      [true, false, false][i]? = some false ∧
      curDist libm (some ⟨0, 0, 0⟩) (scenePos i) = some d ∧ d < DBL_MAX ∧
      (∀ j w, [true, false, false][j]? = some false →
        curDist libm (some ⟨0, 0, 0⟩) (scenePos j) = some w → d ≤ w) ∧
      (∀ j w, j < i → [true, false, false][j]? = some false →
        curDist libm (some ⟨0, 0, 0⟩) (scenePos j) = some w → d < w) := by
  have e0 : dbl (0 - 0) = some 0 := by rw [sub_self, dbl_zero]
  have e00 : dbl (0 * 0) = some 0 := by rw [mul_zero, dbl_zero]
  have e3 : dbl (0 - 3) = some (-3) := by
    rw [show ((0 - 3 : ℚ)) = -3 by norm_num]
    simpa using dbl_intCast (-3) (by norm_num)
  have e4 : dbl (0 - 4) = some (-4) := by
    rw [show ((0 - 4 : ℚ)) = -4 by norm_num]
    simpa using dbl_intCast (-4) (by norm_num)
  have e5 : dbl (0 - 5) = some (-5) := by
    rw [show ((0 - 5 : ℚ)) = -5 by norm_num]
    simpa using dbl_intCast (-5) (by norm_num)
  have e9 : dbl (-3 * -3) = some 9 := by
    rw [show ((-3 * -3 : ℚ)) = 9 by norm_num]
    simpa using dbl_intCast 9 (by norm_num)
  have e16 : dbl (-4 * -4) = some 16 := by
    rw [show ((-4 * -4 : ℚ)) = 16 by norm_num]
    simpa using dbl_intCast 16 (by norm_num)
  have e25 : dbl (-5 * -5) = some 25 := by
    rw [show ((-5 * -5 : ℚ)) = 25 by norm_num]
    simpa using dbl_intCast 25 (by norm_num)
  have e916 : dbl (9 + 16) = some 25 := by
    rw [show ((9 + 16 : ℚ)) = 25 by norm_num]
    simpa using dbl_intCast 25 (by norm_num)
  have e250 : dbl (25 + 0) = some 25 := by
    rw [show ((25 + 0 : ℚ)) = 25 by norm_num]
    simpa using dbl_intCast 25 (by norm_num)
  have e025 : dbl (0 + 25) = some 25 := by
    rw [show ((0 + 25 : ℚ)) = 25 by norm_num]
    simpa using dbl_intCast 25 (by norm_num)
  have hs : libm.sqrt 25 = 5 := by
    show Rat.sqrt 25 = 5
    rw [show (25 : ℚ) = 5 * 5 by norm_num, Rat.sqrt_eq]
    norm_num
  have h1 : curDist libm (some ⟨0, 0, 0⟩) (scenePos 1) = some 5 := by
    exact (distanceDouble_eq libm ⟨0, 0, 0⟩ ⟨3, 4, 0⟩ (-3) (-4) 0 9 16 0 25 25 e3 e4 e0 e9 e16
      e00 e916 e250).trans (congrArg some hs)
  have h2 : curDist libm (some ⟨0, 0, 0⟩) (scenePos 2) = some 5 := by
    exact (distanceDouble_eq libm ⟨0, 0, 0⟩ ⟨0, 5, 0⟩ 0 (-5) 0 0 25 0 25 25 e0 e5 e0 e00 e25
      e00 e025 e250).trans (congrArg some hs)
  have hmax : (5 : ℚ) < DBL_MAX := by
    norm_num [DBL_MAX]
  refine ⟨?_, (findNearest_spec libm (some ⟨0, 0, 0⟩) scenePos [true, false, false]).2.2
    ⟨1, 5, rfl, h1, hmax⟩⟩
  rw [findNearest, nearestLoop_estimated, nearestLoop_step _ _ _ _ _ _ _ h1, if_pos hmax,
    nearestLoop_step _ _ _ _ _ _ _ h2, if_neg (lt_irrefl _), nearestLoop_nil]

/-! ## Lemmas on the handlers -/

/-- Closed form of `_receiveEnded` when the process does not exit: the `inestimable_log` file
can be opened or the updated streak is below 3. -/
theorem receiveEnded_ok (p : Params) (inp : EndedInput) (s : State)
    (hfile : inp.file_opens = true ∨ updatedStreak s < 3) :
    ∃ s1 out, _receiveEnded p inp s = .ok s1 out ∧
      s1.unchange_count = (if 5 ≤ updatedStreak s then 0 else updatedStreak s) ∧
      s1.prev_unestimate_count =
        (if 3 ≤ updatedStreak s then fullCount p else unestimateCount s) ∧
      s1.m_inestimable_state = (s.m_inestimable_state || decide (3 ≤ updatedStreak s)) ∧
      s1.m_estimated_models =
        (if unestimateCount s = 0 ∨ 3 ≤ updatedStreak s then
          List.replicate p.m_models_name.length false
        else s.m_estimated_models) ∧
      s1.m_rethrowed =
        (s.m_rethrowed || decide (unestimateCount s = 0 ∨ 3 ≤ updatedStreak s)) ∧
      s1.m_skip_receive_result = s.m_skip_receive_result ∧
      out =
        (if 3 ≤ updatedStreak s then
          [Event.log LogFile.inestimable_log, Event.publishEvaluationResult 2]
        else []) ++
        (if unestimateCount s = 0 ∨ 3 ≤ updatedStreak s then [Event.throwObjects] else []) := by
  unfold _receiveEnded roundReset
  by_cases h3 : 3 ≤ updatedStreak s
  · have hf : inp.file_opens = true := by
      rcases hfile with h | h
      · exact h
      · omega
    simp only [h3, hf, if_true, or_true]
    exact ⟨_, _, rfl, by simp, by simp, by simp, by simp, by simp, by simp, by simp⟩
  · have h5 : ¬ 5 ≤ updatedStreak s := by omega
    by_cases hu : unestimateCount s = 0
    · simp only [h3, hu, if_true, if_false, true_or]
      exact ⟨_, _, rfl, by simp [h5], by simp, by simp, by simp, by simp, by simp, by simp⟩
    · simp only [h3, hu, if_false, or_self]
      exact ⟨_, _, rfl, by simp [h5], by simp, by simp, by simp, by simp, by simp, by simp⟩

/-- One round-end seen from the stagnation tracker: from streak `k`, stored count `q` and
unestimated count `u`, with `n` the updated streak. -/
theorem receiveEnded_tracker (p : Params) (inp : EndedInput) (s : State) (k q u n : Nat)
    (hk : s.unchange_count = k) (hq : s.prev_unestimate_count = q)
    (hu : unestimateCount s = u) (hn : n = if u ≠ 0 ∧ u = q then k + 1 else 0)
    (hfile : inp.file_opens = true ∨ n < 3) :
    ∃ t out, _receiveEnded p inp s = .ok t out ∧
      t.unchange_count = (if 5 ≤ n then 0 else n) ∧
      t.prev_unestimate_count = (if 3 ≤ n then fullCount p else u) ∧
      t.m_inestimable_state = (s.m_inestimable_state || decide (3 ≤ n)) ∧
      out.count (Event.publishEvaluationResult 2) = (if 3 ≤ n then 1 else 0) := by
  have hs : updatedStreak s = n := by
    rw [hn]
    simp only [updatedStreak, hk, hq, hu]
  obtain ⟨t, out, hok, h1, h2, h3, _, _, _, hout⟩ :=
    receiveEnded_ok p inp s (by rw [hs]; exact hfile)
  rw [hs] at h1 h2 h3 hout
  rw [hu] at h2 hout
  refine ⟨t, out, hok, h1, h2, h3, ?_⟩
  rw [hout]
  by_cases h3n : 3 ≤ n
  · simp [h3n]
  · by_cases hu0 : u = 0 <;> simp [h3n, hu0]

theorem count_zero_not_mem (out : List Event) (e : Event) (h : out.count e = 0) : e ∉ out :=
  List.count_eq_zero.1 h

/-- Conversion of the product of the three grid sizes to `uint` when it is in range. -/
theorem fullCount_eq (p : Params)
    (h0 : 0 ≤ p.m_stacking_width * p.m_stacking_height * p.m_stacking_layers)
    (h1 : p.m_stacking_width * p.m_stacking_height * p.m_stacking_layers < 4294967296) :
    (fullCount p : Int) = p.m_stacking_width * p.m_stacking_height * p.m_stacking_layers := by
  unfold fullCount
  rw [Int.emod_eq_of_lt h0 h1, Int.toNat_of_nonneg h0]

/-- The loop of lines 115-146 runs to its end exactly when every unestimated object it visits
is below both bounds. -/
theorem steadyLoop_iff (m : CMath) (p : Params) (linear_vel angular_vel : Nat → Vector3) :
    ∀ (flags : List Bool) (i : Nat),
      steadyLoop m p linear_vel angular_vel flags i = true ↔
        ∀ k, flags[k]? = some false →
          (linear_vel (i + k)).Distance m ⟨0, 0, 0⟩ < p.m_linear_vel_threshold ∧
          (angular_vel (i + k)).Distance m ⟨0, 0, 0⟩ < 5 := by
  intro flags
  induction flags with
  | nil =>
    intro i
    simp [steadyLoop]
  | cons e rest ih =>
    intro i
    cases e with
    | true =>
      simp only [steadyLoop, if_true]
      rw [ih (i + 1)]
      constructor
      · intro h k hk
        cases k with
        | zero => simp at hk
        | succ k =>
          have := h k (by simpa using hk)
          rwa [show i + 1 + k = i + (k + 1) by omega] at this
      · intro h k hk
        have := h (k + 1) (by simpa using hk)
        rwa [show i + (k + 1) = i + 1 + k by omega] at this
    | false =>
      by_cases hl : (linear_vel i).Distance m ⟨0, 0, 0⟩ < p.m_linear_vel_threshold
      · by_cases ha : (angular_vel i).Distance m ⟨0, 0, 0⟩ < 5
        · simp only [steadyLoop, hl, ha, if_true, Bool.false_eq_true, if_false]
          rw [ih (i + 1)]
          constructor
          · intro h k hk
            cases k with
            | zero => exact ⟨by simpa using hl, by simpa using ha⟩
            | succ k =>
              have := h k (by simpa using hk)
              rwa [show i + 1 + k = i + (k + 1) by omega] at this
          · intro h k hk
            have := h (k + 1) (by simpa using hk)
            rwa [show i + (k + 1) = i + 1 + k by omega] at this
        · simp only [steadyLoop, hl, ha, if_true, Bool.false_eq_true, if_false]
          constructor
          · intro h
            exact absurd h (by simp)
          · intro h
            exact absurd (h 0 (by simp)).2 (by simpa using ha)
      · simp only [steadyLoop, hl, Bool.false_eq_true, if_false]
        constructor
        · intro h
          exact absurd h (by simp)
        · intro h
          exact absurd (h 0 (by simp)).1 (by simpa using hl)

theorem stampTime_fields (inp : UpdateInput) (s : State) :
    (stampTime inp s).cur_time = s.cur_time ∧
    (stampTime inp s).m_estimated_models = s.m_estimated_models ∧
    (stampTime inp s).steady_count = s.steady_count ∧
    (stampTime inp s).m_rethrowed = s.m_rethrowed ∧
    (stampTime inp s).prev_unestimate_count = s.prev_unestimate_count ∧
    (stampTime inp s).unchange_count = s.unchange_count := by
  unfold stampTime
  split <;> exact ⟨rfl, rfl, rfl, rfl, rfl, rfl⟩

/-- A sample at which the loop of lines 115-146 is left early: the counter is reset and nothing
else happens. -/
theorem onUpdate_noisy (m : CMath) (p : Params) (inp : UpdateInput) (s : State)
    (hgate : inp.sim_time - s.cur_time > p.m_check_steady_interval)
    (hloop : steadyLoop m p inp.linear_vel inp.angular_vel s.m_estimated_models 0 = false) :
    ∃ s1, _onUpdate m p inp s = .ok s1 [] ∧ s1.steady_count = 0 ∧
      s1.m_estimated_models = s.m_estimated_models ∧ s1.cur_time = inp.sim_time := by
  obtain ⟨hc, hf, _, _, _, _⟩ := stampTime_fields inp s
  unfold _onUpdate
  simp only [hc, hf, hgate, hloop, if_true, Bool.false_eq_true, if_false]
  exact ⟨_, rfl, rfl, rfl, rfl⟩

/-- A quiet sample, when the `time_to_steady` file can be opened and the depth sensor connects:
the counter is incremented, and when it reaches the threshold the picture request is published
and the counter is reset. -/
theorem onUpdate_quiet (m : CMath) (p : Params) (inp : UpdateInput) (s : State)
    (hgate : inp.sim_time - s.cur_time > p.m_check_steady_interval)
    (hloop : steadyLoop m p inp.linear_vel inp.angular_vel s.m_estimated_models 0 = true)
    (hfile : inp.file_opens = true) (hconn : inp.sensor_connects = true) :
    ∃ s1 out, _onUpdate m p inp s = .ok s1 out ∧
      s1.m_estimated_models = s.m_estimated_models ∧ s1.cur_time = inp.sim_time ∧
      s1.steady_count =
        (if p.m_consecutive_steady_threshold ≤ s.steady_count + 1 then 0
          else s.steady_count + 1) ∧
      (Event.publishTakePicture ∈ out ↔
        p.m_consecutive_steady_threshold ≤ s.steady_count + 1) ∧
      (¬ p.m_consecutive_steady_threshold ≤ s.steady_count + 1 → out = []) := by
  obtain ⟨hc, hf, hk, _, _, _⟩ := stampTime_fields inp s
  unfold _onUpdate steadyCapture
  by_cases hT : p.m_consecutive_steady_threshold ≤ s.steady_count + 1
  · simp only [hc, hf, hk, hgate, hloop, if_true, ge_iff_le, hT, hfile, hconn,
      Bool.true_eq_false, and_false, if_false]
    exact ⟨_, _, rfl, rfl, rfl, rfl, by simp, by simp⟩
  · simp only [hc, hf, hk, hgate, hloop, if_true, ge_iff_le, hT, if_false]
    exact ⟨_, _, rfl, rfl, rfl, rfl, by simp, by simp⟩

theorem quiet_iff_steadyLoop (m : CMath) (p : Params) (flags : List Bool) (inp : UpdateInput) :
    quiet m p flags inp ↔ steadyLoop m p inp.linear_vel inp.angular_vel flags 0 = true := by
  rw [steadyLoop_iff]
  simp only [quiet, Nat.zero_add]

/-- Run of quiet samples from a counter value `k` below the threshold: the sample number `n`
(from 0) publishes the picture request exactly when the threshold divides `k + n + 1`. -/
theorem quiet_run (m : CMath) (p : Params) :
    ∀ (inps : List UpdateInput) (s : State) (k : Int),
      s.steady_count = k → 0 ≤ k → k < p.m_consecutive_steady_threshold →
      sampled p s.cur_time inps →
      (∀ inp ∈ inps, quiet m p s.m_estimated_models inp ∧ inp.file_opens = true ∧
        inp.sensor_connects = true) →
      ∀ n, n < inps.length →
        ∃ s1 out, (runOutcomes m p (inps.map Input.update) s)[n]? = some (.ok s1 out) ∧
          (Event.publishTakePicture ∈ out ↔
            p.m_consecutive_steady_threshold ∣ k + (n : Int) + 1) := by
  intro inps
  induction inps with
  | nil =>
    intro s k _ _ _ _ _ n hn
    simp at hn
  | cons inp rest ih =>
    intro s k hk hk0 hkT hsamp hall n hn
    obtain ⟨hq, hfile, hconn⟩ := hall inp (by simp)
    obtain ⟨s1, out, hok, hflags, htime, hcount, hpub, _⟩ :=
      onUpdate_quiet m p inp s hsamp.1 ((quiet_iff_steadyLoop m p _ inp).1 hq) hfile hconn
    have hrun : runOutcomes m p ((inp :: rest).map Input.update) s =
        .ok s1 out :: runOutcomes m p (rest.map Input.update) s1 := by
      simp only [List.map_cons, runOutcomes, handle, hok]
    rw [hrun]
    rw [hk] at hcount hpub
    cases n with
    | zero =>
      refine ⟨s1, out, by simp, ?_⟩
      rw [hpub]
      constructor
      · intro h
        have : k + 1 = p.m_consecutive_steady_threshold := by omega
        simp [this]
      · intro h
        have h2 : p.m_consecutive_steady_threshold ∣ k + 1 := by simpa using h
        exact Int.le_of_dvd (by omega) h2
    | succ n =>
      have hn2 : n < rest.length := by simpa using hn
      have hall2 : ∀ inp2 ∈ rest, quiet m p s1.m_estimated_models inp2 ∧
          inp2.file_opens = true ∧ inp2.sensor_connects = true := by
        intro inp2 h2
        rw [hflags]
        exact hall inp2 (by simp [h2])
      have hsamp2 : sampled p s1.cur_time rest := by
        rw [htime]
        exact hsamp.2
      by_cases hT : p.m_consecutive_steady_threshold ≤ k + 1
      · have hkeq : k + 1 = p.m_consecutive_steady_threshold := by omega
        obtain ⟨s2, out2, hget, hiff⟩ :=
          ih s1 0 (by rw [hcount]; simp [hT]) (le_refl 0) (by omega) hsamp2 hall2 n hn2
        refine ⟨s2, out2, by simpa using hget, ?_⟩
        rw [hiff]
        have hsum : k + ((n + 1 : Nat) : Int) + 1 =
            p.m_consecutive_steady_threshold + (0 + (n : Int) + 1) := by
          push_cast
          omega
        rw [hsum]
        exact (Int.dvd_add_right (dvd_refl _)).symm
      · obtain ⟨s2, out2, hget, hiff⟩ :=
          ih s1 (k + 1) (by rw [hcount]; simp [hT]) (by omega) (by omega) hsamp2 hall2 n hn2
        refine ⟨s2, out2, by simpa using hget, ?_⟩
        rw [hiff]
        have hsum : k + ((n + 1 : Nat) : Int) + 1 = k + 1 + (n : Int) + 1 := by
          push_cast
          omega
        rw [hsum]

/-! ## Claims on the settling detector -/

/-- C12: for a threshold `T` of at least 1: a sample in which some unestimated object has a
linear speed of at least `m_linear_vel_threshold` resets the counter and is not steady; a
sample in which every unestimated object is below the linear threshold and below the angular
bound (the `time_to_steady` file can be opened, the depth sensor connects) increments the
counter, and is steady, publishing the picture request, exactly when the counter reaches `T`,
after which the counter is 0; hence in a run of such samples from counter 0 the picture request
is published exactly at the samples whose number is a multiple of `T`. -/
theorem settling_detector (m : CMath) (p : Params)
    (hT : 1 ≤ p.m_consecutive_steady_threshold) :
    (∀ (inp : UpdateInput) (s : State),
      inp.sim_time - s.cur_time > p.m_check_steady_interval →
      (∃ i, s.m_estimated_models[i]? = some false ∧
        p.m_linear_vel_threshold ≤ (inp.linear_vel i).Distance m ⟨0, 0, 0⟩) →
      ∃ s1, _onUpdate m p inp s = .ok s1 [] ∧ s1.steady_count = 0) ∧
    (∀ (inp : UpdateInput) (s : State),
      inp.sim_time - s.cur_time > p.m_check_steady_interval →
      quiet m p s.m_estimated_models inp →
      inp.file_opens = true → inp.sensor_connects = true →
      ∃ s1 out, _onUpdate m p inp s = .ok s1 out ∧
        (Event.publishTakePicture ∈ out ↔
          p.m_consecutive_steady_threshold ≤ s.steady_count + 1) ∧
        s1.steady_count =
          (if p.m_consecutive_steady_threshold ≤ s.steady_count + 1 then 0
            else s.steady_count + 1)) ∧
    (∀ (inps : List UpdateInput) (s : State),
      s.steady_count = 0 →
      sampled p s.cur_time inps →
      (∀ inp ∈ inps, quiet m p s.m_estimated_models inp ∧ inp.file_opens = true ∧
        inp.sensor_connects = true) →
      ∀ n, n < inps.length →
        ∃ s1 out, (runOutcomes m p (inps.map Input.update) s)[n]? = some (.ok s1 out) ∧
          (Event.publishTakePicture ∈ out ↔
            p.m_consecutive_steady_threshold ∣ (n : Int) + 1)) := by
  refine ⟨?_, ?_, ?_⟩
  · rintro inp s hgate ⟨i, hi, hlin⟩
    have hloop : steadyLoop m p inp.linear_vel inp.angular_vel s.m_estimated_models 0 =
        false := by
      rw [Bool.eq_false_iff]
      intro h
      exact absurd ((quiet_iff_steadyLoop m p _ inp).2 h i hi).1 (not_lt.2 hlin)
    obtain ⟨s1, hok, hcount, _, _⟩ := onUpdate_noisy m p inp s hgate hloop
    exact ⟨s1, hok, hcount⟩
  · intro inp s hgate hq hfile hconn
    obtain ⟨s1, out, hok, _, _, hcount, hpub, _⟩ :=
      onUpdate_quiet m p inp s hgate ((quiet_iff_steadyLoop m p _ inp).1 hq) hfile hconn
    exact ⟨s1, out, hok, hpub, hcount⟩
  · intro inps s hs hsamp hall n hn
    obtain ⟨s1, out, hget, hiff⟩ :=
      quiet_run m p inps s 0 hs (le_refl 0) (by omega) hsamp hall n hn
    refine ⟨s1, out, hget, ?_⟩
    rw [hiff, zero_add]

theorem quietInput_quiet (t : ℚ) (flags : List Bool) :
    quiet libm scenarioParams flags (quietInput t) := by
  intro i _
  norm_num [quietInput, Vector3.Distance, libm, Rat.sqrt, scenarioParams]

theorem settling_detector_witness :
    ∃ s1 out,
      (runOutcomes libm scenarioParams
        ([quietInput 1, quietInput 2, quietInput 3, quietInput 4].map Input.update)
        (initialState scenarioParams))[3]? = some (.ok s1 out) ∧
      Event.publishTakePicture ∈ out := by
  obtain ⟨s1, out, hget, hiff⟩ :=
    (settling_detector libm scenarioParams (by decide)).2.2
      [quietInput 1, quietInput 2, quietInput 3, quietInput 4] (initialState scenarioParams) rfl
      (by norm_num [sampled, quietInput, scenarioParams, initialState])
      (by
        intro inp hmem
        simp only [List.mem_cons, List.mem_singleton, List.not_mem_nil, or_false] at hmem
        rcases hmem with h | h | h | h <;> rw [h] <;>
          exact ⟨quietInput_quiet _ _, rfl, rfl⟩)
      3 (by decide)
  exact ⟨s1, out, hget, hiff.2 (by decide)⟩

/-- C13 fails as stated: in the scenario with `steady_count` 1, two samples with the same
linear velocities (all zero, hence the same linear speeds), one with every object at rest and
one with every object spinning at 6 rad/s: the first is steady and publishes the picture
request, the second resets the counter and publishes nothing. -/
theorem angular_speed_changes_decision :
    (quietInput 1).linear_vel = (spinningInput 1).linear_vel ∧
    (∃ s1 out, _onUpdate libm scenarioParams (quietInput 1) almostSteadyState = .ok s1 out ∧
      Event.publishTakePicture ∈ out) ∧
    (∃ s2, _onUpdate libm scenarioParams (spinningInput 1) almostSteadyState = .ok s2 [] ∧
      s2.steady_count = 0) := by
  have hgate : (1 : ℚ) - almostSteadyState.cur_time > scenarioParams.m_check_steady_interval := by
    norm_num [almostSteadyState, initialState, scenarioParams]
  refine ⟨rfl, ?_, ?_⟩
  · obtain ⟨s1, out, hok, _, _, _, hpub, _⟩ :=
      onUpdate_quiet libm scenarioParams (quietInput 1) almostSteadyState hgate
        ((quiet_iff_steadyLoop _ _ _ _).1 (quietInput_quiet 1 _)) rfl rfl
    exact ⟨s1, out, hok, hpub.2 (by decide)⟩
  · have hloop : steadyLoop libm scenarioParams (spinningInput 1).linear_vel
        (spinningInput 1).angular_vel almostSteadyState.m_estimated_models 0 = false := by
      rw [Bool.eq_false_iff]
      intro h
      have h0 := ((quiet_iff_steadyLoop _ _ _ _).2 h 0 (by decide)).2
      norm_num [spinningInput, Vector3.Distance, libm, Rat.sqrt] at h0
    obtain ⟨s2, hok, hcount, _, _⟩ :=
      onUpdate_noisy libm scenarioParams (spinningInput 1) almostSteadyState hgate hloop
    exact ⟨s2, hok, hcount⟩

/-- The handler `_onUpdate` returns the same outcome on two samples with the same linear
speeds, when each angular speed is on the same side of the bound 5 in both. -/
theorem onUpdate_sameUpToAngular (m : CMath) (p : Params) (a b : UpdateInput) (s : State)
    (h : sameUpToAngular m a b) : _onUpdate m p a s = _onUpdate m p b s := by
  obtain ⟨h1, h2, h4, h5, h6, h7⟩ := h
  have hloop : ∀ (flags : List Bool) (i : Nat),
      steadyLoop m p a.linear_vel a.angular_vel flags i =
        steadyLoop m p b.linear_vel b.angular_vel flags i := by
    intro flags i
    rw [Bool.eq_iff_iff, steadyLoop_iff, steadyLoop_iff]
    constructor
    · intro hq k hk
      exact ⟨(h7 _).1 ▸ (hq k hk).1, ((h7 _).2).1 (hq k hk).2⟩
    · intro hq k hk
      exact ⟨(h7 _).1.symm ▸ (hq k hk).1, ((h7 _).2).2 (hq k hk).2⟩
  have hstamp : stampTime a s = stampTime b s := by
    simp only [stampTime, h2]
  simp only [_onUpdate, steadyCapture, hstamp, h1, h4, h5, h6, hloop]

/-- Two sample sequences that are pairwise the same up to the angular velocities produce the
same outcomes from the same state. -/
theorem runOutcomes_sameUpToAngular (m : CMath) (p : Params) (inps1 inps2 : List UpdateInput)
    (s : State) (h : List.Forall₂ (sameUpToAngular m) inps1 inps2) :
    runOutcomes m p (inps1.map Input.update) s = runOutcomes m p (inps2.map Input.update) s := by
  induction h generalizing s with
  | nil => rfl
  | cons hab _ ih =>
    simp only [List.map_cons, runOutcomes, handle, onUpdate_sameUpToAngular m p _ _ s hab]
    split
    · rw [ih]
    · rfl

/-- C13, as amended: the steadiness decision depends on the angular velocities only through
the comparison of each angular speed with the bound 5 of line 127.  First, two sample
sequences that give every object the same linear speeds (and the same times, sensor pose, file
and connection status), in which each angular speed is on the same side of the bound, produce
from the same state the same outcomes, call by call: the same steady reports and the same
counter values.  Second, a sample taken after the sampling interval in which some unestimated
object has an angular speed of 5 or more resets the counter to 0 and reports nothing, whatever
the linear speeds.  Third, when every unestimated object has an angular speed below 5, the
sample passes the loop exactly when every unestimated object has a linear speed below
`m_linear_vel_threshold`. -/
theorem angular_only_through_bound (m : CMath) (p : Params) :
    (∀ (inps1 inps2 : List UpdateInput) (s : State),
      List.Forall₂ (sameUpToAngular m) inps1 inps2 →
      runOutcomes m p (inps1.map Input.update) s =
        runOutcomes m p (inps2.map Input.update) s) ∧
    (∀ (inp : UpdateInput) (s : State) (i : Nat),
      inp.sim_time - s.cur_time > p.m_check_steady_interval →
      s.m_estimated_models[i]? = some false →
      5 ≤ (inp.angular_vel i).Distance m ⟨0, 0, 0⟩ →
      ∃ s1, _onUpdate m p inp s = .ok s1 [] ∧ s1.steady_count = 0) ∧
    (∀ (inp : UpdateInput) (flags : List Bool),
      (∀ i, flags[i]? = some false → (inp.angular_vel i).Distance m ⟨0, 0, 0⟩ < 5) →
      (steadyLoop m p inp.linear_vel inp.angular_vel flags 0 = true ↔
        ∀ i, flags[i]? = some false →
          (inp.linear_vel i).Distance m ⟨0, 0, 0⟩ < p.m_linear_vel_threshold)) := by
  refine ⟨fun inps1 inps2 s h => runOutcomes_sameUpToAngular m p inps1 inps2 s h, ?_, ?_⟩
  · intro inp s i hgate hi hang
    have hloop : steadyLoop m p inp.linear_vel inp.angular_vel s.m_estimated_models 0 =
        false := by
      rw [Bool.eq_false_iff]
      intro h
      exact absurd ((quiet_iff_steadyLoop m p _ inp).2 h i hi).2 (not_lt.2 hang)
    obtain ⟨s1, hok, hcount, _, _⟩ := onUpdate_noisy m p inp s hgate hloop
    exact ⟨s1, hok, hcount⟩
  · intro inp flags hang
    rw [← quiet_iff_steadyLoop]
    constructor
    · intro hq i hi
      exact (hq i hi).1
    · intro hl i hi
      exact ⟨hl i hi, hang i hi⟩

/-- Witness of C13 in the scenario: two sequences whose velocity vectors differ and whose
linear speeds are equal, with angular speeds on the same side of the bound, give the same
outcomes; the sample spinning at 6 rad/s resets the counter; the sample at rest passes the
loop. -/
theorem angular_only_through_bound_witness :
    runOutcomes libm scenarioParams
      ([{ quietInput 1 with linear_vel := fun _ => ⟨3, 4, 0⟩, angular_vel := fun _ => ⟨3, 0, 0⟩ },
        spinningInput 2].map Input.update) almostSteadyState =
    runOutcomes libm scenarioParams
      ([{ quietInput 1 with linear_vel := fun _ => ⟨0, 0, 5⟩, angular_vel := fun _ => ⟨0, 4, 0⟩ },
        { spinningInput 2 with angular_vel := fun _ => ⟨0, 7, 0⟩ }].map Input.update)
      almostSteadyState ∧
    (∃ s1, _onUpdate libm scenarioParams (spinningInput 1) almostSteadyState = .ok s1 [] ∧
      s1.steady_count = 0) ∧
    steadyLoop libm scenarioParams (quietInput 1).linear_vel (quietInput 1).angular_vel
      almostSteadyState.m_estimated_models 0 = true :=
  ⟨(angular_only_through_bound libm scenarioParams).1 _ _ almostSteadyState
    (List.Forall₂.cons
      ⟨rfl, rfl, rfl, rfl, rfl, fun _ => by
        norm_num [quietInput, Vector3.Distance, libm, Rat.sqrt]⟩
      (List.Forall₂.cons
        ⟨rfl, rfl, rfl, rfl, rfl, fun _ => by
          norm_num [spinningInput, Vector3.Distance, libm, Rat.sqrt]⟩
        List.Forall₂.nil)),
    (angular_only_through_bound libm scenarioParams).2.1 (spinningInput 1) almostSteadyState 0
      (by norm_num [spinningInput, almostSteadyState, initialState, scenarioParams])
      (by decide)
      (by norm_num [spinningInput, Vector3.Distance, libm, Rat.sqrt]),
    ((angular_only_through_bound libm scenarioParams).2.2 (quietInput 1)
      almostSteadyState.m_estimated_models
      (fun i _ => by norm_num [quietInput, Vector3.Distance, libm, Rat.sqrt])).2
      (fun i _ => by
        norm_num [quietInput, Vector3.Distance, libm, Rat.sqrt, scenarioParams])⟩

/-! ## Claims on the stagnation tracker and the round evaluation -/

/-- C15: at a round-end, with `u` the number of objects whose estimated flag is false and the
stored previous count, the streak counter becomes the old streak plus one when `u` is nonzero
and equal to the stored count, and 0 otherwise; this updated value is the one tested against
the inestimable threshold 3 and against the reset threshold 5. -/
theorem stagnation_streak_update (p : Params) (inp : EndedInput) (s : State) :
    updatedStreak s =
      (if s.m_estimated_models.count false ≠ 0 ∧
          s.m_estimated_models.count false = s.prev_unestimate_count then
        s.unchange_count + 1
      else 0) ∧
    ∃ s1 out, (_receiveEnded p inp s = .ok s1 out ∨ _receiveEnded p inp s = .exited s1 out) ∧
      s1.unchange_count =
        (if 5 ≤ updatedStreak s ∧ inp.file_opens = true then 0 else updatedStreak s) ∧
      s1.m_inestimable_state = (s.m_inestimable_state || decide (3 ≤ updatedStreak s)) := by
  refine ⟨rfl, ?_⟩
  unfold _receiveEnded roundReset
  by_cases h3 : 3 ≤ updatedStreak s
  · by_cases hf : inp.file_opens = true
    · simp only [h3, hf, if_true, or_true]
      exact ⟨_, _, Or.inl rfl, by simp, by simp⟩
    · simp only [h3, hf, if_true, if_false]
      exact ⟨_, _, Or.inr rfl, by simp [hf], by simp⟩
  · have h5 : ¬ 5 ≤ updatedStreak s := by omega
    by_cases hu : unestimateCount s = 0
    · simp only [h3, hu, if_true, if_false, true_or]
      exact ⟨_, _, Or.inl rfl, by simp [h5], by simp [h3]⟩
    · simp only [h3, hu, if_false, or_self]
      exact ⟨_, _, Or.inl rfl, by simp [h5], by simp [h3]⟩

/-- C17: at a round-end (the `inestimable_log` file can be opened), when the updated streak is
at least 3 exactly one `EvaluationResult` with id 2 is published, the inestimable flag is set,
the stored count is reset to the full object count (the product of the three grid sizes as
`uint`) and the streak is reset to 0 only when it has reached 5; when the updated streak is
below 3 no id-2 result is published, the flag keeps its value, the stored count becomes the
current unestimated count and the streak is kept. -/
theorem inestimable_transition (p : Params) (inp : EndedInput) (s : State)
    (hfile : inp.file_opens = true) :
    ∃ s1 out, _receiveEnded p inp s = .ok s1 out ∧
      (3 ≤ updatedStreak s →
        out.count (Event.publishEvaluationResult 2) = 1 ∧
        s1.m_inestimable_state = true ∧
        s1.prev_unestimate_count = fullCount p ∧
        s1.unchange_count = (if 5 ≤ updatedStreak s then 0 else updatedStreak s)) ∧
      (updatedStreak s < 3 →
        out.count (Event.publishEvaluationResult 2) = 0 ∧
        s1.m_inestimable_state = s.m_inestimable_state ∧
        s1.prev_unestimate_count = unestimateCount s ∧
        s1.unchange_count = updatedStreak s) := by
  obtain ⟨s1, out, hok, hstreak, hprev, hflag, _, _, _, hout⟩ :=
    receiveEnded_ok p inp s (Or.inl hfile)
  refine ⟨s1, out, hok, ?_, ?_⟩
  · intro h3
    refine ⟨?_, ?_, ?_, hstreak⟩
    · rw [hout]
      simp [h3]
    · rw [hflag]
      simp [h3]
    · rw [hprev]
      simp [h3]
  · intro h3
    have h3n : ¬ 3 ≤ updatedStreak s := by omega
    have h5n : ¬ 5 ≤ updatedStreak s := by omega
    refine ⟨?_, ?_, ?_, ?_⟩
    · rw [hout]
      by_cases hu : unestimateCount s = 0 <;> simp [h3n, hu]
    · rw [hflag]
      simp [h3n]
    · rw [hprev]
      simp [h3n]
    · rw [hstreak]
      simp [h5n]

/-- C18: at a round-end (the `inestimable_log` file can be opened) the trial is reset, that is
`_throwObjects` is called, exactly when no object is unestimated or the updated streak is at
least 3.  After a reset the estimated flag of each of the `m_models_name.size()` objects is
false and the rethrown latch is set; without a reset the estimated flags and the latch are
unchanged. -/
theorem round_reset_iff (p : Params) (inp : EndedInput) (s : State)
    (hfile : inp.file_opens = true) :
    ∃ s1 out, _receiveEnded p inp s = .ok s1 out ∧
      (Event.throwObjects ∈ out ↔ (unestimateCount s = 0 ∨ 3 ≤ updatedStreak s)) ∧
      (Event.throwObjects ∈ out →
        s1.m_estimated_models = List.replicate p.m_models_name.length false ∧
        s1.m_rethrowed = true) ∧
      (Event.throwObjects ∉ out →
        s1.m_estimated_models = s.m_estimated_models ∧ s1.m_rethrowed = s.m_rethrowed) := by
  obtain ⟨s1, out, hok, _, _, _, hflags, hre, _, hout⟩ :=
    receiveEnded_ok p inp s (Or.inl hfile)
  have hiff : Event.throwObjects ∈ out ↔ (unestimateCount s = 0 ∨ 3 ≤ updatedStreak s) := by
    rw [hout]
    by_cases hc : unestimateCount s = 0 ∨ 3 ≤ updatedStreak s
    · simp [hc]
    · have h3n : ¬ 3 ≤ updatedStreak s := fun h => hc (Or.inr h)
      simp [hc, h3n]
  refine ⟨s1, out, hok, hiff, ?_, ?_⟩
  · intro h
    have hc := hiff.1 h
    rw [hflags, hre]
    simp [hc]
  · intro h
    have hc : ¬ (unestimateCount s = 0 ∨ 3 ≤ updatedStreak s) := fun hc => h (hiff.2 hc)
    rw [hflags, hre]
    simp [hc]

theorem inestimable_transition_witness :
    ∃ s1 out, _receiveEnded scenarioParams ⟨true⟩ stalledState = .ok s1 out ∧
      out.count (Event.publishEvaluationResult 2) = 1 ∧ s1.m_inestimable_state = true ∧
      s1.prev_unestimate_count = 9 ∧ s1.unchange_count = 3 := by
  obtain ⟨s1, out, hok, h3, _⟩ := inestimable_transition scenarioParams ⟨true⟩ stalledState rfl
  have hs : updatedStreak stalledState = 3 := by decide
  obtain ⟨h1, h2, h4, h5⟩ := h3 (by rw [hs])
  refine ⟨s1, out, hok, h1, h2, ?_, ?_⟩
  · rw [h4]
    decide
  · rw [h5, hs]
    decide

theorem round_reset_iff_witness :
    ∃ s1 out, _receiveEnded scenarioParams ⟨true⟩ progressState = .ok s1 out ∧
      Event.throwObjects ∉ out ∧
      s1.m_estimated_models = [true, false, false, false, false, false, false, false, false] := by
  obtain ⟨s1, out, hok, hiff, _, hno⟩ := round_reset_iff scenarioParams ⟨true⟩ progressState rfl
  have hn : Event.throwObjects ∉ out := by
    rw [hiff]
    decide
  exact ⟨s1, out, hok, hn, (hno hn).1⟩

/-- C16 fails as stated: in the scenario with nine objects and a fresh tracker, object 0 being
estimated, the unestimated count is 8 at three consecutive round-end signals, and none of them
publishes an inestimable result or sets the flag (the streak is 0, 1, 2). -/
theorem three_rounds_not_flagged :
    progressState.unchange_count = 0 ∧
    progressState.prev_unestimate_count = fullCount scenarioParams ∧
    unestimateCount progressState = 8 ∧
    ∃ t1 t2 t3,
      _receiveEnded scenarioParams ⟨true⟩ progressState = .ok t1 [] ∧
      unestimateCount t1 = 8 ∧
      _receiveEnded scenarioParams ⟨true⟩ t1 = .ok t2 [] ∧
      unestimateCount t2 = 8 ∧
      _receiveEnded scenarioParams ⟨true⟩ t2 = .ok t3 [] ∧
      t3.unchange_count = 2 ∧ t3.m_inestimable_state = false :=
  ⟨rfl, rfl, rfl, _, _, _, rfl, rfl, rfl, rfl, rfl, rfl, rfl⟩

/-- C16, as amended: from a fresh tracker (streak 0, stored count equal to the full object
count), with a nonzero unestimated count `c` at three consecutive round-end signals, no
inestimable result is published at the first two signals; when `c` is the full object count the
trial is flagged at the third signal (one id-2 result, flag set) and not at the next signal,
whose count differs from `c`; when `c` is not the full object count the trial is not flagged at
the third signal either. -/
theorem three_rounds_inestimable (p : Params) (e1 e2 e3 e4 : EndedInput)
    (s1 s2 s3 s4 : State) (c : Nat)
    (hc : c ≠ 0)
    (hstreak : s1.unchange_count = 0)
    (hprev : s1.prev_unestimate_count = fullCount p)
    (hu1 : unestimateCount s1 = c) (hu2 : unestimateCount s2 = c)
    (hu3 : unestimateCount s3 = c) (hu4 : unestimateCount s4 ≠ c)
    (hfile : e3.file_opens = true) :
    Event.publishEvaluationResult 2 ∉ (_receiveEnded p e1 s1).out ∧
    Event.publishEvaluationResult 2 ∉ (nextRound p e2 s2 (_receiveEnded p e1 s1)).out ∧
    (c = fullCount p →
      (∃ t3 o3, nextRound p e3 s3 (nextRound p e2 s2 (_receiveEnded p e1 s1)) = .ok t3 o3 ∧
        o3.count (Event.publishEvaluationResult 2) = 1 ∧ t3.m_inestimable_state = true) ∧
      Event.publishEvaluationResult 2 ∉
        (nextRound p e4 s4
          (nextRound p e3 s3 (nextRound p e2 s2 (_receiveEnded p e1 s1)))).out) ∧
    (c ≠ fullCount p →
      Event.publishEvaluationResult 2 ∉
        (nextRound p e3 s3 (nextRound p e2 s2 (_receiveEnded p e1 s1))).out) := by
  by_cases hcf : c = fullCount p
  · obtain ⟨t1, o1, hr1, hk1, hq1, _, ho1⟩ :=
      receiveEnded_tracker p e1 s1 0 (fullCount p) c 1 hstreak hprev hu1
        (by rw [if_pos ⟨hc, hcf⟩]) (Or.inr (by norm_num))
    obtain ⟨t2, o2, hr2, hk2, hq2, _, ho2⟩ :=
      receiveEnded_tracker p e2
        { s2 with
          prev_unestimate_count := t1.prev_unestimate_count
          unchange_count := t1.unchange_count }
        1 c c 2 (by simpa using hk1) (by simpa using hq1) hu2 (by simp [hc])
        (Or.inr (by norm_num))
    obtain ⟨t3, o3, hr3, hk3, hq3, hf3, ho3⟩ :=
      receiveEnded_tracker p e3
        { s3 with
          prev_unestimate_count := t2.prev_unestimate_count
          unchange_count := t2.unchange_count }
        2 c c 3 (by simpa using hk2) (by simpa using hq2) hu3 (by simp [hc]) (Or.inl hfile)
    obtain ⟨t4, o4, hr4, _, _, _, ho4⟩ :=
      receiveEnded_tracker p e4
        { s4 with
          prev_unestimate_count := t3.prev_unestimate_count
          unchange_count := t3.unchange_count }
        3 (fullCount p) (unestimateCount s4) 0 (by simpa using hk3) (by simpa using hq3) rfl
        (by
          have hne : unestimateCount s4 ≠ fullCount p := by rw [← hcf]; exact hu4
          simp [hne])
        (Or.inr (by norm_num))
    have h12 : nextRound p e2 s2 (_receiveEnded p e1 s1) = .ok t2 o2 := by
      rw [hr1]
      exact hr2
    have h123 : nextRound p e3 s3 (nextRound p e2 s2 (_receiveEnded p e1 s1)) = .ok t3 o3 := by
      rw [h12]
      exact hr3
    have h1234 : nextRound p e4 s4
        (nextRound p e3 s3 (nextRound p e2 s2 (_receiveEnded p e1 s1))) = .ok t4 o4 := by
      rw [h123]
      exact hr4
    refine ⟨?_, ?_, fun _ => ⟨⟨t3, o3, h123, by simpa using ho3, by simp [hf3]⟩, ?_⟩,
      fun h => absurd hcf h⟩
    · rw [hr1]
      exact count_zero_not_mem _ _ (by simpa using ho1)
    · rw [h12]
      exact count_zero_not_mem _ _ (by simpa using ho2)
    · rw [h1234]
      exact count_zero_not_mem _ _ (by simpa using ho4)
  · obtain ⟨t1, o1, hr1, hk1, hq1, _, ho1⟩ :=
      receiveEnded_tracker p e1 s1 0 (fullCount p) c 0 hstreak hprev hu1
        (by rw [if_neg (fun h => hcf h.2)]) (Or.inr (by norm_num))
    obtain ⟨t2, o2, hr2, hk2, hq2, _, ho2⟩ :=
      receiveEnded_tracker p e2
        { s2 with
          prev_unestimate_count := t1.prev_unestimate_count
          unchange_count := t1.unchange_count }
        0 c c 1 (by simpa using hk1) (by simpa using hq1) hu2 (by simp [hc])
        (Or.inr (by norm_num))
    obtain ⟨t3, o3, hr3, _, _, _, ho3⟩ :=
      receiveEnded_tracker p e3
        { s3 with
          prev_unestimate_count := t2.prev_unestimate_count
          unchange_count := t2.unchange_count }
        1 c c 2 (by simpa using hk2) (by simpa using hq2) hu3 (by simp [hc])
        (Or.inr (by norm_num))
    have h12 : nextRound p e2 s2 (_receiveEnded p e1 s1) = .ok t2 o2 := by
      rw [hr1]
      exact hr2
    have h123 : nextRound p e3 s3 (nextRound p e2 s2 (_receiveEnded p e1 s1)) = .ok t3 o3 := by
      rw [h12]
      exact hr3
    refine ⟨?_, ?_, fun h => absurd h hcf, fun _ => ?_⟩
    · rw [hr1]
      exact count_zero_not_mem _ _ (by simpa using ho1)
    · rw [h12]
      exact count_zero_not_mem _ _ (by simpa using ho2)
    · rw [h123]
      exact count_zero_not_mem _ _ (by simpa using ho3)

theorem three_rounds_inestimable_witness :
    ∃ t3 o3,
      nextRound scenarioParams ⟨true⟩ (initialState scenarioParams)
        (nextRound scenarioParams ⟨true⟩ (initialState scenarioParams)
          (_receiveEnded scenarioParams ⟨true⟩ (initialState scenarioParams))) = .ok t3 o3 ∧
      o3.count (Event.publishEvaluationResult 2) = 1 ∧ t3.m_inestimable_state = true :=
  ((three_rounds_inestimable scenarioParams ⟨true⟩ ⟨true⟩ ⟨true⟩ ⟨true⟩
    (initialState scenarioParams) (initialState scenarioParams) (initialState scenarioParams)
    progressState 9 (by decide) rfl rfl (by decide) (by decide) (by decide) (by decide)
    rfl).2.2.1 (by decide)).1


/-! ## Lemmas on the estimate handler -/

/-- The scoring of a candidate never ends in one of the three early returns, and a scored
estimate has the index of the candidate. -/
theorem scoreCandidate_cases (m : CMath) (p : Params) (inp : ResultInput) (i : Nat) (te : ℚ) :
    scoreCandidate m p inp i te = .unknownLabel ∨ scoreCandidate m p inp i te = .undefined ∨
    ∃ c, scoreCandidate m p inp i te = .scored i c := by
  unfold scoreCandidate
  split
  · exact Or.inl rfl
  · split
    · split
      · exact Or.inr (Or.inr ⟨_, rfl⟩)
      · exact Or.inr (Or.inl rfl)
    · exact Or.inr (Or.inl rfl)

/-- Scoring of an estimate that is neither suppressed nor malformed, when the matcher has no
candidate. -/
theorem scoring_of_none (m : CMath) (p : Params) (inp : ResultInput) (s : State) (te : ℚ)
    (hskip : s.m_skip_receive_result = false) (hsize : inp.pose_matrix4.length = 16)
    (h : findNearest m (worldTranslation s.m_sensor_pose inp.pose_matrix4)
      inp.model_pos s.m_estimated_models = (none, te)) :
    scoring m p inp s = .noCandidate := by
  unfold scoring
  simp only [hskip, hsize, Bool.false_eq_true, if_false, ne_eq, not_true_eq_false, h]

/-- Scoring of an estimate that is neither suppressed nor malformed, when the matcher has a
candidate. -/
theorem scoring_of_some (m : CMath) (p : Params) (inp : ResultInput) (s : State) (i : Nat)
    (te : ℚ)
    (hskip : s.m_skip_receive_result = false) (hsize : inp.pose_matrix4.length = 16)
    (h : findNearest m (worldTranslation s.m_sensor_pose inp.pose_matrix4)
      inp.model_pos s.m_estimated_models = (some i, te)) :
    scoring m p inp s = scoreCandidate m p inp i te := by
  unfold scoring
  simp only [hskip, hsize, Bool.false_eq_true, if_false, ne_eq, not_true_eq_false, h]

/-- A scored estimate comes from a message that is neither suppressed nor malformed, and its
index is the one found by the matcher. -/
theorem scoring_scored (m : CMath) (p : Params) (inp : ResultInput) (s : State) (idx : Nat)
    (c : Bool) (h : scoring m p inp s = .scored idx c) :
    s.m_skip_receive_result = false ∧ inp.pose_matrix4.length = 16 ∧
    (findNearest m (worldTranslation s.m_sensor_pose inp.pose_matrix4)
      inp.model_pos s.m_estimated_models).1 = some idx := by
  have hskip : s.m_skip_receive_result = false := by
    cases hs : s.m_skip_receive_result with
    | false => rfl
    | true => simp [scoring, hs] at h
  have hsize : inp.pose_matrix4.length = 16 := by
    by_contra hne
    simp [scoring, hskip, hne] at h
  refine ⟨hskip, hsize, ?_⟩
  rcases hfn : findNearest m (worldTranslation s.m_sensor_pose inp.pose_matrix4)
    inp.model_pos s.m_estimated_models with ⟨o, te⟩
  cases o with
  | none =>
    rw [scoring_of_none m p inp s te hskip hsize hfn] at h
    simp at h
  | some i =>
    rw [scoring_of_some m p inp s i te hskip hsize hfn] at h
    rcases scoreCandidate_cases m p inp i te with h1 | h1 | ⟨c2, h1⟩
    · rw [h1] at h
      simp at h
    · rw [h1] at h
      simp at h
    · rw [h1] at h
      injection h with h3 _
      rw [h3]

/-- A scored estimate that returns has published its evaluation result. -/
theorem resultHandle_ok_publishes (p : Params) (inp : ResultInput) (idx : Nat) (correct : Bool)
    (s s1 : State) (out : List Event) (h : resultHandle p inp idx correct s = .ok s1 out) :
    Event.publishEvaluationResult (if correct = true then 1 else 0) ∈ out := by
  unfold resultHandle logEstimation logAfterInestimable logSuccessBetweenFail resultPublish at h
  cases correct <;>
    simp only [Bool.false_and, Bool.true_and, Bool.not_false, Bool.not_true, Bool.false_or,
      Bool.or_false, Bool.false_eq_true, if_false, if_true] at h ⊢ <;>
    split_ifs at h <;>
    simp [Outcome.andThen] at h <;>
    (try split_ifs at h) <;>
    (try simp [Outcome.andThen] at h) <;>
    (try (obtain ⟨_, h2⟩ := h; rw [← h2]; simp))


/-- Closed form of `resultHandle` on an accepted estimate when every log file can be opened. -/
theorem resultHandle_accept (p : Params) (inp : ResultInput) (idx : Nat) (s : State)
    (hfiles : ∀ f, inp.file_opens f = true) :
    ∃ s1 out, resultHandle p inp idx true s = .ok s1 out ∧
      s1.m_estimated_models = s.m_estimated_models.set idx true ∧
      s1.m_skip_receive_result = s.m_skip_receive_result ∧
      s1.m_rethrowed = s.m_rethrowed ∧
      out = (if p.m_success_logging = true then [Event.log LogFile.success_log] else []) ++
        (if s.m_inestimable_state = true then [Event.log LogFile.success_between_fail_count]
          else []) ++
        [Event.publishEvaluationResult 1] := by
  unfold resultHandle logEstimation logAfterInestimable logSuccessBetweenFail resultPublish
  simp only [hfiles, Bool.true_and, Bool.not_true, Bool.false_and, Bool.or_false, if_true]
  cases hsl : p.m_success_logging <;> cases hin : s.m_inestimable_state <;>
    simp only [hin, Outcome.andThen, Bool.false_eq_true, if_false, if_true] <;>
    exact ⟨_, _, rfl, rfl, rfl, rfl, by simp⟩

/-- Closed form of `resultHandle` on a rejected estimate when every log file can be opened and,
under the resimulate policy, a subscriber connects. -/
theorem resultHandle_reject (p : Params) (inp : ResultInput) (idx : Nat) (s : State)
    (hfiles : ∀ f, inp.file_opens f = true)
    (hconn : p.m_resimulate_after_fail = true → inp.resimulate_connects = true) :
    ∃ s1 out, resultHandle p inp idx false s = .ok s1 out ∧
      s1.m_estimated_models =
        (if p.m_resimulate_after_fail = true then List.replicate s.m_estimated_models.length true
          else s.m_estimated_models) ∧
      s1.m_skip_receive_result = (s.m_skip_receive_result || p.m_resimulate_after_fail) ∧
      s1.m_rethrowed = s.m_rethrowed ∧
      out = (if p.m_error_logging = true then [Event.log LogFile.error_log] else []) ++
        (if s.m_inestimable_state = true then [Event.log LogFile.success_between_fail_count]
          else []) ++
        [Event.log LogFile.success_between_fail_count, Event.publishEvaluationResult 0] ++
        (if p.m_resimulate_after_fail = true then [Event.publishResimulate] else []) := by
  unfold resultHandle logEstimation logAfterInestimable logSuccessBetweenFail resultPublish
  simp only [hfiles, Bool.false_and, Bool.not_false, Bool.true_and, Bool.false_or, if_true,
    Bool.false_eq_true, if_false]
  cases hre : p.m_resimulate_after_fail
  · cases hel : p.m_error_logging <;> cases hin : s.m_inestimable_state <;>
      simp only [hin, Outcome.andThen, Bool.false_eq_true, if_false, if_true] <;>
      exact ⟨_, _, rfl, rfl, by simp, rfl, by simp⟩
  · have hc := hconn hre
    cases hel : p.m_error_logging <;> cases hin : s.m_inestimable_state <;>
      simp only [hin, Outcome.andThen, Bool.false_eq_true, if_false, if_true, hc] <;>
      exact ⟨_, _, rfl, rfl, by simp, rfl, by simp⟩

/-- In the scenario the estimate is at the origin of the world frame. -/
theorem estimate_translation (degree : ℚ) :
    worldTranslation capturedState.m_sensor_pose (estimateInput degree).pose_matrix4 =
      some ⟨0, 0, 0⟩ := by
  have hm : dblMul (some 0) (some milli) = some 0 := by
    rw [dblMul_some, zero_mul, dbl_zero]
  have h10 : dblMul (some 1) (some 0) = some 0 := by
    rw [dblMul_some, mul_zero, dbl_zero]
  have h00 : dblMul (some 0) (some 0) = some 0 := by
    rw [dblMul_some, mul_zero, dbl_zero]
  have h01 : dblMul (some 0) (some 1) = some 0 := by
    rw [dblMul_some, zero_mul, dbl_zero]
  have ha : dblAdd (some 0) (some 0) = some 0 := by
    rw [dblAdd_some, add_zero, dbl_zero]
  have hc0 : worldCoord capturedState.m_sensor_pose (estimateInput degree).pose_matrix4 0 =
      some 0 := by
    simp [worldCoord, resultEntry, capturedState, identity4, estimateInput, hm, h10, h00,
      h01, ha]
  have hc1 : worldCoord capturedState.m_sensor_pose (estimateInput degree).pose_matrix4 1 =
      some 0 := by
    simp [worldCoord, resultEntry, capturedState, identity4, estimateInput, hm, h10, h00,
      h01, ha]
  have hc2 : worldCoord capturedState.m_sensor_pose (estimateInput degree).pose_matrix4 2 =
      some 0 := by
    simp [worldCoord, resultEntry, capturedState, identity4, estimateInput, hm, h10, h00,
      h01, ha]
  simp only [worldTranslation, hc0, hc1, hc2]

/-- Distance in double arithmetic from the origin to a point of the x axis at a whole number
of metres. -/
theorem distanceDouble_x_axis (k : Nat) (hk : k < 2 ^ 26) :
    Vector3.DistanceDouble libm ⟨0, 0, 0⟩ ⟨(k : ℚ), 0, 0⟩ = some (k : ℚ) := by
  have e0 : dbl (0 - 0) = some 0 := by rw [sub_self, dbl_zero]
  have e00 : dbl (0 * 0) = some 0 := by rw [mul_zero, dbl_zero]
  have h1 : dbl (0 - (k : ℚ)) = some (-(k : ℚ)) := by
    have := dbl_intCast (-(k : Int)) (by
      rw [abs_neg, abs_of_nonneg (by positivity)]
      have : (k : Int) < 2 ^ 26 := by exact_mod_cast hk
      linarith [show (2 : Int) ^ 26 < 2 ^ 53 by norm_num])
    rw [zero_sub]
    simpa using this
  have hkk : k * k < 2 ^ 53 := by
    have : k * k < 2 ^ 26 * 2 ^ 26 := Nat.mul_lt_mul'' hk hk
    linarith [show (2 : Nat) ^ 26 * 2 ^ 26 < 2 ^ 53 by norm_num]
  have h3 : dbl ((k : ℚ) * (k : ℚ)) = some ((k : ℚ) * (k : ℚ)) := by
    have := dbl_natCast (k * k) hkk
    simpa using this
  have h2 : dbl (-(k : ℚ) * -(k : ℚ)) = some ((k : ℚ) * (k : ℚ)) := by
    rw [neg_mul_neg, h3]
  have h4 : dbl ((k : ℚ) * (k : ℚ) + 0) = some ((k : ℚ) * (k : ℚ)) := by
    rw [add_zero, h3]
  have hsqrt : libm.sqrt ((k : ℚ) * (k : ℚ)) = (k : ℚ) := by
    show Rat.sqrt ((k : ℚ) * (k : ℚ)) = (k : ℚ)
    rw [Rat.sqrt_eq]
    exact abs_of_nonneg (Nat.cast_nonneg k)
  exact (distanceDouble_eq libm ⟨0, 0, 0⟩ ⟨(k : ℚ), 0, 0⟩ (-(k : ℚ)) 0 0 _ 0 0 _ _ h1 e0 e0 h2
    e00 e00 h4 h4).trans (congrArg some hsqrt)

theorem boltPos_distance (k : Nat) (hk : k < 9) :
    curDist libm (some ⟨0, 0, 0⟩) (boltPos k) = some (k : ℚ) := by
  rw [curDist_some]
  exact distanceDouble_x_axis k (by omega)

theorem estimate_nearest :
    findNearest libm (some ⟨0, 0, 0⟩) boltPos capturedState.m_estimated_models =
      (some 0, 0) := by
  have h0 := boltPos_distance 0 (by norm_num)
  have h1 := boltPos_distance 1 (by norm_num)
  have h2 := boltPos_distance 2 (by norm_num)
  have h3 := boltPos_distance 3 (by norm_num)
  have h4 := boltPos_distance 4 (by norm_num)
  have h5 := boltPos_distance 5 (by norm_num)
  have h6 := boltPos_distance 6 (by norm_num)
  have h7 := boltPos_distance 7 (by norm_num)
  have h8 := boltPos_distance 8 (by norm_num)
  simp only [Nat.cast_zero, Nat.cast_one, Nat.cast_ofNat] at h0 h1 h2 h3 h4 h5 h6 h7 h8
  have hflags : capturedState.m_estimated_models =
      [false, false, false, false, false, false, false, false, false] := rfl
  rw [hflags, findNearest, nearestLoop_step _ _ _ _ _ _ _ h0, if_pos DBL_MAX_pos,
    nearestLoop_step _ _ _ _ _ _ _ h1, if_neg (by norm_num),
    nearestLoop_step _ _ _ _ _ _ _ h2, if_neg (by norm_num),
    nearestLoop_step _ _ _ _ _ _ _ h3, if_neg (by norm_num),
    nearestLoop_step _ _ _ _ _ _ _ h4, if_neg (by norm_num),
    nearestLoop_step _ _ _ _ _ _ _ h5, if_neg (by norm_num),
    nearestLoop_step _ _ _ _ _ _ _ h6, if_neg (by norm_num),
    nearestLoop_step _ _ _ _ _ _ _ h7, if_neg (by norm_num),
    nearestLoop_step _ _ _ _ _ _ _ h8, if_neg (by norm_num), nearestLoop_nil]

/-- Scoring of the scenario estimate: object 0 is the nearest one, at distance 0, and a rotation
error below 10 degrees is accepted, one of 10 degrees or more rejected. -/
theorem estimate_scoring (degree : ℚ) :
    scoring libm scenarioParams (estimateInput degree) capturedState =
      .scored 0 (decide (degree < 10)) := by
  have hfn : findNearest libm
      (worldTranslation capturedState.m_sensor_pose (estimateInput degree).pose_matrix4)
      (estimateInput degree).model_pos capturedState.m_estimated_models =
      (some 0, 0) := by
    rw [estimate_translation]
    exact estimate_nearest
  rw [scoring_of_some libm scenarioParams (estimateInput degree) capturedState 0 0
    rfl rfl hfn]
  have hrec : recognizedIdx "bolt".toList ["bolt".toList] 0 none = some 0 := by decide
  have hn : compareEq0 "bolt_0".toList "bolt".toList.length "bolt".toList = true := by decide
  have hne : M_PI ≠ 0 := ne_of_gt M_PI_pos
  have hdeg : degree * M_PI / 180 < plainCriteria.quaternion_degree_threshold * M_PI / 180 ↔
      degree < 10 := by
    rw [deg_lt_iff]
    have : degree * M_PI / 180 * 180 / M_PI = degree := by
      field_simp
    rw [this]
    rfl
  have hcls : estimateCorrect libm "bolt_0".toList "bolt".toList plainCriteria 0
      (degree * M_PI / 180) ⟨0, 0, 1⟩ = some (decide (degree < 10)) := by
    have ht : (0 : ℚ) < plainCriteria.translation_threshold := by
      norm_num [plainCriteria]
    have hcyl : plainCriteria.is_cylinder_like = false := rfl
    have hcir : plainCriteria.has_circular_symmetry = false := rfl
    have hrot : plainCriteria.has_rotational_symmetry = false := rfl
    by_cases hd : degree < 10
    · simp only [estimateCorrect, hn, ht, hdeg.2 hd, if_true, hd, decide_True]
    · have hd2 : ¬ degree * M_PI / 180 <
          plainCriteria.quaternion_degree_threshold * M_PI / 180 := fun h => hd (hdeg.1 h)
      simp only [estimateCorrect, cirSymCheck, hn, ht, hd2, hd, hcyl, hcir, hrot, if_true,
        if_false, Bool.false_eq_true, Bool.and_false, decide_False]
  simp only [scoreCandidate, estimateInput, scenarioParams, hrec, List.getElem?_cons_zero, hcls]


/-! ## Claims on the estimate handler -/

/-- Without a matcher candidate the handler returns with the state unchanged and no effect. -/
theorem receiveResult_of_noCandidate (m : CMath) (p : Params) (inp : ResultInput) (s : State)
    (h : scoring m p inp s = .noCandidate) : _receiveResult m p inp s = .ok s [] := by
  unfold _receiveResult
  rw [h]

/-- The estimate with a NaN as x translation has no finite world position. -/
theorem nanInput_translation :
    worldTranslation capturedState.m_sensor_pose nanInput.pose_matrix4 = none := by
  have hc : worldCoord capturedState.m_sensor_pose nanInput.pose_matrix4 0 = none := by
    simp [worldCoord, resultEntry, capturedState, identity4, nanInput, estimateInput,
      dblMul_none_left, dblMul_none_right, dblAdd_none_left, dblAdd_none_right]
  unfold worldTranslation
  rw [hc]

/-- C11 fails as stated: in the scenario no object is flagged estimated, and a well-formed,
non-suppressed estimate is silently ignored in two cases.  First, the x translation of the
payload is a NaN: the estimate position and every distance are NaNs, the comparison of line 340
is false for every object.  Second, the payload is the one of the scenario and every object is
`2^600` metres away: every distance overflows to an infinity, which is not below the largest
double.  In both cases the handler returns at line 350 with the state unchanged and without
any effect. -/
theorem estimate_ignored_with_unestimated_objects :
    capturedState.m_skip_receive_result = false ∧
    capturedState.m_estimated_models = List.replicate 9 false ∧
    nanInput.pose_matrix4.length = 16 ∧
    _receiveResult libm scenarioParams nanInput capturedState = .ok capturedState [] ∧
    ({ estimateInput 8 with model_pos := farPos } : ResultInput).pose_matrix4.length = 16 ∧
    _receiveResult libm scenarioParams { estimateInput 8 with model_pos := farPos }
      capturedState = .ok capturedState [] := by
  refine ⟨rfl, rfl, rfl, ?_, rfl, ?_⟩
  · have hfn : findNearest libm
        (worldTranslation capturedState.m_sensor_pose nanInput.pose_matrix4)
        nanInput.model_pos capturedState.m_estimated_models = (none, DBL_MAX) := by
      rw [nanInput_translation]
      exact findNearest_not_finite libm nanInput.model_pos capturedState.m_estimated_models
    exact receiveResult_of_noCandidate _ _ _ _
      (scoring_of_none libm scenarioParams nanInput capturedState DBL_MAX rfl rfl hfn)
  · have hpos : worldTranslation capturedState.m_sensor_pose
        ({ estimateInput 8 with model_pos := farPos } : ResultInput).pose_matrix4 =
          some ⟨0, 0, 0⟩ := estimate_translation 8
    have hfn : findNearest libm
        (worldTranslation capturedState.m_sensor_pose
          ({ estimateInput 8 with model_pos := farPos } : ResultInput).pose_matrix4)
        farPos capturedState.m_estimated_models = (none, DBL_MAX) := by
      rw [hpos]
      exact findNearest_no_finite libm (some ⟨0, 0, 0⟩) farPos
        capturedState.m_estimated_models farPos_distance
    exact receiveResult_of_noCandidate _ _ _ _
      (scoring_of_none libm scenarioParams { estimateInput 8 with model_pos := farPos }
        capturedState DBL_MAX rfl rfl hfn)

/-- C11, as amended: for an estimate that is well formed (16 numbers) and not suppressed, the
handler ignores the estimate (it returns with the state unchanged and without any effect)
exactly when no unestimated object has a finite distance below the largest double to the
estimate position, as the code computes it, and this is exactly when the matcher has no
candidate; this is the case when every object is flagged estimated. -/
theorem ignored_iff_no_candidate (m : CMath) (p : Params) (inp : ResultInput) (s : State)
    (hskip : s.m_skip_receive_result = false)
    (hsize : inp.pose_matrix4.length = 16) :
    (_receiveResult m p inp s = .ok s [] ↔
      ¬ ∃ (j : Nat) (v : ℚ), s.m_estimated_models[j]? = some false ∧
        curDist m (worldTranslation s.m_sensor_pose inp.pose_matrix4) (inp.model_pos j) =
          some v ∧ v < DBL_MAX) ∧
    (scoring m p inp s = .noCandidate ↔
      ¬ ∃ (j : Nat) (v : ℚ), s.m_estimated_models[j]? = some false ∧
        curDist m (worldTranslation s.m_sensor_pose inp.pose_matrix4) (inp.model_pos j) =
          some v ∧ v < DBL_MAX) ∧
    ((∀ b ∈ s.m_estimated_models, b = true) → _receiveResult m p inp s = .ok s []) := by
  have hnone := findNearest_none_iff m (worldTranslation s.m_sensor_pose inp.pose_matrix4)
    inp.model_pos s.m_estimated_models
  have hallest : (∀ b ∈ s.m_estimated_models, b = true) →
      ¬ ∃ (j : Nat) (v : ℚ), s.m_estimated_models[j]? = some false ∧
        curDist m (worldTranslation s.m_sensor_pose inp.pose_matrix4) (inp.model_pos j) =
          some v ∧ v < DBL_MAX := by
    rintro hall ⟨j, v, hj, _, _⟩
    exact absurd (hall false (List.getElem?_mem hj)) (by simp)
  rcases hfn : findNearest m (worldTranslation s.m_sensor_pose inp.pose_matrix4)
    inp.model_pos s.m_estimated_models with ⟨o, te⟩
  rw [hfn] at hnone
  cases o with
  | none =>
    have hsc := scoring_of_none m p inp s te hskip hsize hfn
    have hno := hnone.1 rfl
    have hrecv : _receiveResult m p inp s = .ok s [] := by
      unfold _receiveResult
      rw [hsc]
    exact ⟨⟨fun _ => hno, fun _ => hrecv⟩, ⟨fun _ => hno, fun _ => hsc⟩, fun _ => hrecv⟩
  | some i =>
    have hsc := scoring_of_some m p inp s i te hskip hsize hfn
    have hcand : ¬ ¬ ∃ (j : Nat) (v : ℚ), s.m_estimated_models[j]? = some false ∧
        curDist m (worldTranslation s.m_sensor_pose inp.pose_matrix4) (inp.model_pos j) =
          some v ∧ v < DBL_MAX := fun h => by
      have := hnone.2 h
      simp at this
    have hrecv : _receiveResult m p inp s ≠ .ok s [] := by
      unfold _receiveResult
      rw [hsc]
      rcases scoreCandidate_cases m p inp i te with h1 | h1 | ⟨c, h1⟩
      · rw [h1]
        simp
      · rw [h1]
        simp
      · rw [h1]
        intro hok
        have := resultHandle_ok_publishes p inp _ _ s s [] hok
        simp at this
    have hsc2 : scoring m p inp s ≠ .noCandidate := by
      rw [hsc]
      rcases scoreCandidate_cases m p inp i te with h1 | h1 | ⟨c, h1⟩ <;> rw [h1] <;> simp
    exact ⟨⟨fun h => absurd h hrecv, fun h => absurd h hcand⟩,
      ⟨fun h => absurd h hsc2, fun h => absurd h hcand⟩,
      fun hall => absurd (hallest hall) hcand⟩

/-- Witness of C11 in the scenario: with no object estimated the estimate at the origin is not
ignored, object 0 being at distance 0; with every object flagged estimated it is ignored. -/
theorem ignored_iff_no_candidate_witness :
    _receiveResult libm scenarioParams (estimateInput 8) capturedState ≠
      .ok capturedState [] ∧
    _receiveResult libm scenarioParams (estimateInput 8) allEstimatedState =
      .ok allEstimatedState [] :=
  ⟨fun h =>
      (ignored_iff_no_candidate libm scenarioParams (estimateInput 8) capturedState rfl
        rfl).1.1 h
        ⟨0, 0, rfl, by
          rw [estimate_translation]
          simpa using boltPos_distance 0 (by norm_num), by norm_num [DBL_MAX]⟩,
    (ignored_iff_no_candidate libm scenarioParams (estimateInput 8) allEstimatedState rfl
      rfl).2.2 (by decide)⟩

/-- C19: when a scored estimate is accepted (every log file can be opened), the handler returns,
the estimated flag of the matched object is true afterwards and the flag of every other object,
the suppress flag and the rethrown latch are unchanged; no resimulate request is published. -/
theorem accept_marks_matched (m : CMath) (p : Params) (inp : ResultInput) (s : State)
    (idx : Nat)
    (hscore : scoring m p inp s = .scored idx true)
    (hfiles : ∀ f, inp.file_opens f = true) :
    ∃ s1 out, _receiveResult m p inp s = .ok s1 out ∧
      s1.m_estimated_models = s.m_estimated_models.set idx true ∧
      s1.m_estimated_models[idx]? = some true ∧
      (∀ j, j ≠ idx → s1.m_estimated_models[j]? = s.m_estimated_models[j]?) ∧
      s1.m_skip_receive_result = s.m_skip_receive_result ∧
      s1.m_rethrowed = s.m_rethrowed ∧
      Event.publishResimulate ∉ out := by
  obtain ⟨s1, out, hok, hflags, hsk, hre, hout⟩ := resultHandle_accept p inp idx s hfiles
  obtain ⟨_, _, hidx⟩ := scoring_scored m p inp s idx true hscore
  have hfl := findNearest_some_unestimated m _ inp.model_pos s.m_estimated_models idx hidx
  have hlt : idx < s.m_estimated_models.length := by
    by_contra hge
    rw [List.getElem?_eq_none (by omega)] at hfl
    simp at hfl
  refine ⟨s1, out, ?_, hflags, ?_, ?_, hsk, hre, ?_⟩
  · unfold _receiveResult
    rw [hscore]
    exact hok
  · rw [hflags]
    simp [hlt]
  · intro j hj
    rw [hflags]
    simp [List.getElem?_set, Ne.symm hj]
  · rw [hout]
    cases p.m_success_logging <;> cases s.m_inestimable_state <;> simp

theorem accept_marks_matched_witness :
    ∃ s1 out, _receiveResult libm scenarioParams (estimateInput 8) capturedState = .ok s1 out ∧
      s1.m_estimated_models = [true, false, false, false, false, false, false, false, false] ∧
      Event.publishResimulate ∉ out := by
  obtain ⟨s1, out, hok, hflags, _, _, _, _, hno⟩ :=
    accept_marks_matched libm scenarioParams (estimateInput 8) capturedState 0
      ((estimate_scoring 8).trans (by norm_num)) (fun _ => rfl)
  exact ⟨s1, out, hok, hflags, hno⟩

/-- C20: when a scored estimate is rejected (every log file can be opened): with the resimulate
policy enabled and a subscriber connected, the handler returns, every estimated flag is true,
the suppress flag is set and exactly one resimulate request is published; with the policy
disabled, the handler returns, the estimated flags and the suppress flag are unchanged and no
resimulate request is published. -/
theorem reject_resimulate (m : CMath) (p : Params) (inp : ResultInput) (s : State) (idx : Nat)
    (hscore : scoring m p inp s = .scored idx false)
    (hfiles : ∀ f, inp.file_opens f = true) :
    (p.m_resimulate_after_fail = true → inp.resimulate_connects = true →
      ∃ s1 out, _receiveResult m p inp s = .ok s1 out ∧
        s1.m_estimated_models = List.replicate s.m_estimated_models.length true ∧
        s1.m_skip_receive_result = true ∧
        out.count Event.publishResimulate = 1) ∧
    (p.m_resimulate_after_fail = false →
      ∃ s1 out, _receiveResult m p inp s = .ok s1 out ∧
        s1.m_estimated_models = s.m_estimated_models ∧
        s1.m_skip_receive_result = s.m_skip_receive_result ∧
        Event.publishResimulate ∉ out) := by
  have hrecv : _receiveResult m p inp s = resultHandle p inp idx false s := by
    unfold _receiveResult
    rw [hscore]
  constructor
  · intro hre hconn
    obtain ⟨s1, out, hok, hflags, hsk, _, hout⟩ :=
      resultHandle_reject p inp idx s hfiles (fun _ => hconn)
    refine ⟨s1, out, by rw [hrecv]; exact hok, ?_, ?_, ?_⟩
    · rw [hflags]
      simp [hre]
    · rw [hsk, hre]
      simp
    · rw [hout]
      cases p.m_error_logging <;> cases s.m_inestimable_state <;> simp [hre]
  · intro hre
    obtain ⟨s1, out, hok, hflags, hsk, _, hout⟩ :=
      resultHandle_reject p inp idx s hfiles (fun h => by rw [hre] at h; simp at h)
    refine ⟨s1, out, by rw [hrecv]; exact hok, ?_, ?_, ?_⟩
    · rw [hflags]
      simp [hre]
    · rw [hsk, hre]
      simp
    · rw [hout]
      cases p.m_error_logging <;> cases s.m_inestimable_state <;> simp [hre]

theorem reject_resimulate_witness :
    ∃ s1 out, _receiveResult libm scenarioParams (estimateInput 45) capturedState = .ok s1 out ∧
      s1.m_estimated_models = List.replicate 9 true ∧
      s1.m_skip_receive_result = true ∧
      out.count Event.publishResimulate = 1 :=
  (reject_resimulate libm scenarioParams (estimateInput 45) capturedState 0
    ((estimate_scoring 45).trans (by norm_num)) (fun _ => rfl)).1 rfl rfl

/-! ## Claims on the time-to-steady latch -/

/-- Effects of `resultHandle`: log records other than `time_to_steady`, evaluation results and
resimulate requests; the rethrown latch and the statics of the other handlers are not
written. -/
theorem resultHandle_frame (p : Params) (inp : ResultInput) (idx : Nat) (correct : Bool)
    (s : State) :
    (∀ e ∈ (resultHandle p inp idx correct s).out,
      e ≠ Event.throwObjects ∧ e ≠ Event.log LogFile.time_to_steady ∧
      e ≠ Event.publishTakePicture ∧ e ≠ Event.publishEvaluationResult 2) ∧
    (∀ s1, (resultHandle p inp idx correct s).state? = some s1 →
      s1.m_rethrowed = s.m_rethrowed ∧ s1.prev_unestimate_count = s.prev_unestimate_count ∧
      s1.unchange_count = s.unchange_count ∧ s1.steady_count = s.steady_count) := by
  unfold resultHandle logEstimation logAfterInestimable logSuccessBetweenFail resultPublish
  cases correct <;>
    simp only [Bool.false_and, Bool.true_and, Bool.not_false, Bool.not_true, Bool.false_or,
      Bool.or_false, Bool.false_eq_true, if_false, if_true] <;>
    split_ifs <;>
    simp [Outcome.andThen, Outcome.out, Outcome.state?] <;>
    split_ifs <;>
    simp [Outcome.andThen, Outcome.out, Outcome.state?]

theorem foldl_latchStep_none (tr : List Event) : tr.foldl latchStep none = none := by
  induction tr with
  | nil => rfl
  | cons e rest ih => simpa [List.foldl, latchStep] using ih

theorem latchScan_append (b : Bool) (a c : List Event) :
    latchScan b (a ++ c) = c.foldl latchStep (latchScan b a) := by
  simp [latchScan, List.foldl_append]

theorem latchStep_benign (b : Bool) (e : Event)
    (h : e ≠ Event.throwObjects ∧ e ≠ Event.log LogFile.time_to_steady) :
    latchStep (some b) e = some b := by
  cases e with
  | log f => cases f <;> simp_all [latchStep]
  | _ => simp_all [latchStep]

theorem latchScan_benign (b : Bool) (tr : List Event)
    (h : ∀ e ∈ tr, e ≠ Event.throwObjects ∧ e ≠ Event.log LogFile.time_to_steady) :
    latchScan b tr = some b := by
  induction tr with
  | nil => rfl
  | cons e rest ih =>
    have he := latchStep_benign b e (h e (by simp))
    have hr := ih (fun e2 h2 => h e2 (by simp [h2]))
    simp only [latchScan, List.foldl_cons, he] at hr ⊢
    exact hr

/-- A sequence of effects that the latch accepts from the value `b` and that has no call of
`_throwObjects` holds at most one `time_to_steady` record, and none when `b` is clear. -/
theorem latch_segment (seg : List Event) :
    ∀ b : Bool, Event.throwObjects ∉ seg → (latchScan b seg).isSome = true →
      seg.count (Event.log LogFile.time_to_steady) ≤ (if b = true then 1 else 0) ∧
      (latchScan b seg = some true → b = true) := by
  induction seg with
  | nil =>
    intro b _ _
    simp [latchScan]
  | cons e rest ih =>
    intro b hno hs
    have hno2 : Event.throwObjects ∉ rest := fun h => hno (by simp [h])
    have hne : e ≠ Event.throwObjects := fun h => hno (by simp [h])
    by_cases he : e = Event.log LogFile.time_to_steady
    · subst he
      cases b with
      | false =>
        simp [latchScan, latchStep, foldl_latchStep_none] at hs
      | true =>
        have hs2 : (latchScan false rest).isSome = true := by
          simpa [latchScan, latchStep] using hs
        have := ih false hno2 hs2
        constructor
        · simpa using this.1
        · intro _
          rfl
    · have hstep := latchStep_benign b e ⟨hne, he⟩
      have hs2 : (latchScan b rest).isSome = true := by
        simpa [latchScan, hstep] using hs
      have := ih b hno2 hs2
      constructor
      · rw [List.count_cons_of_ne (fun h => he h.symm)]
        exact this.1
      · intro h
        apply this.2
        simpa [latchScan, hstep] using h

/-- Effects of the steady capture read against the latch: a `time_to_steady` record is written
only when the latch is set, and the latch is clear afterwards. -/
theorem steadyCapture_latch (p : Params) (inp : UpdateInput) (s : State) :
    (∃ b, latchScan s.m_rethrowed (steadyCapture p inp s).out = some b ∧
      ∀ s1 out, steadyCapture p inp s = .ok s1 out → s1.m_rethrowed = b) ∧
    (Event.log LogFile.time_to_steady ∈ (steadyCapture p inp s).out →
      s.m_rethrowed = true ∧
      ∀ s1, (steadyCapture p inp s).state? = some s1 → s1.m_rethrowed = false) := by
  unfold steadyCapture
  cases hre : s.m_rethrowed <;> cases hf : inp.file_opens <;> cases hc : inp.sensor_connects <;>
    by_cases hsnap : p.m_snapshot_mode = 1 <;>
    simp [latchScan, latchStep, Outcome.out, Outcome.state?, hsnap]

/-- Effects of `_onUpdate` read against the latch. -/
theorem onUpdate_latch (m : CMath) (p : Params) (inp : UpdateInput) (s : State) :
    (∃ b, latchScan s.m_rethrowed (_onUpdate m p inp s).out = some b ∧
      ∀ s1 out, _onUpdate m p inp s = .ok s1 out → s1.m_rethrowed = b) ∧
    (Event.log LogFile.time_to_steady ∈ (_onUpdate m p inp s).out →
      s.m_rethrowed = true ∧
      ∀ s1, (_onUpdate m p inp s).state? = some s1 → s1.m_rethrowed = false) := by
  obtain ⟨_, _, _, hr, _, _⟩ := stampTime_fields inp s
  have key : ∀ S : State, S.m_rethrowed = s.m_rethrowed →
      (∃ b, latchScan s.m_rethrowed (steadyCapture p inp S).out = some b ∧
        ∀ s1 out, steadyCapture p inp S = .ok s1 out → s1.m_rethrowed = b) ∧
      (Event.log LogFile.time_to_steady ∈ (steadyCapture p inp S).out →
        s.m_rethrowed = true ∧
        ∀ s1, (steadyCapture p inp S).state? = some s1 → s1.m_rethrowed = false) := by
    intro S hS
    have h := steadyCapture_latch p inp S
    rw [hS] at h
    exact h
  unfold _onUpdate
  simp only []
  split_ifs
  · exact key _ hr
  · exact ⟨⟨s.m_rethrowed, rfl, fun s1 out hok => by injection hok with h1 _; rw [← h1, ← hr]⟩,
      fun h => by simp [Outcome.out] at h⟩
  · exact ⟨⟨s.m_rethrowed, rfl, fun s1 out hok => by injection hok with h1 _; rw [← h1, ← hr]⟩,
      fun h => by simp [Outcome.out] at h⟩
  · exact ⟨⟨s.m_rethrowed, rfl, fun s1 out hok => by injection hok with h1 _; rw [← h1, ← hr]⟩,
      fun h => by simp [Outcome.out] at h⟩

/-- Effects of `_receiveEnded` read against the latch; no `time_to_steady` record. -/
theorem receiveEnded_latch (p : Params) (inp : EndedInput) (s : State) :
    (∃ b, latchScan s.m_rethrowed (_receiveEnded p inp s).out = some b ∧
      ∀ s1 out, _receiveEnded p inp s = .ok s1 out → s1.m_rethrowed = b) ∧
    Event.log LogFile.time_to_steady ∉ (_receiveEnded p inp s).out := by
  unfold _receiveEnded roundReset
  by_cases h3 : 3 ≤ updatedStreak s
  · cases hf : inp.file_opens
    · simp [h3, latchScan, Outcome.out]
    · simp [h3, latchScan, latchStep, Outcome.out]
  · by_cases hu : unestimateCount s = 0
    · simp [h3, hu, latchScan, latchStep, Outcome.out]
    · simp [h3, hu, latchScan, Outcome.out]

/-- Effects of `_rethrowForOnlySnapshot` read against the latch; no `time_to_steady` record. -/
theorem rethrow_latch (p : Params) (data : Option Int) (s : State) :
    (∃ b, latchScan s.m_rethrowed (_rethrowForOnlySnapshot p data s).out = some b ∧
      ∀ s1 out, _rethrowForOnlySnapshot p data s = .ok s1 out → s1.m_rethrowed = b) ∧
    Event.log LogFile.time_to_steady ∉ (_rethrowForOnlySnapshot p data s).out := by
  unfold _rethrowForOnlySnapshot
  cases data with
  | none => simp [latchScan, Outcome.out]
  | some n =>
    by_cases hn : n = p.m_total_snapshot
    · simp only [hn, if_true]
      simp [latchScan, Outcome.out]
    · simp only [hn, if_false]
      simp [latchScan, latchStep, Outcome.out]

/-- Effects of `_receiveResult` read against the latch; no `time_to_steady` record. -/
theorem receiveResult_latch (m : CMath) (p : Params) (inp : ResultInput) (s : State) :
    (∃ b, latchScan s.m_rethrowed (_receiveResult m p inp s).out = some b ∧
      ∀ s1 out, _receiveResult m p inp s = .ok s1 out → s1.m_rethrowed = b) ∧
    Event.log LogFile.time_to_steady ∉ (_receiveResult m p inp s).out := by
  unfold _receiveResult
  split
  · exact ⟨⟨s.m_rethrowed, rfl, fun s1 out hok => by injection hok with h1 _; rw [← h1]⟩,
      by simp [Outcome.out]⟩
  · exact ⟨⟨s.m_rethrowed, rfl, fun s1 out hok => by injection hok with h1 _; rw [← h1]⟩,
      by simp [Outcome.out]⟩
  · exact ⟨⟨s.m_rethrowed, rfl, fun s1 out hok => by injection hok with h1 _; rw [← h1]⟩,
      by simp [Outcome.out]⟩
  · exact ⟨⟨s.m_rethrowed, rfl, fun s1 out hok => by simp at hok⟩, by simp [Outcome.out]⟩
  · exact ⟨⟨s.m_rethrowed, rfl, fun s1 out hok => by simp at hok⟩, by simp [Outcome.out]⟩
  · rename_i idx correct _
    obtain ⟨hev, hst⟩ := resultHandle_frame p inp idx correct s
    refine ⟨⟨s.m_rethrowed, ?_, ?_⟩, ?_⟩
    · exact latchScan_benign _ _ (fun e he => ⟨(hev e he).1, (hev e he).2.1⟩)
    · intro s1 out hok
      exact (hst s1 (by rw [hok]; rfl)).1
    · intro hmem
      exact (hev _ hmem).2.1 rfl

/-- Effects of one handler call read against the latch: the latch accepts them, and when the
call returns the latch is the value of `m_rethrowed`. -/
theorem handle_latch (m : CMath) (p : Params) (i : Input) (s : State) :
    ∃ b, latchScan s.m_rethrowed (handle m p i s).out = some b ∧
      ∀ s1 out, handle m p i s = .ok s1 out → s1.m_rethrowed = b := by
  cases i with
  | update inp => exact (onUpdate_latch m p inp s).1
  | result inp => exact (receiveResult_latch m p inp s).1
  | ended inp => exact (receiveEnded_latch p inp s).1
  | rethrowEvent data => exact (rethrow_latch p data s).1

theorem latchScan_false_true (tr : List Event) (h : latchScan false tr = some true) :
    Event.throwObjects ∈ tr := by
  by_contra hno
  have := (latch_segment tr false hno (by rw [h]; rfl)).2 h
  simp at this

/-- The effects of a sequence of callbacks are accepted by the latch. -/
theorem run_latch (m : CMath) (p : Params) :
    ∀ (inputs : List Input) (s : State), (latchScan s.m_rethrowed (run m p inputs s)).isSome = true := by
  intro inputs
  induction inputs with
  | nil =>
    intro s
    rfl
  | cons i rest ih =>
    intro s
    obtain ⟨b, hb, hok⟩ := handle_latch m p i s
    simp only [run]
    split
    · rename_i s1 out heq
      rw [heq] at hb
      rw [latchScan_append]
      have h1 : latchScan s.m_rethrowed out = some s1.m_rethrowed := by
        rw [hok s1 out heq]
        exact hb
      rw [h1]
      exact ih s1
    · rw [hb]
      rfl

/-- C14: in every interleaving of the handlers, a `time_to_steady` record is written only by
`_onUpdate` (at a steady event) and only when the rethrown latch is set, and the latch is clear
after that write; a handler call sets a clear latch only when it calls `_throwObjects` (a
rethrow); hence a stretch of the effects of any sequence of callbacks that holds no rethrow
holds at most one `time_to_steady` record. -/
theorem time_to_steady_latch (m : CMath) (p : Params) :
    (∀ (i : Input) (s : State),
      Event.log LogFile.time_to_steady ∈ (handle m p i s).out →
      (∃ inp, i = Input.update inp) ∧ s.m_rethrowed = true ∧
      ∀ s1, (handle m p i s).state? = some s1 → s1.m_rethrowed = false) ∧
    (∀ (i : Input) (s s1 : State) (out : List Event),
      handle m p i s = .ok s1 out → s.m_rethrowed = false → s1.m_rethrowed = true →
      Event.throwObjects ∈ out) ∧
    (∀ (inputs : List Input) (s : State) (pre seg post : List Event),
      run m p inputs s = pre ++ seg ++ post → Event.throwObjects ∉ seg →
      seg.count (Event.log LogFile.time_to_steady) ≤ 1) := by
  refine ⟨?_, ?_, ?_⟩
  · intro i s hmem
    cases i with
    | update inp => exact ⟨⟨inp, rfl⟩, (onUpdate_latch m p inp s).2 hmem⟩
    | result inp => exact absurd hmem (receiveResult_latch m p inp s).2
    | ended inp => exact absurd hmem (receiveEnded_latch p inp s).2
    | rethrowEvent data => exact absurd hmem (rethrow_latch p data s).2
  · intro i s s1 out hok hs hs1
    obtain ⟨b, hb, hstate⟩ := handle_latch m p i s
    have hb1 := hstate s1 out hok
    rw [hok, hs, ← hb1, hs1] at hb
    exact latchScan_false_true out hb
  · intro inputs s pre seg post hrun hno
    have h := run_latch m p inputs s
    rw [hrun, latchScan_append, latchScan_append] at h
    cases hpre : latchScan s.m_rethrowed pre with
    | none =>
      rw [hpre, foldl_latchStep_none, foldl_latchStep_none] at h
      simp at h
    | some b1 =>
      rw [hpre] at h
      have hseg : (latchScan b1 seg).isSome = true := by
        cases hs : latchScan b1 seg with
        | none =>
          have : seg.foldl latchStep (some b1) = none := hs
          rw [this, foldl_latchStep_none] at h
          simp at h
        | some _ => rfl
      have := (latch_segment seg b1 hno hseg).1
      split_ifs at this <;> omega


theorem quietInput_run :
    run libm scenarioParams
      [Input.update (quietInput 1), Input.update (quietInput 2), Input.update (quietInput 3),
        Input.update (quietInput 4)] (initialState scenarioParams) =
    [Event.log LogFile.time_to_steady, Event.publishTakePicture, Event.publishTakePicture] := by
  have hloop : ∀ t flags, steadyLoop libm scenarioParams (quietInput t).linear_vel
      (quietInput t).angular_vel flags 0 = true :=
    fun t flags => (quiet_iff_steadyLoop _ _ _ _).1 (quietInput_quiet t flags)
  simp only [run, handle, _onUpdate, steadyCapture, stampTime, hloop]
  norm_num [quietInput, initialState, scenarioParams]

theorem time_to_steady_latch_witness :
    (run libm scenarioParams
      [Input.update (quietInput 1), Input.update (quietInput 2), Input.update (quietInput 3),
        Input.update (quietInput 4)] (initialState scenarioParams)).count
      (Event.log LogFile.time_to_steady) ≤ 1 :=
  (time_to_steady_latch libm scenarioParams).2.2
    [Input.update (quietInput 1), Input.update (quietInput 2), Input.update (quietInput 3),
      Input.update (quietInput 4)] (initialState scenarioParams) [] _ [] (by simp)
    (by rw [quietInput_run]; decide)

/-- The two statics of the stagnation tracker are written by `_receiveEnded` only: every other
handler leaves them as they are. -/
theorem tracker_frame (m : CMath) (p : Params) (i : Input) (s s1 : State)
    (hi : ∀ inp, i ≠ Input.ended inp) (h : (handle m p i s).state? = some s1) :
    s1.prev_unestimate_count = s.prev_unestimate_count ∧
    s1.unchange_count = s.unchange_count := by
  cases i with
  | update inp =>
    obtain ⟨_, _, _, _, hp, hu⟩ := stampTime_fields inp s
    simp only [handle, _onUpdate, steadyCapture] at h
    split_ifs at h <;> simp only [Outcome.state?, Option.some.injEq] at h <;>
      (rw [← h]; exact ⟨hp, hu⟩)
  | result inp =>
    simp only [handle, _receiveResult] at h
    split at h
    all_goals first
      | exact ⟨((resultHandle_frame p inp _ _ s).2 s1 h).2.1,
          ((resultHandle_frame p inp _ _ s).2 s1 h).2.2.1⟩
      | (simp only [Outcome.state?, Option.some.injEq] at h; rw [← h]; exact ⟨rfl, rfl⟩)
      | simp [Outcome.state?] at h
  | ended inp => exact absurd rfl (hi inp)
  | rethrowEvent data =>
    cases data with
    | none =>
      simp only [handle, _rethrowForOnlySnapshot, Outcome.state?, Option.some.injEq] at h
      rw [← h]
      exact ⟨rfl, rfl⟩
    | some n =>
      simp only [handle, _rethrowForOnlySnapshot] at h
      split_ifs at h <;> simp only [Outcome.state?, Option.some.injEq] at h <;>
        (rw [← h]; exact ⟨rfl, rfl⟩)

/-- The streak counter stays small: a handler call that returns from a state with
`unchange_count` at most 4 leaves it at most 4, so that the `uint` never wraps. -/
theorem unchange_count_bound (m : CMath) (p : Params) (i : Input) (s s1 : State)
    (out : List Event) (h : handle m p i s = .ok s1 out) (hs : s.unchange_count ≤ 4) :
    s1.unchange_count ≤ 4 := by
  by_cases hi : ∀ inp, i ≠ Input.ended inp
  · have := (tracker_frame m p i s s1 hi (by rw [h]; rfl)).2
    omega
  · push_neg at hi
    obtain ⟨inp, rfl⟩ := hi
    have hle : updatedStreak s ≤ 5 := by
      unfold updatedStreak
      split_ifs <;> omega
    by_cases hf : inp.file_opens = true ∨ updatedStreak s < 3
    · obtain ⟨t, o, hok, hk, _⟩ := receiveEnded_ok p inp s hf
      have h2 : _receiveEnded p inp s = .ok s1 out := h
      rw [hok] at h2
      injection h2 with h3 _
      rw [← h3, hk]
      split_ifs <;> omega
    · push_neg at hf
      have h2 : _receiveEnded p inp s = .ok s1 out := h
      have h3 : 3 ≤ updatedStreak s := hf.2
      have hfalse : inp.file_opens = false := by
        cases hv : inp.file_opens with
        | false => rfl
        | true => exact absurd hv hf.1
      simp [_receiveEnded, h3, hfalse] at h2

/-! ## Further lemmas on the estimate handler -/

/-- The three early returns of `_receiveResult`: an estimate that is suppressed, or malformed,
or received when every object is flagged estimated, leaves the state as it is and has no
effect. -/
theorem receiveResult_ignored (m : CMath) (p : Params) (inp : ResultInput) (s : State)
    (h : s.m_skip_receive_result = true ∨ inp.pose_matrix4.length ≠ 16 ∨
      ∀ b ∈ s.m_estimated_models, b = true) :
    _receiveResult m p inp s = .ok s [] := by
  cases hskip : s.m_skip_receive_result with
  | true => simp [_receiveResult, scoring, hskip]
  | false =>
    by_cases hsize : inp.pose_matrix4.length = 16
    · have hall : ∀ b ∈ s.m_estimated_models, b = true := by
        rcases h with h | h | h
        · rw [hskip] at h
          simp at h
        · exact absurd hsize h
        · exact h
      have hsc := scoring_of_none m p inp s DBL_MAX hskip hsize
        (findNearest_all_estimated m _ inp.model_pos _ hall)
      unfold _receiveResult
      rw [hsc]
    · simp [_receiveResult, scoring, hskip, hsize]

/-- The search of the recognized class finds none exactly when it starts with none and no
target name is a prefix of the label. -/
theorem recognizedIdx_none_iff (object_name : List Char) :
    ∀ (targets : List (List Char)) (i : Nat) (r : Option Nat),
      recognizedIdx object_name targets i r = none ↔
        r = none ∧ ∀ t ∈ targets, ¬ t <+: object_name := by
  intro targets
  induction targets with
  | nil =>
    intro i r
    simp [recognizedIdx]
  | cons t rest ih =>
    intro i r
    by_cases ht : compareEq0 object_name t.length t = true
    · have hp : t <+: object_name := (compareEq0_iff object_name t).1 ht
      simp only [recognizedIdx, ht, if_true]
      rw [ih]
      constructor
      · intro h
        simp at h
      · intro h
        exact absurd hp (h.2 t (by simp))
    · have hp : ¬ t <+: object_name := fun h => ht ((compareEq0_iff object_name t).2 h)
      simp only [recognizedIdx, ht, Bool.false_eq_true, if_false]
      rw [ih]
      constructor
      · intro h
        refine ⟨h.1, fun t2 h2 => ?_⟩
        rcases List.mem_cons.1 h2 with h3 | h3
        · rw [h3]
          exact hp
        · exact h.2 t2 h3
      · intro h
        exact ⟨h.1, fun t2 h2 => h.2 t2 (by simp [h2])⟩

/-- Messages of a scored estimate when every log file can be opened: the `EvaluationResult`
messages among the effects are the single one with id 1 on success and id 0 on failure,
whether the handler returns or waits for a resimulate subscriber. -/
theorem resultHandle_evaluation_result (p : Params) (inp : ResultInput) (idx : Nat)
    (correct : Bool) (s : State) (hfiles : ∀ f, inp.file_opens f = true) :
    (resultHandle p inp idx correct s).out.filter isEvaluationResult =
      [Event.publishEvaluationResult (if correct = true then 1 else 0)] := by
  unfold resultHandle logEstimation logAfterInestimable logSuccessBetweenFail resultPublish
  simp only [hfiles, if_true]
  cases correct <;> cases hsl : p.m_success_logging <;> cases hel : p.m_error_logging <;>
    cases hin : s.m_inestimable_state <;> cases hre : p.m_resimulate_after_fail <;>
    cases hc : inp.resimulate_connects <;>
    simp [hsl, hel, hin, hre, hc, Outcome.andThen, Outcome.out, isEvaluationResult]


/-! ## Claims on the messages and the errors of the estimate handler -/

/-- C21: a scored estimate (every log file can be opened) publishes exactly one
`EvaluationResult`, with id 1 when the classifier accepted and id 0 when it rejected; an
estimate that is suppressed, malformed, or received when every object is flagged estimated (no
candidate) returns without any effect, so it publishes none. -/
theorem evaluation_result_once (m : CMath) (p : Params) (inp : ResultInput) (s : State) :
    (∀ idx correct, scoring m p inp s = .scored idx correct →
      (∀ f, inp.file_opens f = true) →
      (_receiveResult m p inp s).out.filter isEvaluationResult =
        [Event.publishEvaluationResult (if correct = true then 1 else 0)]) ∧
    ((s.m_skip_receive_result = true ∨ inp.pose_matrix4.length ≠ 16 ∨
        ∀ b ∈ s.m_estimated_models, b = true) →
      _receiveResult m p inp s = .ok s []) := by
  refine ⟨?_, receiveResult_ignored m p inp s⟩
  intro idx correct hscore hfiles
  have hrecv : _receiveResult m p inp s = resultHandle p inp idx correct s := by
    unfold _receiveResult
    rw [hscore]
  rw [hrecv]
  exact resultHandle_evaluation_result p inp idx correct s hfiles

theorem evaluation_result_once_witness :
    (_receiveResult libm scenarioParams (estimateInput 8) capturedState).out.filter
        isEvaluationResult = [Event.publishEvaluationResult 1] ∧
    (_receiveResult libm scenarioParams (estimateInput 45) capturedState).out.filter
        isEvaluationResult = [Event.publishEvaluationResult 0] ∧
    _receiveResult libm scenarioParams (estimateInput 8) allEstimatedState =
      .ok allEstimatedState [] :=
  ⟨(evaluation_result_once libm scenarioParams (estimateInput 8) capturedState).1 0 true
      ((estimate_scoring 8).trans (by norm_num)) (fun _ => rfl),
    (evaluation_result_once libm scenarioParams (estimateInput 45) capturedState).1 0 false
      ((estimate_scoring 45).trans (by norm_num)) (fun _ => rfl),
    (evaluation_result_once libm scenarioParams (estimateInput 8) allEstimatedState).2
      (Or.inr (Or.inr (by decide)))⟩

/-- C23: an estimate whose pose payload does not hold exactly 16 numbers is discarded: the
handler returns, the state is unchanged and nothing is published; the callbacks that follow
are processed as if the message had not arrived. -/
theorem malformed_discarded (m : CMath) (p : Params) (inp : ResultInput) (s : State)
    (hsize : inp.pose_matrix4.length ≠ 16) :
    _receiveResult m p inp s = .ok s [] ∧
    ∀ rest, run m p (Input.result inp :: rest) s = run m p rest s ∧
      runOutcomes m p (Input.result inp :: rest) s = .ok s [] :: runOutcomes m p rest s := by
  have h := receiveResult_ignored m p inp s (Or.inr (Or.inl hsize))
  refine ⟨h, fun rest => ⟨?_, ?_⟩⟩
  · simp only [run, handle, h, List.nil_append]
  · simp only [runOutcomes, handle, h]

theorem malformed_discarded_witness :
    _receiveResult libm scenarioParams
      { estimateInput 8 with
        pose_matrix4 := [some 1, some 0, some 0, some 0, some 0, some 1, some 0, some 0,
          some 0, some 0, some 1, some 0] }
      capturedState = .ok capturedState [] :=
  (malformed_discarded libm scenarioParams
    { estimateInput 8 with
        pose_matrix4 := [some 1, some 0, some 0, some 0, some 0, some 1, some 0, some 0,
          some 0, some 0, some 1, some 0] }
    capturedState (by decide)).1

/-- C24 fails as stated: in the scenario with every object flagged estimated, a well-formed,
non-suppressed estimate with the label `nut`, of which no target name is a prefix, is ignored:
the handler returns at line 350 and the process does not terminate. -/
theorem unknown_label_ignored_without_candidate :
    allEstimatedState.m_skip_receive_result = false ∧
    ({ estimateInput 8 with object_name := "nut".toList } : ResultInput).pose_matrix4.length =
      16 ∧
    (∀ t ∈ scenarioParams.m_target_model_names, ¬ t <+: "nut".toList) ∧
    _receiveResult libm scenarioParams { estimateInput 8 with object_name := "nut".toList }
      allEstimatedState = .ok allEstimatedState [] :=
  ⟨rfl, rfl, by decide,
    receiveResult_ignored libm scenarioParams _ allEstimatedState
      (Or.inr (Or.inr (by decide)))⟩

/-- C24, as amended: for a well-formed, non-suppressed estimate whose label has no target name
as a prefix: when the matcher has a candidate, that is when some object is not flagged
estimated and has a finite distance below the largest double to the estimate position, as the
code computes it, the process terminates at line 393, no object having been marked estimated
and nothing having been published; when there is no such object, in particular when every
object is flagged estimated, the estimate is ignored at the return of line 350, before the
label is looked up, and the process continues. -/
theorem unknown_label_fatal (m : CMath) (p : Params) (inp : ResultInput) (s : State)
    (hskip : s.m_skip_receive_result = false)
    (hsize : inp.pose_matrix4.length = 16)
    (hlabel : ∀ t ∈ p.m_target_model_names, ¬ t <+: inp.object_name) :
    ((∃ (j : Nat) (v : ℚ), s.m_estimated_models[j]? = some false ∧
        curDist m (worldTranslation s.m_sensor_pose inp.pose_matrix4) (inp.model_pos j) =
          some v ∧ v < DBL_MAX) →
      _receiveResult m p inp s = .exited s []) ∧
    ((¬ ∃ (j : Nat) (v : ℚ), s.m_estimated_models[j]? = some false ∧
        curDist m (worldTranslation s.m_sensor_pose inp.pose_matrix4) (inp.model_pos j) =
          some v ∧ v < DBL_MAX) →
      _receiveResult m p inp s = .ok s []) ∧
    ((∀ b ∈ s.m_estimated_models, b = true) → _receiveResult m p inp s = .ok s []) := by
  have hnone := findNearest_none_iff m (worldTranslation s.m_sensor_pose inp.pose_matrix4)
    inp.model_pos s.m_estimated_models
  refine ⟨?_, ?_, fun hall => receiveResult_ignored m p inp s (Or.inr (Or.inr hall))⟩
  · intro hcand
    rcases hfn : findNearest m (worldTranslation s.m_sensor_pose inp.pose_matrix4)
      inp.model_pos s.m_estimated_models with ⟨o, te⟩
    rw [hfn] at hnone
    cases o with
    | none => exact absurd hcand (hnone.1 rfl)
    | some i =>
      have hsc := scoring_of_some m p inp s i te hskip hsize hfn
      have hrec : recognizedIdx inp.object_name p.m_target_model_names 0 none = none :=
        (recognizedIdx_none_iff inp.object_name _ 0 none).2 ⟨rfl, hlabel⟩
      unfold _receiveResult
      rw [hsc]
      simp only [scoreCandidate, hrec]
  · intro hno
    rcases hfn : findNearest m (worldTranslation s.m_sensor_pose inp.pose_matrix4)
      inp.model_pos s.m_estimated_models with ⟨o, te⟩
    rw [hfn] at hnone
    cases o with
    | none =>
      have hsc := scoring_of_none m p inp s te hskip hsize hfn
      unfold _receiveResult
      rw [hsc]
    | some i =>
      have := hnone.2 hno
      simp at this

/-- Witness of C24 in the scenario, with the label `nut`: fatal when no object is estimated
(object 0 is at distance 0), ignored when every object is flagged estimated. -/
theorem unknown_label_fatal_witness :
    _receiveResult libm scenarioParams { estimateInput 8 with object_name := "nut".toList }
      capturedState = .exited capturedState [] ∧
    _receiveResult libm scenarioParams { estimateInput 8 with object_name := "nut".toList }
      allEstimatedState = .ok allEstimatedState [] :=
  ⟨(unknown_label_fatal libm scenarioParams
      { estimateInput 8 with object_name := "nut".toList } capturedState rfl rfl
      (by decide)).1
      ⟨0, 0, rfl, by
        rw [show worldTranslation capturedState.m_sensor_pose
          ({ estimateInput 8 with object_name := "nut".toList } : ResultInput).pose_matrix4 =
            some ⟨0, 0, 0⟩ from estimate_translation 8]
        simpa using boltPos_distance 0 (by norm_num), by norm_num [DBL_MAX]⟩,
    (unknown_label_fatal libm scenarioParams
      { estimateInput 8 with object_name := "nut".toList } allEstimatedState rfl rfl
      (by decide)).2.2 (by decide)⟩

/-! ## Lemmas on the suppress flag and the estimated flags -/

/-- The steady capture does not write the estimated flags and does not call `_throwObjects`;
it clears the suppress flag when it returns, publishing the picture request. -/
theorem steadyCapture_frame (p : Params) (inp : UpdateInput) (s : State) :
    Event.throwObjects ∉ (steadyCapture p inp s).out ∧
    ∀ s1, (steadyCapture p inp s).state? = some s1 →
      s1.m_estimated_models = s.m_estimated_models ∧
      (s1.m_skip_receive_result = s.m_skip_receive_result ∨
        (s1.m_skip_receive_result = false ∧
          Event.publishTakePicture ∈ (steadyCapture p inp s).out)) := by
  unfold steadyCapture
  cases hre : s.m_rethrowed <;> cases hf : inp.file_opens <;> cases hc : inp.sensor_connects <;>
    by_cases hsnap : p.m_snapshot_mode = 1 <;>
    simp [Outcome.out, Outcome.state?, hsnap]

/-- The handler `_onUpdate` does not write the estimated flags and does not call
`_throwObjects`; it changes the suppress flag only by clearing it at a steady capture. -/
theorem onUpdate_frame (m : CMath) (p : Params) (inp : UpdateInput) (s : State) :
    Event.throwObjects ∉ (_onUpdate m p inp s).out ∧
    ∀ s1, (_onUpdate m p inp s).state? = some s1 →
      s1.m_estimated_models = s.m_estimated_models ∧
      (s1.m_skip_receive_result = s.m_skip_receive_result ∨
        (s1.m_skip_receive_result = false ∧
          Event.publishTakePicture ∈ (_onUpdate m p inp s).out)) := by
  have hst : (stampTime inp s).m_estimated_models = s.m_estimated_models ∧
      (stampTime inp s).m_skip_receive_result = s.m_skip_receive_result := by
    unfold stampTime
    split <;> exact ⟨rfl, rfl⟩
  have key : ∀ S : State, S.m_estimated_models = s.m_estimated_models →
      S.m_skip_receive_result = s.m_skip_receive_result →
      Event.throwObjects ∉ (steadyCapture p inp S).out ∧
      ∀ s1, (steadyCapture p inp S).state? = some s1 →
        s1.m_estimated_models = s.m_estimated_models ∧
        (s1.m_skip_receive_result = s.m_skip_receive_result ∨
          (s1.m_skip_receive_result = false ∧
            Event.publishTakePicture ∈ (steadyCapture p inp S).out)) := by
    intro S h1 h2
    have h := steadyCapture_frame p inp S
    rw [h1, h2] at h
    exact h
  unfold _onUpdate
  simp only []
  split_ifs
  · exact key _ hst.1 hst.2
  · refine ⟨by simp [Outcome.out], fun s1 h => ?_⟩
    simp only [Outcome.state?, Option.some.injEq] at h
    rw [← h]
    exact ⟨hst.1, Or.inl hst.2⟩
  · refine ⟨by simp [Outcome.out], fun s1 h => ?_⟩
    simp only [Outcome.state?, Option.some.injEq] at h
    rw [← h]
    exact ⟨hst.1, Or.inl hst.2⟩
  · refine ⟨by simp [Outcome.out], fun s1 h => ?_⟩
    simp only [Outcome.state?, Option.some.injEq] at h
    rw [← h]
    exact ⟨hst.1, Or.inl hst.2⟩

/-- The round-end handler does not write the suppress flag; with every object flagged
estimated it returns with a reset of the trial, whatever the log file. -/
theorem receiveEnded_frame (p : Params) (inp : EndedInput) (s : State) :
    (∀ s1, (_receiveEnded p inp s).state? = some s1 →
      s1.m_skip_receive_result = s.m_skip_receive_result) ∧
    ((∀ b ∈ s.m_estimated_models, b = true) →
      unestimateCount s = 0 ∧
      ∃ s1, _receiveEnded p inp s = .ok s1 [Event.throwObjects] ∧
        s1.unchange_count = 0 ∧
        s1.m_estimated_models = List.replicate p.m_models_name.length false ∧
        s1.m_rethrowed = true) := by
  constructor
  · unfold _receiveEnded roundReset
    simp only []
    split_ifs <;> intro s1 h <;> simp only [Outcome.state?, Option.some.injEq] at h <;>
      rw [← h]
  · intro hall
    have hu : unestimateCount s = 0 := by
      unfold unestimateCount
      rw [List.count_eq_zero]
      intro hmem
      exact absurd (hall false hmem) (by simp)
    have hs : updatedStreak s = 0 := by
      simp [updatedStreak, hu]
    obtain ⟨s1, out, hok, hk, _, _, hfl, hre, _, hout⟩ :=
      receiveEnded_ok p inp s (Or.inr (by omega))
    refine ⟨hu, s1, ?_, ?_, ?_, ?_⟩
    · rw [hok, hout]
      simp [hs, hu]
    · rw [hk, hs]
      rfl
    · rw [hfl]
      simp [hu]
    · rw [hre]
      simp [hu]

/-- A handler call that returns without a call of `_throwObjects`, from a state in which every
object is flagged estimated, leaves the estimated flags as they are. -/
theorem all_estimated_step (m : CMath) (p : Params) (i : Input) (s s1 : State)
    (out : List Event) (hall : ∀ b ∈ s.m_estimated_models, b = true)
    (hok : handle m p i s = .ok s1 out) (hno : Event.throwObjects ∉ out) :
    s1.m_estimated_models = s.m_estimated_models := by
  cases i with
  | update inp =>
    exact ((onUpdate_frame m p inp s).2 s1 (by
      have : _onUpdate m p inp s = .ok s1 out := hok
      rw [this]
      rfl)).1
  | result inp =>
    have h := receiveResult_ignored m p inp s (Or.inr (Or.inr hall))
    have h2 : _receiveResult m p inp s = .ok s1 out := hok
    rw [h] at h2
    injection h2 with h3 _
    rw [← h3]
  | ended inp =>
    obtain ⟨_, t, ht, _⟩ := (receiveEnded_frame p inp s).2 hall
    have h2 : _receiveEnded p inp s = .ok s1 out := hok
    rw [ht] at h2
    injection h2 with _ h4
    rw [← h4] at hno
    simp at hno
  | rethrowEvent data =>
    have h2 : _rethrowForOnlySnapshot p data s = .ok s1 out := hok
    unfold _rethrowForOnlySnapshot at h2
    cases data with
    | none => simp at h2
    | some n =>
      simp only at h2
      split_ifs at h2
      · injection h2 with h3 _
        rw [← h3]
      · injection h2 with _ h4
        rw [← h4] at hno
        simp at hno

/-- Before call number `n` of a sequence that starts with every object flagged estimated and
in which no earlier call calls `_throwObjects`, the estimated flags are the initial ones. -/
theorem stateBefore_all_estimated (m : CMath) (p : Params) :
    ∀ (inputs : List Input) (s t : State) (n : Nat),
      (∀ b ∈ s.m_estimated_models, b = true) →
      stateBefore m p inputs s n = some t →
      (∀ k, k < n → ∀ i tk, inputs[k]? = some i → stateBefore m p inputs s k = some tk →
        Event.throwObjects ∉ (handle m p i tk).out) →
      t.m_estimated_models = s.m_estimated_models := by
  intro inputs
  induction inputs with
  | nil =>
    intro s t n _ hst _
    cases n with
    | zero =>
      simp only [stateBefore, Option.some.injEq] at hst
      rw [← hst]
    | succ n => simp [stateBefore] at hst
  | cons i rest ih =>
    intro s t n hall hst hno
    cases n with
    | zero =>
      simp only [stateBefore, Option.some.injEq] at hst
      rw [← hst]
    | succ n =>
      have h0 := hno 0 (by omega) i s (by simp) (by simp [stateBefore])
      cases hh : handle m p i s with
      | ok s1 out =>
        simp only [stateBefore, hh] at hst
        rw [hh] at h0
        have hfl := all_estimated_step m p i s s1 out hall hh h0
        have hall1 : ∀ b ∈ s1.m_estimated_models, b = true := by
          rw [hfl]
          exact hall
        have := ih s1 t n hall1 hst (fun k hk i2 tk hi2 htk =>
          hno (k + 1) (by omega) i2 tk (by simpa using hi2) (by simp [stateBefore, hh, htk]))
        rw [this, hfl]
      | exited s1 out => simp [stateBefore, hh] at hst
      | hung s1 out => simp [stateBefore, hh] at hst
      | undefined => simp [stateBefore, hh] at hst

/-- With every object flagged estimated, calls of `_onUpdate` and `_receiveResult` leave the
estimated flags as they are. -/
theorem stateBefore_updates_results (m : CMath) (p : Params) :
    ∀ (mid : List Input) (s t : State) (n : Nat),
      (∀ b ∈ s.m_estimated_models, b = true) →
      (∀ i ∈ mid, (∃ u, i = Input.update u) ∨ ∃ r, i = Input.result r) →
      stateBefore m p mid s n = some t →
      t.m_estimated_models = s.m_estimated_models := by
  intro mid s t n hall hmid hst
  refine stateBefore_all_estimated m p mid s t n hall hst ?_
  clear hst
  induction mid generalizing s n with
  | nil =>
    intro k _ i tk hi
    simp at hi
  | cons i0 rest ih =>
    intro k hk i tk hi htk
    have hno0 : Event.throwObjects ∉ (handle m p i0 s).out := by
      rcases hmid i0 (by simp) with ⟨u, hu⟩ | ⟨r, hr⟩
      · rw [hu]
        exact (onUpdate_frame m p u s).1
      · rw [hr]
        show Event.throwObjects ∉ (_receiveResult m p r s).out
        rw [receiveResult_ignored m p r s (Or.inr (Or.inr hall))]
        simp [Outcome.out]
    cases k with
    | zero =>
      simp only [List.getElem?_cons_zero, Option.some.injEq] at hi
      simp only [stateBefore, Option.some.injEq] at htk
      rw [← hi, ← htk]
      exact hno0
    | succ k =>
      cases hh : handle m p i0 s with
      | ok s1 out =>
        simp only [stateBefore, hh] at htk
        rw [hh] at hno0
        have hfl := all_estimated_step m p i0 s s1 out hall hh hno0
        exact ih s1 (k + 1) (by rw [hfl]; exact hall)
          (fun j hj => hmid j (List.mem_cons_of_mem _ hj)) k (by omega) i tk
          (by simpa using hi) htk
      | exited s1 out => simp [stateBefore, hh] at htk
      | hung s1 out => simp [stateBefore, hh] at htk
      | undefined => simp [stateBefore, hh] at htk

/-- The handling of a scored estimate writes the suppress flag only by setting it, on a
rejected estimate under the resimulate-after-fail policy, with the resimulate request. -/
theorem resultHandle_skip (p : Params) (inp : ResultInput) (idx : Nat) (correct : Bool)
    (s : State) :
    ∀ s1, (resultHandle p inp idx correct s).state? = some s1 →
      s1.m_skip_receive_result = s.m_skip_receive_result ∨
      (correct = false ∧ p.m_resimulate_after_fail = true ∧
        Event.publishResimulate ∈ (resultHandle p inp idx correct s).out) := by
  unfold resultHandle logEstimation logAfterInestimable logSuccessBetweenFail resultPublish
  cases correct <;>
    simp only [Bool.false_and, Bool.true_and, Bool.not_false, Bool.not_true, Bool.false_or,
      Bool.or_false, Bool.false_eq_true, if_false, if_true] <;>
    split_ifs <;>
    simp [Outcome.andThen, Outcome.out, Outcome.state?] <;>
    split_ifs <;>
    simp_all [Outcome.andThen, Outcome.out, Outcome.state?]

/-- A rejected estimate under the resimulate-after-fail policy returns with the suppress flag
set and every object flagged estimated. -/
theorem receiveResult_reject_policy (m : CMath) (p : Params) (inp : ResultInput) (s : State)
    (idx : Nat) (hscored : scoring m p inp s = .scored idx false)
    (hpolicy : p.m_resimulate_after_fail = true) (hfiles : ∀ f, inp.file_opens f = true)
    (hconn : inp.resimulate_connects = true) :
    ∃ s1 out, _receiveResult m p inp s = .ok s1 out ∧ s1.m_skip_receive_result = true ∧
      ∀ b ∈ s1.m_estimated_models, b = true := by
  obtain ⟨s1, out, hok, hfl, hsk, _, _⟩ := resultHandle_reject p inp idx s hfiles (fun _ => hconn)
  refine ⟨s1, out, ?_, ?_, ?_⟩
  · unfold _receiveResult
    rw [hscored]
    exact hok
  · rw [hsk, hpolicy]
    simp
  · rw [hfl, if_pos hpolicy]
    intro b hb
    exact (List.mem_replicate.mp hb).2

/-! ## Claims on the suppression of late estimates and the forced end of a trial -/

/-- C22: while the suppress flag is set an estimate is ignored (the state is unchanged and
nothing is published); after a rejected estimate under the resimulate-after-fail policy (log
files open, a subscriber connects) the flag is set and every estimate received before the next
call of `_throwObjects` is ignored, whatever handler calls come in between; the flag goes from
clear to set only in the call of `_receiveResult` for a rejected estimate under the policy, and
from set to clear only in a call of `_onUpdate` that publishes the picture request of a steady
capture. -/
theorem late_estimates_suppressed (m : CMath) (p : Params) :
    (∀ (inp : ResultInput) (s : State), s.m_skip_receive_result = true →
      _receiveResult m p inp s = .ok s []) ∧
    (∀ (inp0 : ResultInput) (s0 : State) (idx : Nat),
      scoring m p inp0 s0 = .scored idx false → p.m_resimulate_after_fail = true →
      (∀ f, inp0.file_opens f = true) → inp0.resimulate_connects = true →
      ∃ s1 out0, _receiveResult m p inp0 s0 = .ok s1 out0 ∧
        s1.m_skip_receive_result = true ∧
        ∀ (inputs : List Input) (n : Nat) (inp : ResultInput) (t : State),
          inputs[n]? = some (Input.result inp) → stateBefore m p inputs s1 n = some t →
          (∀ k, k < n → ∀ i tk, inputs[k]? = some i →
            stateBefore m p inputs s1 k = some tk →
            Event.throwObjects ∉ (handle m p i tk).out) →
          _receiveResult m p inp t = .ok t []) ∧
    (∀ (i : Input) (s s1 : State), (handle m p i s).state? = some s1 →
      s.m_skip_receive_result = false → s1.m_skip_receive_result = true →
      ∃ inp idx, i = Input.result inp ∧ scoring m p inp s = .scored idx false ∧
        p.m_resimulate_after_fail = true ∧
        Event.publishResimulate ∈ (handle m p i s).out) ∧
    (∀ (i : Input) (s s1 : State), (handle m p i s).state? = some s1 →
      s.m_skip_receive_result = true → s1.m_skip_receive_result = false →
      ∃ inp, i = Input.update inp ∧ Event.publishTakePicture ∈ (handle m p i s).out) := by
  refine ⟨fun inp s h => receiveResult_ignored m p inp s (Or.inl h), ?_, ?_, ?_⟩
  · intro inp0 s0 idx hscored hpolicy hfiles hconn
    obtain ⟨s1, out0, hok, hsk, hall⟩ :=
      receiveResult_reject_policy m p inp0 s0 idx hscored hpolicy hfiles hconn
    refine ⟨s1, out0, hok, hsk, ?_⟩
    intro inputs n inp t _ hst hno
    have hfl := stateBefore_all_estimated m p inputs s1 t n hall hst hno
    exact receiveResult_ignored m p inp t (Or.inr (Or.inr (by rw [hfl]; exact hall)))
  · intro i s s1 hs hf ht
    cases i with
    | update inp =>
      rcases ((onUpdate_frame m p inp s).2 s1 hs).2 with h | ⟨h, _⟩
      · rw [h, hf] at ht
        simp at ht
      · rw [h] at ht
        simp at ht
    | result inp =>
      have hs2 : (_receiveResult m p inp s).state? = some s1 := hs
      show ∃ inp2 idx, Input.result inp = Input.result inp2 ∧ _ ∧ _ ∧
        Event.publishResimulate ∈ (_receiveResult m p inp s).out
      unfold _receiveResult at hs2 ⊢
      cases hsc : scoring m p inp s with
      | scored idx c =>
        simp only [hsc] at hs2 ⊢
        rcases resultHandle_skip p inp idx c s s1 hs2 with h | ⟨hc, hp, hout⟩
        · rw [h, hf] at ht
          simp at ht
        · subst hc
          exact ⟨inp, idx, rfl, hsc, hp, hout⟩
      | undefined =>
        simp only [hsc, Outcome.state?] at hs2
        simp at hs2
      | suppressed =>
        simp only [hsc, Outcome.state?, Option.some.injEq] at hs2
        rw [← hs2, hf] at ht
        simp at ht
      | malformed =>
        simp only [hsc, Outcome.state?, Option.some.injEq] at hs2
        rw [← hs2, hf] at ht
        simp at ht
      | noCandidate =>
        simp only [hsc, Outcome.state?, Option.some.injEq] at hs2
        rw [← hs2, hf] at ht
        simp at ht
      | unknownLabel =>
        simp only [hsc, Outcome.state?, Option.some.injEq] at hs2
        rw [← hs2, hf] at ht
        simp at ht
    | ended inp =>
      have h := (receiveEnded_frame p inp s).1 s1 hs
      rw [h, hf] at ht
      simp at ht
    | rethrowEvent data =>
      have hs2 : (_rethrowForOnlySnapshot p data s).state? = some s1 := hs
      unfold _rethrowForOnlySnapshot at hs2
      cases data with
      | none =>
        simp only [Outcome.state?, Option.some.injEq] at hs2
        rw [← hs2, hf] at ht
        simp at ht
      | some n =>
        simp only at hs2
        split_ifs at hs2 <;> simp only [Outcome.state?, Option.some.injEq] at hs2 <;>
          rw [← hs2, hf] at ht <;> simp at ht
  · intro i s s1 hs ht hf
    cases i with
    | update inp =>
      rcases ((onUpdate_frame m p inp s).2 s1 hs).2 with h | ⟨_, hout⟩
      · rw [h, ht] at hf
        simp at hf
      · exact ⟨inp, rfl, hout⟩
    | result inp =>
      have hs2 : (_receiveResult m p inp s).state? = some s1 := hs
      rw [receiveResult_ignored m p inp s (Or.inl ht)] at hs2
      simp only [Outcome.state?, Option.some.injEq] at hs2
      rw [← hs2, ht] at hf
      simp at hf
    | ended inp =>
      have h := (receiveEnded_frame p inp s).1 s1 hs
      rw [h, ht] at hf
      simp at hf
    | rethrowEvent data =>
      have hs2 : (_rethrowForOnlySnapshot p data s).state? = some s1 := hs
      unfold _rethrowForOnlySnapshot at hs2
      cases data with
      | none =>
        simp only [Outcome.state?, Option.some.injEq] at hs2
        rw [← hs2, ht] at hf
        simp at hf
      | some n =>
        simp only at hs2
        split_ifs at hs2 <;> simp only [Outcome.state?, Option.some.injEq] at hs2 <;>
          rw [← hs2, ht] at hf <;> simp at hf

/-- Witness of C22 in the scenario: the estimate with a rotation error of 45 degrees is
rejected under the policy and sets the suppress flag; the estimate with an error of 8 degrees
that follows it is ignored. -/
theorem late_estimates_suppressed_witness :
    ∃ s1 out0, _receiveResult libm scenarioParams (estimateInput 45) capturedState =
        .ok s1 out0 ∧
      s1.m_skip_receive_result = true ∧
      _receiveResult libm scenarioParams (estimateInput 8) s1 = .ok s1 [] := by
  obtain ⟨s1, out0, hok, hsk, hrest⟩ :=
    (late_estimates_suppressed libm scenarioParams).2.1 (estimateInput 45) capturedState 0
      (by rw [estimate_scoring]; norm_num) rfl (fun _ => rfl) rfl
  exact ⟨s1, out0, hok, hsk,
    hrest [Input.result (estimateInput 8)] 0 (estimateInput 8) s1 rfl rfl
      (fun k hk => absurd hk (by omega))⟩

/-- C25: after a rejected estimate under the resimulate-after-fail policy (log files open, a
subscriber connects), whatever calls of `_onUpdate` and `_receiveResult` come in between, the
next call of `_receiveEnded` finds no unestimated object and returns with a reset of the trial:
the streak counter is 0, the only effect is the call of `_throwObjects` (no result with id 2),
every estimated flag is false and the rethrown latch is set. -/
theorem forced_end_of_trial (m : CMath) (p : Params) (inp0 : ResultInput) (s0 : State)
    (idx : Nat) (hscored : scoring m p inp0 s0 = .scored idx false)
    (hpolicy : p.m_resimulate_after_fail = true) (hfiles : ∀ f, inp0.file_opens f = true)
    (hconn : inp0.resimulate_connects = true) :
    ∃ s1 out0, _receiveResult m p inp0 s0 = .ok s1 out0 ∧
      ∀ (mid : List Input) (t : State) (e : EndedInput),
        (∀ i ∈ mid, (∃ u, i = Input.update u) ∨ ∃ r, i = Input.result r) →
        stateBefore m p mid s1 mid.length = some t →
        unestimateCount t = 0 ∧
        ∃ t1, _receiveEnded p e t = .ok t1 [Event.throwObjects] ∧
          t1.unchange_count = 0 ∧
          t1.m_estimated_models = List.replicate p.m_models_name.length false ∧
          t1.m_rethrowed = true := by
  obtain ⟨s1, out0, hok, _, hall⟩ :=
    receiveResult_reject_policy m p inp0 s0 idx hscored hpolicy hfiles hconn
  refine ⟨s1, out0, hok, ?_⟩
  intro mid t e hmid hst
  have hfl := stateBefore_updates_results m p mid s1 t mid.length hall hmid hst
  exact (receiveEnded_frame p e t).2 (by rw [hfl]; exact hall)

/-- Witness of C25 in the scenario: the estimate with a rotation error of 45 degrees is
rejected under the policy, and the round-end signal that follows it resets the trial, also
when the inestimable log cannot be opened. -/
theorem forced_end_of_trial_witness :
    ∃ s1 out0, _receiveResult libm scenarioParams (estimateInput 45) capturedState =
        .ok s1 out0 ∧
      unestimateCount s1 = 0 ∧
      ∃ t1, _receiveEnded scenarioParams ⟨false⟩ s1 = .ok t1 [Event.throwObjects] ∧
        t1.unchange_count = 0 ∧
        t1.m_estimated_models = List.replicate 9 false ∧
        t1.m_rethrowed = true := by
  obtain ⟨s1, out0, hok, hrest⟩ :=
    forced_end_of_trial libm scenarioParams (estimateInput 45) capturedState 0
      (by rw [estimate_scoring]; norm_num) rfl (fun _ => rfl) rfl
  exact ⟨s1, out0, hok, hrest [] s1 ⟨false⟩ (fun i hi => absurd hi (by simp)) rfl⟩

/-! ## Claims on repeated inestimable declarations -/

/-- One round-end at which all `fullCount p` objects are unestimated, from a streak `k % 5`
and the stored count `fullCount p`: the streak becomes `( k + 1 ) % 5`, the stored count stays,
and the trial is declared inestimable, and reset, exactly when the streak reaches 3. -/
theorem stalled_round (p : Params) (inp : EndedInput) (s : State) (k : Nat)
    (hfull : fullCount p ≠ 0) (hfile : inp.file_opens = true)
    (hu : unestimateCount s = fullCount p)
    (hk : s.unchange_count = k % 5) (hq : s.prev_unestimate_count = fullCount p) :
    ∃ t out, _receiveEnded p inp s = .ok t out ∧
      t.unchange_count = (k + 1) % 5 ∧ t.prev_unestimate_count = fullCount p ∧
      (Event.publishEvaluationResult 2 ∈ out ↔ 3 ≤ k % 5 + 1) ∧
      (Event.throwObjects ∈ out ↔ 3 ≤ k % 5 + 1) := by
  have hs : updatedStreak s = k % 5 + 1 := by
    simp [updatedStreak, hu, hq, hk, hfull]
  obtain ⟨t, out, hok, h1, h2, _, _, _, _, hout⟩ := receiveEnded_ok p inp s (Or.inl hfile)
  rw [hs] at h1 h2 hout
  rw [hu] at h2 hout
  have hlt : k % 5 < 5 := Nat.mod_lt _ (by norm_num)
  refine ⟨t, out, hok, ?_, ?_, ?_, ?_⟩
  · rw [h1]
    split_ifs <;> omega
  · rw [h2]
    split_ifs <;> rfl
  · rw [hout]
    by_cases h3 : 3 ≤ k % 5 + 1 <;> simp [h3, hfull]
  · rw [hout]
    by_cases h3 : 3 ≤ k % 5 + 1 <;> simp [h3, hfull]

theorem roundsRun_stalled (p : Params) (hfull : fullCount p ≠ 0) :
    ∀ (rounds : List (EndedInput × State)) (t0 : State) (out0 : List Event) (k : Nat),
      t0.unchange_count = k % 5 → t0.prev_unestimate_count = fullCount p →
      (∀ r ∈ rounds, r.1.file_opens = true ∧ unestimateCount r.2 = fullCount p) →
      ∀ i, i < rounds.length →
        ∃ t out, (roundsRun p rounds (.ok t0 out0))[i]? = some (.ok t out) ∧
          t.unchange_count = (k + i + 1) % 5 ∧
          (Event.publishEvaluationResult 2 ∈ out ↔ 3 ≤ (k + i) % 5 + 1) ∧
          (Event.throwObjects ∈ out ↔ 3 ≤ (k + i) % 5 + 1) := by
  intro rounds
  induction rounds with
  | nil =>
    intro t0 out0 k _ _ _ i hi
    simp at hi
  | cons r rest ih =>
    intro t0 out0 k hk hq hr i hi
    obtain ⟨hf, hu⟩ := hr r (by simp)
    obtain ⟨t, out, hok, h1, h2, h3, h4⟩ := stalled_round p r.1
      { r.2 with prev_unestimate_count := t0.prev_unestimate_count
                 unchange_count := t0.unchange_count } k hfull hf hu hk hq
    have hnext : nextRound p r.1 r.2 (.ok t0 out0) = .ok t out := hok
    cases i with
    | zero =>
      refine ⟨t, out, ?_, h1, h3, h4⟩
      simp [roundsRun, hnext]
    | succ i =>
      obtain ⟨t2, out2, hget, g1, g2, g3⟩ := ih t out (k + 1) h1 h2
        (fun r2 hr2 => hr r2 (List.mem_cons_of_mem _ hr2)) i (by simpa using hi)
      refine ⟨t2, out2, ?_, ?_, ?_, ?_⟩
      · simpa [roundsRun, hnext] using hget
      · rw [g1]
        congr 1
        omega
      · rw [g2, show k + 1 + i = k + (i + 1) by omega]
      · rw [g3, show k + 1 + i = k + (i + 1) by omega]

/-- C27: from a fresh tracker (streak 0, stored count equal to the full object count, which is
not 0) and a sequence of round-end signals at each of which every object is unestimated (the
inestimable log can be opened), every round returns, and round `n` (the first one is round 1)
publishes the inestimable result, and resets the trial, if and only if `n % 5` is 3, 4 or 0;
the streak left by round `n` is `n % 5`, so the streak 3 is carried over to the next trial. -/
theorem inestimable_rounds (p : Params) (rounds : List (EndedInput × State)) (t0 : State)
    (out0 : List Event) (hfull : fullCount p ≠ 0) (hstreak : t0.unchange_count = 0)
    (hbase : t0.prev_unestimate_count = fullCount p)
    (hrounds : ∀ r ∈ rounds, r.1.file_opens = true ∧ unestimateCount r.2 = fullCount p) :
    ∀ n, 1 ≤ n → n ≤ rounds.length →
      ∃ t out, (roundsRun p rounds (.ok t0 out0))[n - 1]? = some (.ok t out) ∧
        (Event.publishEvaluationResult 2 ∈ out ↔ (n % 5 = 3 ∨ n % 5 = 4 ∨ n % 5 = 0)) ∧
        (Event.throwObjects ∈ out ↔ (n % 5 = 3 ∨ n % 5 = 4 ∨ n % 5 = 0)) ∧
        t.unchange_count = n % 5 := by
  intro n h1 hn
  obtain ⟨t, out, hget, g1, g2, g3⟩ := roundsRun_stalled p hfull rounds t0 out0 0
    (by rw [hstreak]) hbase hrounds (n - 1) (by omega)
  have hn1 : 0 + (n - 1) + 1 = n := by omega
  have hiff : 3 ≤ (0 + (n - 1)) % 5 + 1 ↔ (n % 5 = 3 ∨ n % 5 = 4 ∨ n % 5 = 0) := by omega
  refine ⟨t, out, hget, ?_, ?_, ?_⟩
  · rw [g2, hiff]
  · rw [g3, hiff]
  · rw [g1, hn1]

/-- Witness of C27 in the scenario (nine objects): six round-ends at which no object is
estimated; the fourth one, the first round of the trial that follows the declaration of round
3, publishes the inestimable result again. -/
theorem inestimable_rounds_witness :
    ∃ t out, (roundsRun scenarioParams
        (List.replicate 6 (⟨true⟩, initialState scenarioParams))
        (.ok (initialState scenarioParams) []))[4 - 1]? = some (.ok t out) ∧
      (Event.publishEvaluationResult 2 ∈ out ↔ (4 % 5 = 3 ∨ 4 % 5 = 4 ∨ 4 % 5 = 0)) ∧
      (Event.throwObjects ∈ out ↔ (4 % 5 = 3 ∨ 4 % 5 = 4 ∨ 4 % 5 = 0)) ∧
      t.unchange_count = 4 % 5 :=
  inestimable_rounds scenarioParams (List.replicate 6 (⟨true⟩, initialState scenarioParams))
    (initialState scenarioParams) [] (by decide) rfl rfl
    (fun r hr => by
      rw [List.eq_of_mem_replicate hr]
      exact ⟨rfl, by decide⟩)
    4 (by norm_num) (by simp)

/-! ## Claims on the rotational-symmetry interval -/

theorem tdiv_360_floor (order : Int) (h : 0 < order) :
    Int.tdiv 360 order = ⌊(360 : ℚ) / (order : ℚ)⌋ := by
  rw [Int.tdiv_eq_ediv (by norm_num) (le_of_lt h)]
  obtain ⟨n, rfl⟩ := Int.eq_ofNat_of_zero_le (le_of_lt h)
  have := Rat.floor_intCast_div_natCast 360 n
  simpa using this.symm

/-- Value of `radian_interval` for `degree_interval` 90. -/
theorem quad_radian_interval :
    toFloat (toDouble (toDouble (90 * M_PI) / 180)) = 13176795 / 8388608 := by
  have h1 : toDouble (90 * M_PI) = 4974073419394997 / 17592186044416 :=
    toDouble_eval _ _ 8 4974073419394997 (by norm_num [M_PI]) (by norm_num [M_PI]) (by norm_num)
      (by norm_num [M_PI]) (by norm_num [M_PI]) (by norm_num)
  have h2 : toDouble (4974073419394997 / 17592186044416 / 180) = 884279719003555 / 562949953421312 :=
    toDouble_eval _ _ 0 7074237752028440 (by norm_num) (by norm_num) (by norm_num)
      (by norm_num) (by norm_num) (by norm_num)
  have h3 : toFloat (884279719003555 / 562949953421312) = 13176795 / 8388608 :=
    toFloat_eval _ _ 0 13176795 (by norm_num) (by norm_num) (by norm_num)
      (by norm_num) (by norm_num) (by norm_num)
  rw [h1, h2, h3]

/-- The angle `M_PI / 2` is in no band of the order 4 with the tolerance of `2^-20` degrees. -/
theorem quad_no_match :
    rotSymAngleMatch 4 (13176795 / 8388608) (1 / 1048576) (M_PI / 2) = false := by
  have ht1 : toDouble (1 / 1048576 * M_PI) = 884279719003555 / 295147905179352825856 :=
    toDouble_eval _ _ (-19) 7074237752028440 (by norm_num [M_PI]) (by norm_num [M_PI]) (by norm_num)
      (by norm_num [M_PI]) (by norm_num [M_PI]) (by norm_num)
  have ht2 : toDouble (884279719003555 / 295147905179352825856 / 180) = 5030569068109113 / 302231454903657293676544 :=
    toDouble_eval _ _ (-26) 5030569068109113 (by norm_num) (by norm_num) (by norm_num)
      (by norm_num) (by norm_num) (by norm_num)
  have hd0 : toDouble (M_PI / 2 - 0) = 884279719003555 / 562949953421312 :=
    toDouble_eval _ _ 0 7074237752028440 (by norm_num [M_PI]) (by norm_num [M_PI]) (by norm_num)
      (by norm_num [M_PI]) (by norm_num [M_PI]) (by norm_num)
  have hc1 : toFloat (13176795 / 8388608 * 1) = 13176795 / 8388608 :=
    toFloat_eval _ _ 0 13176795 (by norm_num) (by norm_num) (by norm_num)
      (by norm_num) (by norm_num) (by norm_num)
  have hd1 : toDouble (13176795 / 8388608 - M_PI / 2) = 24607325 / 562949953421312 :=
    toDouble_eval _ _ (-25) 6605478507315200 (by norm_num [M_PI]) (by norm_num [M_PI]) (by norm_num)
      (by norm_num [M_PI]) (by norm_num [M_PI]) (by norm_num)
  have hf2 : toFloat 2 = 2 := by
    simpa using toFloat_intCast 2 (by norm_num)
  have hc2 : toFloat (13176795 / 8388608 * 2) = 13176795 / 4194304 :=
    toFloat_eval _ _ 1 13176795 (by norm_num) (by norm_num) (by norm_num)
      (by norm_num) (by norm_num) (by norm_num)
  have hd2 : toDouble (13176795 / 4194304 - M_PI / 2) = 884279768218205 / 562949953421312 :=
    toDouble_eval _ _ 0 7074238145745640 (by norm_num [M_PI]) (by norm_num [M_PI]) (by norm_num)
      (by norm_num [M_PI]) (by norm_num [M_PI]) (by norm_num)
  have hf3 : toFloat 3 = 3 := by
    simpa using toFloat_intCast 3 (by norm_num)
  have hc3 : toFloat (13176795 / 8388608 * 3) = 2470649 / 524288 :=
    toFloat_eval _ _ 2 9882596 (by norm_num) (by norm_num) (by norm_num)
      (by norm_num) (by norm_num) (by norm_num)
  have hd3 : toDouble (2470649 / 524288 - M_PI / 2) = 1768559444720221 / 562949953421312 :=
    toDouble_eval _ _ 1 7074237778880884 (by norm_num [M_PI]) (by norm_num [M_PI]) (by norm_num)
      (by norm_num [M_PI]) (by norm_num [M_PI]) (by norm_num)
  have hsub : ∀ a b : ℚ, toDouble (a - b) = -toDouble (b - a) := fun a b => by
    rw [← toDouble_neg, neg_sub]
  rw [Bool.eq_false_iff]
  intro h
  obtain ⟨j, hj, habs⟩ := (rotSymAngleMatch_iff _ _ _ _).1 h
  rw [ht1, ht2] at habs
  have hj4 : j < 4 := by simpa using hj
  interval_cases j
  · simp only [Nat.cast_zero, toFloat_zero, mul_zero] at habs
    rw [hd0] at habs
    norm_num [abs_lt] at habs
  · simp only [Nat.cast_one, toFloat_one] at habs
    rw [hc1, hsub, hd1, abs_neg] at habs
    norm_num [abs_lt] at habs
  · simp only [Nat.cast_ofNat, hf2] at habs
    rw [hc2, hsub, hd2, abs_neg] at habs
    norm_num [abs_lt] at habs
  · simp only [Nat.cast_ofNat, hf3] at habs
    rw [hc3, hsub, hd3, abs_neg] at habs
    norm_num [abs_lt] at habs

/-- The integer quotient `360 / order` is stored in the float `degree_interval` without
rounding error. -/
theorem degree_interval_exact (order : Int) (h : 0 < order) :
    toFloat ((Int.tdiv 360 order : Int) : ℚ) = ((⌊(360 : ℚ) / (order : ℚ)⌋ : Int) : ℚ) := by
  rw [tdiv_360_floor order h]
  apply toFloat_intCast
  have hq : (0 : ℚ) < (order : ℚ) := by exact_mod_cast h
  have h0 : 0 ≤ ⌊(360 : ℚ) / (order : ℚ)⌋ :=
    Int.floor_nonneg.2 (div_nonneg (by norm_num) hq.le)
  have h1 : ⌊(360 : ℚ) / (order : ℚ)⌋ ≤ 360 := by
    have hle : (360 : ℚ) / (order : ℚ) ≤ 360 := by
      rw [div_le_iff₀ hq]
      have : (1 : ℚ) ≤ (order : ℚ) := by exact_mod_cast h
      nlinarith
    have : ((⌊(360 : ℚ) / (order : ℚ)⌋ : Int) : ℚ) ≤ ((360 : Int) : ℚ) := by
      push_cast
      exact (Int.floor_le _).trans hle
    exact_mod_cast this
  rw [abs_of_nonneg h0]
  omega

/-- The band centre number `j` of an axis of order `order`: the conversion of `j` to a float
is without effect on the product. -/
theorem band_centre_eq (order : Int) (h : 0 < order) (j : ℕ) (hj : (j : Int) < order) :
    toFloat (toFloat (toDouble (toDouble (((⌊(360 : ℚ) / (order : ℚ)⌋ : Int) : ℚ) * M_PI) /
        180)) * toFloat (j : ℚ)) =
      toFloat (toFloat (toDouble (toDouble (((⌊(360 : ℚ) / (order : ℚ)⌋ : Int) : ℚ) * M_PI) /
        180)) * (j : ℚ)) := by
  have hq : (0 : ℚ) < (order : ℚ) := by exact_mod_cast h
  by_cases hbig : order ≤ 360
  · have hj2 : toFloat (j : ℚ) = (j : ℚ) := by
      have := toFloat_intCast (j : Int) (by
        rw [abs_of_nonneg (by positivity)]
        omega)
      simpa using this
    rw [hj2]
  · have hfl : ⌊(360 : ℚ) / (order : ℚ)⌋ = 0 := by
      rw [Int.floor_eq_zero_iff]
      refine ⟨div_nonneg (by norm_num) hq.le, ?_⟩
      rw [div_lt_one hq]
      have : (360 : Int) < order := by omega
      exact_mod_cast this
    rw [hfl]
    simp [toDouble_zero, toFloat_zero]

/-- C28 fails as stated: axis z of order 4 with the tolerance `2^-20` degrees, error axis z (it
passes the axis-deviation test with the deviation 0) and rotation-error angle `M_PI / 2`, that
is exactly 90 degrees, which differs by 0 from `1 * floor( 360 / 4 )` degrees.  The code
rejects: `radian_interval` is the float nearest to `M_PI / 2`, which is `4.37e-8` above it,
more than the tolerance of `1.66e-8` radians. -/
theorem rot_sym_quarter_turn_rejected :
    quadCriteria.rot_sym_axes[0]? = some ⟨0, 0, 1⟩ ∧
    quadCriteria.rot_sym_order[0]? = some 4 ∧
    quadCriteria.rot_sym_axis_deviation_degree[0]? = some 5 ∧
    quadCriteria.rot_sym_tolerance_degree[0]? = some (1 / 1048576) ∧
    deviationTest (axisBiasDegree libm (Vector3.Dot ⟨0, 0, 1⟩ ⟨0, 0, 1⟩)) 5 = true ∧
    (∃ k : ℕ, (k : Int) < 4 ∧
      |M_PI / 2 * 180 / M_PI - (k : ℚ) * ((⌊(360 : ℚ) / ((4 : Int) : ℚ)⌋ : Int) : ℚ)| <
        1 / 1048576) ∧
    rotSymAxisStep libm quadCriteria (M_PI / 2) ⟨0, 0, 1⟩ false 0 = some false := by
  have hbias : axisBiasDegree libm (Vector3.Dot ⟨0, 0, 1⟩ ⟨0, 0, 1⟩) = some 0 := by
    rw [dot_z_z]
    exact axisBiasDegree_of_acos_zero libm 1 (by norm_num) (by norm_num [libm])
  have hpass : deviationTest (axisBiasDegree libm (Vector3.Dot ⟨0, 0, 1⟩ ⟨0, 0, 1⟩)) 5 =
      true := by
    rw [hbias]
    simp [deviationTest]
  refine ⟨rfl, rfl, rfl, rfl, hpass, ⟨1, by norm_num, ?_⟩, ?_⟩
  · have hfl : ⌊(360 : ℚ) / ((4 : Int) : ℚ)⌋ = 90 := by
      rw [Int.floor_eq_iff]
      norm_num
    have hne : M_PI ≠ 0 := ne_of_gt M_PI_pos
    have hdeg : M_PI / 2 * 180 / M_PI = 90 := by
      field_simp
      ring
    rw [hfl, hdeg]
    norm_num
  · have hdiv : Int.tdiv 360 4 = 90 := rfl
    have hf90 : toFloat 90 = 90 := by
      simpa using toFloat_intCast 90 (by norm_num)
    simp only [rotSymAxisStep, quadCriteria, List.getElem?_cons_zero, hdiv, hbias,
      deviationTest, Int.cast_ofNat, hf90, quad_radian_interval, quad_no_match]
    norm_num

/-- C28, as amended: for an axis of order `N >= 2` that passes the axis-deviation test as the
code computes it, the step of the rotational-symmetry loop entered with
`estimate_correct == false` returns, and it accepts exactly when, for some integer `k` with
`0 <= k < N`, the double nearest to the difference of the rotation-error angle (in radians)
and the float nearest to `k * radian_interval` is in absolute value strictly less than the
tolerance converted to radians in doubles, `radian_interval` being the float nearest to
`floor( 360 / N ) * M_PI / 180` computed in doubles; the centres `k * floor( 360 / N )` degrees
are the angles `k * 360 / N` exactly when `N` divides 360. -/
theorem rot_sym_interval_floor (m : CMath) (criteria : EvaluationCriteria)
    (error_quaternion_angle : ℚ) (error_quaternion_axis : Vector3) (i : Nat)
    (axis : Vector3) (order : Int) (deviation tolerance : ℚ)
    (haxis : criteria.rot_sym_axes[i]? = some axis)
    (horder : criteria.rot_sym_order[i]? = some order)
    (hdev : criteria.rot_sym_axis_deviation_degree[i]? = some deviation)
    (htol : criteria.rot_sym_tolerance_degree[i]? = some tolerance)
    (hN : 2 ≤ order)
    (hpass : deviationTest (axisBiasDegree m (axis.Dot error_quaternion_axis)) deviation =
      true) :
    (∃ b, rotSymAxisStep m criteria error_quaternion_angle error_quaternion_axis false i =
        some b ∧
      (b = true ↔ ∃ k : ℕ, (k : Int) < order ∧
        |toDouble (error_quaternion_angle -
          toFloat (toFloat (toDouble (toDouble
            (((⌊(360 : ℚ) / (order : ℚ)⌋ : Int) : ℚ) * M_PI) / 180)) * (k : ℚ)))| <
          toDouble (toDouble (tolerance * M_PI) / 180))) ∧
    ((∀ k : ℕ, (k : Int) < order →
        (k : ℚ) * ((⌊(360 : ℚ) / (order : ℚ)⌋ : Int) : ℚ) = (k : ℚ) * 360 / (order : ℚ)) ↔
      order ∣ 360) := by
  have hpos : 0 < order := by omega
  have hne : order ≠ 0 := by omega
  have hq : (order : ℚ) ≠ 0 := by exact_mod_cast hne
  constructor
  · refine ⟨rotSymAngleMatch order
      (toFloat (toDouble (toDouble (toFloat ((Int.tdiv 360 order : Int) : ℚ) * M_PI) / 180)))
      tolerance error_quaternion_angle, ?_, ?_⟩
    · simp only [rotSymAxisStep, haxis, horder, hdev, htol, hne, if_false, hpass, if_true, hpos,
        Bool.false_or]
    · rw [rotSymAngleMatch_iff, degree_interval_exact order hpos]
      constructor
      · rintro ⟨j, hj, habs⟩
        have hjo : (j : Int) < order := by omega
        refine ⟨j, hjo, ?_⟩
        rw [← band_centre_eq order hpos j hjo]
        exact habs
      · rintro ⟨k, hk, habs⟩
        refine ⟨k, by omega, ?_⟩
        rw [band_centre_eq order hpos k hk]
        exact habs
  · constructor
    · intro h
      have h1 := h 1 (by omega)
      simp only [Nat.cast_one, one_mul] at h1
      have h2 : ((⌊(360 : ℚ) / (order : ℚ)⌋ * order : Int) : ℚ) = ((360 : Int) : ℚ) := by
        push_cast
        rw [h1]
        field_simp
      exact ⟨⌊(360 : ℚ) / (order : ℚ)⌋, by rw [mul_comm]; exact_mod_cast h2.symm⟩
    · rintro ⟨c, hc⟩ k _
      have hc2 : (360 : ℚ) = (order : ℚ) * (c : ℚ) := by exact_mod_cast hc
      have hfl : ⌊(360 : ℚ) / (order : ℚ)⌋ = c := by
        rw [hc2, mul_div_cancel_left₀ _ hq]
        exact Int.floor_intCast c
      rw [hfl, hc2]
      field_simp
      ring

/-- Witness of C28 on the axis of order 7 of the gear criteria: the deviation test passes for
the error axis z, and the centres are multiples of 51 degrees since 7 does not divide 360. -/
theorem rot_sym_interval_floor_witness :
    (∃ b, rotSymAxisStep libm gearCriteria (51 * M_PI / 180) ⟨0, 0, 1⟩ false 0 = some b ∧
      (b = true ↔ ∃ k : ℕ, (k : Int) < 7 ∧
        |toDouble (51 * M_PI / 180 -
          toFloat (toFloat (toDouble (toDouble
            (((⌊(360 : ℚ) / ((7 : Int) : ℚ)⌋ : Int) : ℚ) * M_PI) / 180)) * (k : ℚ)))| <
          toDouble (toDouble (2 / 10 * M_PI) / 180))) ∧
    ((∀ k : ℕ, (k : Int) < 7 →
        (k : ℚ) * ((⌊(360 : ℚ) / ((7 : Int) : ℚ)⌋ : Int) : ℚ) =
          (k : ℚ) * 360 / ((7 : Int) : ℚ)) ↔
      (7 : Int) ∣ 360) :=
  rot_sym_interval_floor libm gearCriteria (51 * M_PI / 180) ⟨0, 0, 1⟩ 0 ⟨0, 0, 1⟩ 7 5 (2 / 10)
    rfl rfl rfl rfl (by norm_num)
    (by
      rw [dot_z_z, axisBiasDegree_of_acos_zero libm 1 (by norm_num) (by norm_num [libm])]
      simp [deviationTest])

/-! ## Claims on the loaded criteria -/

/-- One `axis_<idx>` element keeps the four per-axis vectors of the same length, the orders at
least 2 and the tolerances non-negative. -/
theorem loadRotAxis_well_formed (m : CMath) (c : EvaluationCriteria) (x : RotAxisXml)
    (h : c.rot_sym_order.length = c.rot_sym_axes.length ∧
      c.rot_sym_tolerance_degree.length = c.rot_sym_axes.length ∧
      c.rot_sym_axis_deviation_degree.length = c.rot_sym_axes.length ∧
      (∀ o ∈ c.rot_sym_order, (2 : Int) ≤ o) ∧
      (∀ t ∈ c.rot_sym_tolerance_degree, (0 : ℚ) ≤ t) ∧
      (∀ d ∈ c.rot_sym_axis_deviation_degree, (0 : ℚ) ≤ d)) :
    (loadRotAxis m c x).rot_sym_order.length = (loadRotAxis m c x).rot_sym_axes.length ∧
      (loadRotAxis m c x).rot_sym_tolerance_degree.length =
        (loadRotAxis m c x).rot_sym_axes.length ∧
      (loadRotAxis m c x).rot_sym_axis_deviation_degree.length =
        (loadRotAxis m c x).rot_sym_axes.length ∧
      (∀ o ∈ (loadRotAxis m c x).rot_sym_order, (2 : Int) ≤ o) ∧
      (∀ t ∈ (loadRotAxis m c x).rot_sym_tolerance_degree, (0 : ℚ) ≤ t) ∧
      (∀ d ∈ (loadRotAxis m c x).rot_sym_axis_deviation_degree, (0 : ℚ) ≤ d) ∧
      (loadRotAxis m c x).has_rotational_symmetry = c.has_rotational_symmetry := by
  obtain ⟨h1, h2, h3, h4, h5, h6⟩ := h
  unfold loadRotAxis
  simp only []
  split_ifs with g1 g2 g3 g4
  · exact ⟨h1, h2, h3, h4, h5, h6, rfl⟩
  · exact ⟨h1, h2, h3, h4, h5, h6, rfl⟩
  · exact ⟨h1, h2, h3, h4, h5, h6, rfl⟩
  · exact ⟨h1, h2, h3, h4, h5, h6, rfl⟩
  · push_neg at g2 g3
    refine ⟨by simp [h1], by simp [h2], by simp [h3], ?_, ?_, ?_, rfl⟩
    · intro o ho
      rcases List.mem_append.1 ho with ho | ho
      · exact h4 o ho
      · rw [List.mem_singleton.1 ho]
        exact g2
    · intro t ht
      rcases List.mem_append.1 ht with ht | ht
      · exact h5 t ht
      · rw [List.mem_singleton.1 ht]
        exact g3.1
    · intro d hd
      rcases List.mem_append.1 hd with hd | hd
      · exact h6 d hd
      · rw [List.mem_singleton.1 hd]
        exact g3.2

theorem foldl_loadRotAxis_well_formed (m : CMath) (axes : List RotAxisXml) :
    ∀ c : EvaluationCriteria,
      (c.rot_sym_order.length = c.rot_sym_axes.length ∧
        c.rot_sym_tolerance_degree.length = c.rot_sym_axes.length ∧
        c.rot_sym_axis_deviation_degree.length = c.rot_sym_axes.length ∧
        (∀ o ∈ c.rot_sym_order, (2 : Int) ≤ o) ∧
        (∀ t ∈ c.rot_sym_tolerance_degree, (0 : ℚ) ≤ t) ∧
        (∀ d ∈ c.rot_sym_axis_deviation_degree, (0 : ℚ) ≤ d)) →
      (axes.foldl (loadRotAxis m) c).rot_sym_order.length =
          (axes.foldl (loadRotAxis m) c).rot_sym_axes.length ∧
        (axes.foldl (loadRotAxis m) c).rot_sym_tolerance_degree.length =
          (axes.foldl (loadRotAxis m) c).rot_sym_axes.length ∧
        (axes.foldl (loadRotAxis m) c).rot_sym_axis_deviation_degree.length =
          (axes.foldl (loadRotAxis m) c).rot_sym_axes.length ∧
        (∀ o ∈ (axes.foldl (loadRotAxis m) c).rot_sym_order, (2 : Int) ≤ o) ∧
        (∀ t ∈ (axes.foldl (loadRotAxis m) c).rot_sym_tolerance_degree, (0 : ℚ) ≤ t) ∧
        (∀ d ∈ (axes.foldl (loadRotAxis m) c).rot_sym_axis_deviation_degree, (0 : ℚ) ≤ d) := by
  induction axes with
  | nil =>
    intro c h
    exact h
  | cons x rest ih =>
    intro c h
    obtain ⟨a1, a2, a3, a4, a5, a6, _⟩ := loadRotAxis_well_formed m c x h
    exact ih (loadRotAxis m c x) ⟨a1, a2, a3, a4, a5, a6⟩

/-- The criteria of one class after `_initParameters`: the four per-axis vectors have the same
length, the orders are at least 2, the tolerances are non-negative, and the rotational mode is
on only with at least one axis. -/
theorem loadCriteria_well_formed (m : CMath) (fresh : EvaluationCriteria)
    (x : TargetModelXml) :
    (loadCriteria m fresh x).rot_sym_order.length =
        (loadCriteria m fresh x).rot_sym_axes.length ∧
      (loadCriteria m fresh x).rot_sym_tolerance_degree.length =
        (loadCriteria m fresh x).rot_sym_axes.length ∧
      (loadCriteria m fresh x).rot_sym_axis_deviation_degree.length =
        (loadCriteria m fresh x).rot_sym_axes.length ∧
      (∀ o ∈ (loadCriteria m fresh x).rot_sym_order, (2 : Int) ≤ o) ∧
      (∀ t ∈ (loadCriteria m fresh x).rot_sym_tolerance_degree, (0 : ℚ) ≤ t) ∧
      (∀ d ∈ (loadCriteria m fresh x).rot_sym_axis_deviation_degree, (0 : ℚ) ≤ d) ∧
      ((loadCriteria m fresh x).has_rotational_symmetry = true →
        (loadCriteria m fresh x).rot_sym_axes ≠ []) := by
  have hrot : ∀ c : EvaluationCriteria,
      c.rot_sym_axes = [] → c.rot_sym_order = [] → c.rot_sym_tolerance_degree = [] →
      c.rot_sym_axis_deviation_degree = [] →
      (loadRotationalSymmetry m x c).rot_sym_order.length =
          (loadRotationalSymmetry m x c).rot_sym_axes.length ∧
        (loadRotationalSymmetry m x c).rot_sym_tolerance_degree.length =
          (loadRotationalSymmetry m x c).rot_sym_axes.length ∧
        (loadRotationalSymmetry m x c).rot_sym_axis_deviation_degree.length =
          (loadRotationalSymmetry m x c).rot_sym_axes.length ∧
        (∀ o ∈ (loadRotationalSymmetry m x c).rot_sym_order, (2 : Int) ≤ o) ∧
        (∀ t ∈ (loadRotationalSymmetry m x c).rot_sym_tolerance_degree, (0 : ℚ) ≤ t) ∧
        (∀ d ∈ (loadRotationalSymmetry m x c).rot_sym_axis_deviation_degree, (0 : ℚ) ≤ d) ∧
        ((loadRotationalSymmetry m x c).has_rotational_symmetry = true →
          (loadRotationalSymmetry m x c).rot_sym_axes ≠ []) := by
    intro c e1 e2 e3 e4
    unfold loadRotationalSymmetry
    simp only []
    split_ifs with g1 g2
    · obtain ⟨a1, a2, a3, a4, a5, a6⟩ := foldl_loadRotAxis_well_formed m
        x.rotational_symmetry_axes
        { c with has_rotational_symmetry := x.rotational_symmetry_enable.getD false }
        (by simp [e1, e2, e3, e4])
      exact ⟨a1, a2, a3, a4, a5, a6, by simp⟩
    · obtain ⟨a1, a2, a3, a4, a5, a6⟩ := foldl_loadRotAxis_well_formed m
        x.rotational_symmetry_axes
        { c with has_rotational_symmetry := x.rotational_symmetry_enable.getD false }
        (by simp [e1, e2, e3, e4])
      refine ⟨a1, a2, a3, a4, a5, a6, fun _ hnil => g2 ?_⟩
      rw [hnil]
      rfl
    · simp only [e1, e2, e3, e4]
      refine ⟨rfl, rfl, rfl, by simp, by simp, by simp, fun h => absurd h g1⟩
  have hcir : ∀ c : EvaluationCriteria,
      (loadCircularSymmetry m x c).rot_sym_axes = c.rot_sym_axes ∧
      (loadCircularSymmetry m x c).rot_sym_order = c.rot_sym_order ∧
      (loadCircularSymmetry m x c).rot_sym_tolerance_degree = c.rot_sym_tolerance_degree ∧
      (loadCircularSymmetry m x c).rot_sym_axis_deviation_degree =
        c.rot_sym_axis_deviation_degree ∧
      (loadCircularSymmetry m x c).has_rotational_symmetry = c.has_rotational_symmetry := by
    intro c
    unfold loadCircularSymmetry
    simp only []
    split_ifs <;> exact ⟨rfl, rfl, rfl, rfl, rfl⟩
  have hcyl : ∀ c : EvaluationCriteria,
      (loadCylinderLike m x c).rot_sym_axes = c.rot_sym_axes ∧
      (loadCylinderLike m x c).rot_sym_order = c.rot_sym_order ∧
      (loadCylinderLike m x c).rot_sym_tolerance_degree = c.rot_sym_tolerance_degree ∧
      (loadCylinderLike m x c).rot_sym_axis_deviation_degree =
        c.rot_sym_axis_deviation_degree ∧
      (loadCylinderLike m x c).has_rotational_symmetry = c.has_rotational_symmetry := by
    intro c
    unfold loadCylinderLike
    simp only []
    split_ifs <;> exact ⟨rfl, rfl, rfl, rfl, rfl⟩
  unfold loadCriteria
  simp only []
  obtain ⟨b1, b2, b3, b4, b5⟩ := hcyl (loadCircularSymmetry m x (loadRotationalSymmetry m x
    { fresh with
      rot_sym_axes := []
      rot_sym_order := []
      rot_sym_tolerance_degree := []
      rot_sym_axis_deviation_degree := []
      translation_threshold := x.translation_threshold.getD (25 / 10000)
      quaternion_degree_threshold := x.quaternion_degree_threshold.getD 10 }))
  obtain ⟨c1, c2, c3, c4, c5⟩ := hcir (loadRotationalSymmetry m x
    { fresh with
      rot_sym_axes := []
      rot_sym_order := []
      rot_sym_tolerance_degree := []
      rot_sym_axis_deviation_degree := []
      translation_threshold := x.translation_threshold.getD (25 / 10000)
      quaternion_degree_threshold := x.quaternion_degree_threshold.getD 10 })
  rw [b1, b2, b3, b4, b5, c1, c2, c3, c4, c5]
  exact hrot _ rfl rfl rfl rfl

/-- On criteria whose four per-axis vectors have the same length and whose orders are not 0,
the step of the rotational-symmetry loop returns for every axis number in range. -/
theorem rotSymAxisStep_defined (m : CMath) (c : EvaluationCriteria) (angle : ℚ) (e : Vector3)
    (h1 : c.rot_sym_order.length = c.rot_sym_axes.length)
    (h2 : c.rot_sym_tolerance_degree.length = c.rot_sym_axes.length)
    (h3 : c.rot_sym_axis_deviation_degree.length = c.rot_sym_axes.length)
    (h4 : ∀ o ∈ c.rot_sym_order, (2 : Int) ≤ o) (b : Bool) (i : Nat)
    (hi : i < c.rot_sym_axes.length) :
    ∃ b1, rotSymAxisStep m c angle e b i = some b1 := by
  have ha : c.rot_sym_axes[i]? = some (c.rot_sym_axes.get ⟨i, hi⟩) :=
    List.getElem?_eq_getElem hi
  have ho : c.rot_sym_order[i]? = some (c.rot_sym_order.get ⟨i, by omega⟩) :=
    List.getElem?_eq_getElem (by omega)
  have ht : c.rot_sym_tolerance_degree[i]? =
      some (c.rot_sym_tolerance_degree.get ⟨i, by omega⟩) :=
    List.getElem?_eq_getElem (by omega)
  have hd : c.rot_sym_axis_deviation_degree[i]? =
      some (c.rot_sym_axis_deviation_degree.get ⟨i, by omega⟩) :=
    List.getElem?_eq_getElem (by omega)
  have hord : (2 : Int) ≤ c.rot_sym_order.get ⟨i, by omega⟩ := h4 _ (List.get_mem _ _ _)
  have hne : c.rot_sym_order.get ⟨i, by omega⟩ ≠ 0 := by omega
  have hpos : 0 < c.rot_sym_order.get ⟨i, by omega⟩ := by omega
  simp only [rotSymAxisStep, ha, ho, ht, hd, hne, if_false, hpos, if_true]
  split_ifs <;> exact ⟨_, rfl⟩

theorem foldlM_defined (f : Bool → Nat → Option Bool) :
    ∀ (l : List Nat) (b : Bool), (∀ i ∈ l, ∀ b0, ∃ b1, f b0 i = some b1) →
      ∃ b2, l.foldlM f b = some b2 := by
  intro l
  induction l with
  | nil =>
    intro b _
    exact ⟨b, rfl⟩
  | cons i rest ih =>
    intro b h
    obtain ⟨b1, hb1⟩ := h i (by simp) b
    obtain ⟨b2, hb2⟩ := ih b1 (fun j hj => h j (List.mem_cons_of_mem _ hj))
    exact ⟨b2, by simp [List.foldlM, hb1, hb2]⟩

/-- C29: every criteria record of `m_criteria` after `_initParameters` has its four per-axis
vectors of the same length, every order at least 2, every tolerance and every deviation
tolerance non-negative, and the rotational mode on only when an axis was stored; on such a
record the rotational-symmetry loop and the whole classifier return a value: no division by an
order 0 and no index out of range. -/
theorem loaded_criteria_well_formed (m : CMath) (fresh : EvaluationCriteria)
    (models : List TargetModelXml) (criteria : EvaluationCriteria)
    (hmem : criteria ∈ loadTargetModels m fresh models) :
    criteria.rot_sym_order.length = criteria.rot_sym_axes.length ∧
    criteria.rot_sym_tolerance_degree.length = criteria.rot_sym_axes.length ∧
    criteria.rot_sym_axis_deviation_degree.length = criteria.rot_sym_axes.length ∧
    (∀ o ∈ criteria.rot_sym_order, (2 : Int) ≤ o) ∧
    (∀ t ∈ criteria.rot_sym_tolerance_degree, (0 : ℚ) ≤ t) ∧
    (∀ d ∈ criteria.rot_sym_axis_deviation_degree, (0 : ℚ) ≤ d) ∧
    (criteria.has_rotational_symmetry = true → criteria.rot_sym_axes ≠ []) ∧
    (∀ (angle : ℚ) (e : Vector3) (b : Bool) (i : Nat), i < criteria.rot_sym_axes.length →
      ∃ b1, rotSymAxisStep m criteria angle e b i = some b1) ∧
    (∀ (angle : ℚ) (e : Vector3), ∃ b, rotSymLoop m criteria angle e = some b) ∧
    (∀ (nearest_name target_name : List Char) (translate_error angle : ℚ) (e : Vector3),
      ∃ b, estimateCorrect m nearest_name target_name criteria translate_error angle e =
        some b) := by
  unfold loadTargetModels at hmem
  obtain ⟨x, _, hx⟩ := List.mem_map.1 hmem
  obtain ⟨h1, h2, h3, h4, h5, h6, h7⟩ := loadCriteria_well_formed m fresh x
  rw [hx] at h1 h2 h3 h4 h5 h6 h7
  have hstep : ∀ (angle : ℚ) (e : Vector3) (b : Bool) (i : Nat),
      i < criteria.rot_sym_axes.length →
      ∃ b1, rotSymAxisStep m criteria angle e b i = some b1 :=
    fun angle e b i hi => rotSymAxisStep_defined m criteria angle e h1 h2 h3 h4 b i hi
  have hloop : ∀ (angle : ℚ) (e : Vector3), ∃ b, rotSymLoop m criteria angle e = some b := by
    intro angle e
    unfold rotSymLoop
    exact foldlM_defined _ _ false
      (fun i hi b0 => hstep angle e b0 i (List.mem_range.1 hi))
  refine ⟨h1, h2, h3, h4, h5, h6, h7, hstep, hloop, ?_⟩
  intro nn tn te angle e
  unfold estimateCorrect
  simp only []
  split_ifs
  · exact ⟨_, rfl⟩
  · exact ⟨_, rfl⟩
  · exact hloop angle e
  · exact ⟨_, rfl⟩
  · exact ⟨_, rfl⟩
  · exact ⟨_, rfl⟩

/-- Witness of C29 on a class with three axis elements, of which only the first one (order 7)
is valid: the record loaded for it is well formed and the classifier returns on it. -/
theorem loaded_criteria_well_formed_witness :
    (loadCriteria libm plainCriteria gearXml).rot_sym_order = [7] ∧
    (loadCriteria libm plainCriteria gearXml).rot_sym_order.length =
      (loadCriteria libm plainCriteria gearXml).rot_sym_axes.length ∧
    (∀ o ∈ (loadCriteria libm plainCriteria gearXml).rot_sym_order, (2 : Int) ≤ o) ∧
    (∀ (angle : ℚ) (e : Vector3),
      ∃ b, rotSymLoop libm (loadCriteria libm plainCriteria gearXml) angle e = some b) := by
  obtain ⟨h1, _, _, h4, _, _, _, _, h9, _⟩ :=
    loaded_criteria_well_formed libm plainCriteria [gearXml]
      (loadCriteria libm plainCriteria gearXml)
      (by simp [loadTargetModels, gearXml])
  refine ⟨?_, h1, h4, h9⟩
  norm_num [loadCriteria, loadCylinderLike, loadCircularSymmetry, loadRotationalSymmetry,
    loadRotAxis, gearXml, Vector3.equal, List.foldl]

/-! ## Claims on the rethrow of the objects -/

theorem throwAngle_eq (angleIndex : Int) : throwAngle angleIndex = 45 * (angleIndex : ℚ) := by
  have hne : M_PI ≠ 0 := ne_of_gt M_PI_pos
  simp only [throwAngle, Angle.SetFromDegree, Angle.Degree]
  push_cast
  field_simp

/-- C26, evaluated at the failing draws: for every angle index `k` from 1 to 7 the angle handed
to the axis-angle constructor is the number `45 * k`, the value in degrees, and not
`k * M_PI / 4`, which is what `Angle::Radian` would give; the two do not differ by a multiple
of a full turn, so the orientation is not the rotation by `k * 45` degrees.  The axis is x for
the axis index 0 and y for the axis index 1, as claimed. -/
theorem rethrow_angle_in_degrees (angleIndex : Int) (h1 : 1 ≤ angleIndex)
    (h7 : angleIndex ≤ 7) :
    throwAngle angleIndex = 45 * (angleIndex : ℚ) ∧
    (Angle.SetFromDegree ((45 * angleIndex : Int) : ℚ)).Radian = (angleIndex : ℚ) * M_PI / 4 ∧
    throwAngle angleIndex ≠ (angleIndex : ℚ) * M_PI / 4 ∧
    (∀ n : Int, throwAngle angleIndex - (angleIndex : ℚ) * M_PI / 4 ≠ (n : ℚ) * (2 * M_PI)) ∧
    throwAxis 0 = ⟨1, 0, 0⟩ ∧ throwAxis 1 = ⟨0, 1, 0⟩ := by
  have hk1 : (1 : ℚ) ≤ (angleIndex : ℚ) := by exact_mod_cast h1
  have hk7 : (angleIndex : ℚ) ≤ 7 := by exact_mod_cast h7
  have hturn : ∀ n : Int,
      45 * (angleIndex : ℚ) - (angleIndex : ℚ) * M_PI / 4 ≠ (n : ℚ) * (2 * M_PI) := by
    intro n hn
    by_cases hle : n ≤ 7 * angleIndex
    · have hq : (n : ℚ) ≤ 7 * (angleIndex : ℚ) := by exact_mod_cast hle
      have : (n : ℚ) * (2 * M_PI) ≤ 7 * (angleIndex : ℚ) * (2 * M_PI) :=
        mul_le_mul_of_nonneg_right hq (by norm_num [M_PI])
      rw [← hn] at this
      norm_num [M_PI] at this
      linarith
    · have hge : 7 * angleIndex + 1 ≤ n := by omega
      have hq : 7 * (angleIndex : ℚ) + 1 ≤ (n : ℚ) := by exact_mod_cast hge
      have : (7 * (angleIndex : ℚ) + 1) * (2 * M_PI) ≤ (n : ℚ) * (2 * M_PI) :=
        mul_le_mul_of_nonneg_right hq (by norm_num [M_PI])
      rw [← hn] at this
      norm_num [M_PI] at this
      linarith
  refine ⟨throwAngle_eq angleIndex, ?_, ?_, ?_, rfl, rfl⟩
  · simp only [Angle.SetFromDegree, Angle.Radian]
    push_cast
    ring
  · rw [throwAngle_eq]
    intro h
    have := hturn 0
    rw [h] at this
    simp at this
  · rw [throwAngle_eq]
    exact hturn

/-- Witness of C26 at the angle index 1: the constructor receives 45, not `M_PI / 4`. -/
theorem rethrow_angle_in_degrees_witness :
    throwAngle 1 = 45 ∧ throwAngle 1 ≠ M_PI / 4 := by
  obtain ⟨h, _, hne, _⟩ := rethrow_angle_in_degrees 1 (by norm_num) (by norm_num)
  constructor
  · simpa using h
  · simpa using hne

/-! ## Claims on the rethrow grid -/

end EvaluationPlatform
